import Mathlib

/-!
# Material shader target: selection analyzer, registry, generation, compilation, cache

A shallow embedding of `examples/mdl_sdk/dxr/mdl_d3d12/mdl_material_target.cpp`.

Conventions of the embedding

* C++ objects reached through pointers live in an explicit store; a pointer is a
  natural number.
* `size_t` and `mi::Size` are naturals below `2 ^ 64`; where a value is written
  to a file the reduction modulo `2 ^ 64` is explicit.
* A `float` is its IEEE-754 binary32 bit pattern (a natural below `2 ^ 32`); the
  only operation the code applies to one is the comparison with `0.0f`.
* Services the code calls but does not implement (MDL backend, platform shader
  compiler, descriptor heap, file system) are fields of a record of outcomes.
* A run that dereferences a null pointer or an end iterator ends in
  `Outcome.undefined`.
-/

namespace MdlD3d12

/-! ## Compiled materials (the part of the MDL API the analyzer reads) -/

/-- A `float` as its binary32 bit pattern. -/
abbrev Float32 := Nat

/-- The C++ test `x != 0.0f`: true unless `x` is `+0.0` or `-0.0`
(all bits below the sign bit clear); a NaN compares unequal. -/
def float_ne_zero (x : Float32) : Bool := x % 2 ^ 31 != 0

/-- The value kinds of `mi::neuraylib::IValue` that the analyzer tells apart. -/
inductive Value where
  | vk_bool (value : Bool)
  | vk_color (channels : List Float32)
  | vk_invalid_df
  | vk_other (kind : Nat)
  deriving DecidableEq, Repr

/-- The expression kinds of `mi::neuraylib::IExpression`. -/
inductive Expression where
  | ek_constant (value : Value)
  | ek_call
  | ek_parameter
  | ek_direct_call
  | ek_temporary
  deriving DecidableEq, Repr

/-- The slots whose hashes `add_material_to_link_unit` compares. -/
inductive Material_slot where
  | SLOT_SURFACE_SCATTERING
  | SLOT_BACKFACE_SCATTERING
  | SLOT_SURFACE_EMISSION_EDF_EMISSION
  | SLOT_BACKFACE_EMISSION_EDF_EMISSION
  deriving DecidableEq, Repr

/-- An `ICompiled_material`: sub-expressions addressed by path, and slot hashes. -/
structure Compiled_material where
  lookup_sub_expression : String → Expression
  get_slot_hash : Material_slot → Nat

/-- A `mi::neuraylib::Target_function_description`: the expression path, the base
name of the generated function, and the argument-block index the backend fills in. -/
structure Target_function_description where
  path : String
  base_fname : String
  argument_block_index : Nat
  deriving DecidableEq, Repr

/-- The record `Mdl_material_target_interface`. -/
structure Mdl_material_target_interface where
  has_init : Bool
  has_surface_scattering : Bool
  has_surface_emission : Bool
  has_backface_scattering : Bool
  has_backface_emission : Bool
  has_volume_absorption : Bool
  can_be_thin_walled : Bool
  argument_layout_index : Nat
  deriving DecidableEq, Repr

/-- Modelled from the spec: the header that declares `Mdl_material_target_interface`
and its default constructor is not among the sources. A fresh interface descriptor
has every feature flag false; the initial layout index is left as an argument. -/
def Mdl_material_target_interface.fresh (index : Nat) : Mdl_material_target_interface :=
  { has_init := false
    has_surface_scattering := false
    has_surface_emission := false
    has_backface_scattering := false
    has_backface_emission := false
    has_volume_absorption := false
    can_be_thin_walled := false
    argument_layout_index := index }

/-- An `ILink_unit`, observed through the groups of functions submitted to it,
in submission order. -/
structure Link_unit where
  groups : List (List Target_function_description)
  deriving DecidableEq, Repr

/-- What one `ILink_unit::add_material` call leaves behind: whether the execution
context holds a message of error severity afterwards (then `log_messages` returns
false), and the argument-block index written into the submitted descriptions. -/
structure Add_material_result where
  error : Bool
  argument_block_index : Nat
  deriving DecidableEq, Repr

/-- The MDL backend as far as `add_material_to_link_unit` uses it. `unset_index`
is the value a newly constructed `Target_function_description` carries in
`argument_block_index` (the constructor is declared in an SDK header outside the
sources). -/
structure Backend where
  unset_index : Nat
  add_material :
    Link_unit → Compiled_material → List Target_function_description → Add_material_result

/-- The lambda `is_invalid_df` (lines 299-314). -/
def is_invalid_df (compiled_material : Compiled_material) (expression_path : String) : Bool :=
  match compiled_material.lookup_sub_expression expression_path with
  | .ek_constant value =>
    match value with
    | .vk_invalid_df => true
    | _ => false
  | _ => false

/-- The lambda `is_constant_black_color` (lines 318-342): a constant of colour type
none of whose channels compares unequal to `0.0f`. -/
def is_constant_black_color (compiled_material : Compiled_material)
    (expression_path : String) : Bool :=
  match compiled_material.lookup_sub_expression expression_path with
  | .ek_constant value =>
    match value with
    | .vk_color channels => channels.all (fun element => !float_ne_zero element)
    | _ => false
  | _ => false

/-- The lambda `is_constant_false` (lines 346-364). -/
def is_constant_false (compiled_material : Compiled_material) (expression_path : String) : Bool :=
  match compiled_material.lookup_sub_expression expression_path with
  | .ek_constant value =>
    match value with
    | .vk_bool b => b == false
    | _ => false
  | _ => false

/-- The vector `selected_functions` together with the interface record, as they are
threaded through lines 366-435. -/
structure Selection where
  selected_functions : List Target_function_description
  interface_data : Mdl_material_target_interface

/-- Lines 366-370: the vector starts with the entry `init`. -/
def select_init (backend : Backend) (interface_data : Mdl_material_target_interface) :
    Selection :=
  { selected_functions := [⟨"init", "mdl_init", backend.unset_index⟩]
    interface_data := interface_data }

/-- Lines 372-378. -/
def select_surface_scattering (backend : Backend) (cm : Compiled_material) (s : Selection) :
    Selection :=
  if !is_invalid_df cm "surface.scattering" then
    { selected_functions := s.selected_functions ++
        [⟨"surface.scattering", "mdl_surface_scattering", backend.unset_index⟩]
      interface_data := { s.interface_data with has_surface_scattering := true } }
  else s

/-- Lines 380-388. -/
def select_surface_emission (backend : Backend) (cm : Compiled_material) (s : Selection) :
    Selection :=
  if !is_invalid_df cm "surface.emission.emission" &&
      !is_constant_black_color cm "surface.emission.intensity" then
    { selected_functions := s.selected_functions ++
        [⟨"surface.emission.emission", "mdl_surface_emission", backend.unset_index⟩,
         ⟨"surface.emission.intensity", "mdl_surface_emission_intensity",
           backend.unset_index⟩]
      interface_data := { s.interface_data with has_surface_emission := true } }
  else s

/-- Lines 390-396. -/
def select_volume_absorption (backend : Backend) (cm : Compiled_material) (s : Selection) :
    Selection :=
  if !is_constant_black_color cm "volume.absorption_coefficient" then
    { selected_functions := s.selected_functions ++
        [⟨"volume.absorption_coefficient", "mdl_volume_absorption_coefficient",
           backend.unset_index⟩]
      interface_data := { s.interface_data with has_volume_absorption := true } }
  else s

/-- Lines 408-413 and 415-419: the two booleans `need_backface_bsdf` and
`need_backface_edf` after both have been and-ed with `none_default_backface`. -/
def need_backface (cm : Compiled_material) : Bool × Bool :=
  let need_backface_bsdf :=
    cm.get_slot_hash .SLOT_SURFACE_SCATTERING != cm.get_slot_hash .SLOT_BACKFACE_SCATTERING
  let need_backface_edf :=
    cm.get_slot_hash .SLOT_SURFACE_EMISSION_EDF_EMISSION !=
      cm.get_slot_hash .SLOT_BACKFACE_EMISSION_EDF_EMISSION
  let none_default_backface :=
    !is_invalid_df cm "backface.scattering" || !is_invalid_df cm "backface.emission.emission"
  (need_backface_bsdf && none_default_backface, need_backface_edf && none_default_backface)

/-- Lines 398-435. -/
def select_thin_walled (backend : Backend) (cm : Compiled_material) (s : Selection) :
    Selection :=
  if !is_constant_false cm "thin_walled" then
    let s1 : Selection :=
      { selected_functions := s.selected_functions ++
          [⟨"thin_walled", "mdl_thin_walled", backend.unset_index⟩]
        interface_data := { s.interface_data with can_be_thin_walled := true } }
    if (need_backface cm).1 || (need_backface cm).2 then
      { selected_functions := s1.selected_functions ++
          [⟨"backface.scattering", "mdl_backface_scattering", backend.unset_index⟩,
           ⟨"backface.emission.emission", "mdl_backface_emission", backend.unset_index⟩,
           ⟨"backface.emission.intensity", "mdl_backface_emission_intensity",
             backend.unset_index⟩]
        interface_data :=
          { s1.interface_data with
            has_backface_scattering := true
            has_backface_emission := true } }
    else s1
  else s

/-- Lines 366-435 in sequence. -/
def select_functions (backend : Backend) (cm : Compiled_material)
    (interface_data : Mdl_material_target_interface) : Selection :=
  select_thin_walled backend cm
    (select_volume_absorption backend cm
      (select_surface_emission backend cm
        (select_surface_scattering backend cm (select_init backend interface_data))))

/-- The description `standalone_opacity` of line 452. -/
def standalone_opacity (backend : Backend) : Target_function_description :=
  ⟨"geometry.cutout_opacity", "mdl_standalone_geometry_cutout_opacity", backend.unset_index⟩

/-- The call `ILink_unit::add_material` records the group and writes the assigned index into
each description of the array it was given. -/
def assign_index (index : Nat) (fs : List Target_function_description) :
    List Target_function_description :=
  fs.map (fun f => { f with argument_block_index := index })

/-- What `add_material_to_link_unit` leaves behind: its return value, the interface
record it wrote through the reference, the link unit, and the local vector
`selected_functions` as it stands when the function returns. -/
structure Add_material_outcome where
  result : Bool
  interface_data : Mdl_material_target_interface
  link_unit : Link_unit
  selected_functions : List Target_function_description

/-- The member function `Mdl_material_target::add_material_to_link_unit` (lines 278-467). -/
def add_material_to_link_unit (backend : Backend)
    (interface_data : Mdl_material_target_interface) (compiled_material : Compiled_material)
    (link_unit : Link_unit) : Add_material_outcome :=
  let s := select_functions backend compiled_material interface_data
  -- lines 437-448
  if 1 < s.selected_functions.length then
    let interface1 := { s.interface_data with has_init := true }
    let r1 := backend.add_material link_unit compiled_material s.selected_functions
    let unit1 : Link_unit := ⟨link_unit.groups ++ [s.selected_functions]⟩
    let selected1 := assign_index r1.argument_block_index s.selected_functions
    if r1.error then
      ⟨false, interface1, unit1, selected1⟩
    else
      -- lines 450-466
      let r2 := backend.add_material unit1 compiled_material [standalone_opacity backend]
      let unit2 : Link_unit := ⟨unit1.groups ++ [[standalone_opacity backend]]⟩
      if r2.error then
        ⟨false, interface1, unit2, selected1⟩
      else
        ⟨true,
          { interface1 with
            argument_layout_index :=
              (selected1.head?.map (fun f => f.argument_block_index)).getD backend.unset_index },
          unit2, selected1⟩
  else
    let r2 := backend.add_material link_unit compiled_material [standalone_opacity backend]
    let unit2 : Link_unit := ⟨link_unit.groups ++ [[standalone_opacity backend]]⟩
    if r2.error then
      ⟨false, s.interface_data, unit2, s.selected_functions⟩
    else
      ⟨true,
        { s.interface_data with
          argument_layout_index :=
            (s.selected_functions.head?.map
              (fun f => f.argument_block_index)).getD backend.unset_index },
        unit2, s.selected_functions⟩

/-! ## Resources, string constants, materials and the target -/

/-- A byte of a file or of a memory image. -/
abbrev Byte := Fin 256

/-- A pointer to a `Mdl_material` (or the address of a target). -/
abbrev Ptr := Nat

/-- The enumeration `Mdl_resource_kind` (without its `_Count` terminator). -/
inductive Mdl_resource_kind where
  | Texture
  | Light_profile
  | Bsdf_measurement
  deriving DecidableEq, Repr

/-- The enumeration `Texture_dimension`. -/
inductive Texture_dimension where
  | Undefined
  | Texture_2D
  | Texture_3D
  deriving DecidableEq, Repr

/-- A table indexed by `Mdl_resource_kind`
(`std::map<Mdl_resource_kind, T>` holding an entry for every kind). -/
structure Per_kind (α : Type) where
  texture : α
  light_profile : α
  bsdf_measurement : α
  deriving DecidableEq, Repr

/-- Read the entry of a kind. -/
def Per_kind.get {α : Type} (t : Per_kind α) : Mdl_resource_kind → α
  | .Texture => t.texture
  | .Light_profile => t.light_profile
  | .Bsdf_measurement => t.bsdf_measurement

/-- The record `Mdl_resource_assignment`. -/
structure Mdl_resource_assignment where
  kind : Mdl_resource_kind
  resource_name : String
  dimension : Texture_dimension
  runtime_resource_id : Nat
  deriving DecidableEq, Repr

/-- The record `Mdl_string_constant`. -/
structure Mdl_string_constant where
  value : String
  runtime_string_id : Nat
  deriving DecidableEq, Repr

/-- The enumeration `ITarget_code::Texture_shape`. -/
inductive Texture_shape where
  | Texture_shape_invalid
  | Texture_shape_2d
  | Texture_shape_3d
  | Texture_shape_cube
  | Texture_shape_ptex
  | Texture_shape_bsdf_data
  deriving DecidableEq, Repr

/-- A texture slot of the generated target code. -/
structure Target_texture where
  name : String
  is_body_resource : Bool
  shape : Texture_shape
  deriving DecidableEq, Repr

/-- A light-profile or BSDF-measurement slot of the generated target code. -/
structure Target_resource where
  name : String
  is_body_resource : Bool
  deriving DecidableEq, Repr

/-- An `ITarget_code` as far as `generate` and `compile` read it. Slot 0 of each
list is the invalid resource (respectively the invalid string). -/
structure Target_code where
  textures : List Target_texture
  light_profiles : List Target_resource
  bsdf_measurements : List Target_resource
  string_constants : List String
  code : String
  ro_data_segments : List (String × List Byte)
  deriving DecidableEq, Repr

/-- A GPU `Buffer`: its debug name, its size in bytes and the data set on it. -/
structure Buffer where
  debug_name : String
  size : Nat
  data : List Byte
  deriving DecidableEq, Repr

/-- A compiled DXIL library: exported symbol names (byte strings) and the blob. -/
structure Shader_library where
  exports : List (List Byte)
  dxil_library : List Byte
  deriving DecidableEq, Repr

/-- Modelled from the spec: class `Mdl_material` is declared and implemented outside
the sources. A material has a stable id, a compiled-content hash, a compiled
material, a non-owning back-reference to its target (`none` is the null pointer),
the interface record handed to it, and its own resource and string tables. -/
structure Mdl_material where
  id : Nat
  name : String
  scene_name : String
  compiled_hash : String
  compiled_material : Compiled_material
  target : Option Ptr
  target_interface : Mdl_material_target_interface
  resources : Per_kind (List Mdl_resource_assignment)
  string_constants : List Mdl_string_constant

/-- Modelled from the spec: `Mdl_material::reset_target_interface` is implemented
outside the sources; the spec says that unregistering clears the back-reference. -/
def Mdl_material.reset_target_interface (m : Mdl_material) : Mdl_material :=
  { m with target := none }

/-- Modelled from the spec: `Mdl_material::set_target_interface` is implemented
outside the sources; generation propagates the interface descriptor to every member
and the member then refers back to the target. -/
def Mdl_material.set_target_interface (m : Mdl_material) (target : Ptr)
    (interface_data : Mdl_material_target_interface) : Mdl_material :=
  { m with target := some target, target_interface := interface_data }

/-- The fields of `Mdl_material_target`. `m_materials` is the
`std::map<size_t, Mdl_material*>`, kept as the list of its entries in iteration
order (ascending key). -/
structure Mdl_material_target where
  m_compiled_material_hash : String
  m_target_code : Option Target_code
  m_generation_required : Bool
  m_hlsl_source_code : String
  m_compilation_required : Bool
  m_dxil_compiled_libraries : List Shader_library
  m_read_only_data_segment : Option Buffer
  m_target_resources : Per_kind (List Mdl_resource_assignment)
  m_target_string_constants : List Mdl_string_constant
  m_materials : List (Nat × Ptr)
  m_material_resource_count : Per_kind Nat
  m_first_resource_heap_handle : Option Nat
  m_resource_descriptor_table : List (Nat × Nat × Nat)
  m_radiance_closest_hit_name : String
  m_radiance_any_hit_name : String
  m_shadow_any_hit_name : String

/-- A call made to the MDL backend. -/
inductive Backend_call where
  | create_link_unit
  | add_material (functions : List Target_function_description)
  | translate_link_unit
  | serialize
  deriving DecidableEq, Repr

/-- One invocation of `Shader_compiler::compile_shader_library_from_string`. -/
structure Compiler_invocation where
  source : String
  file_name : String
  defines : List (String × String)
  entry_points : List String
  deriving DecidableEq, Repr

/-- What a file holds: text written through a stream, or raw bytes. -/
inductive File_content where
  | text (content : String)
  | binary (bytes : List Byte)
  deriving DecidableEq, Repr

/-- The target at address `this`, the materials it can point to, the files on disk,
and the calls made so far to the backend and to the platform shader compiler. -/
structure World where
  this : Ptr
  target : Mdl_material_target
  materials : Ptr → Mdl_material
  files : String → Option File_content
  backend_calls : List Backend_call
  compiler_calls : List Compiler_invocation

/-- How a member function ends: it returns a boolean, or it dereferences a null
pointer or an end iterator. Either way the state reached is kept. -/
inductive Outcome where
  | returned (value : Bool) (world : World)
  | undefined (world : World)

/-- The state a call ends in. -/
def Outcome.world : Outcome → World
  | .returned _ w => w
  | .undefined w => w

/-- The value a call returns, if it returns. -/
def Outcome.value : Outcome → Option Bool
  | .returned v _ => some v
  | .undefined _ => none

/-- Store a material at a pointer. -/
def World.set_material (w : World) (p : Ptr) (m : Mdl_material) : World :=
  { w with materials := fun q => if q = p then m else w.materials q }

/-! ### `std::map<size_t, Mdl_material*>` -/

/-- The lookup `std::map::find`. -/
def map_find (key : Nat) : List (Nat × Ptr) → Option Ptr
  | [] => none
  | (k, p) :: rest => if k = key then some p else map_find key rest

/-- The assignment `m[key] = value`: replace the entry of an existing key, otherwise insert the
entry in key order. -/
def map_assign (key : Nat) (value : Ptr) : List (Nat × Ptr) → List (Nat × Ptr)
  | [] => [(key, value)]
  | (k, p) :: rest =>
    if key < k then (key, value) :: (k, p) :: rest
    else if k = key then (key, value) :: rest
    else (k, p) :: map_assign key value rest

/-- The call `std::map::erase` on the entry found for the key. A `std::map` holds at most one
entry per key, so this removes every entry with that key. -/
def map_erase (key : Nat) : List (Nat × Ptr) → List (Nat × Ptr)
  | [] => []
  | (k, p) :: rest => if k = key then map_erase key rest else (k, p) :: map_erase key rest

/-! ### Registry (lines 473-550) -/

/-- The member function `Mdl_material_target::register_material` (lines 473-484). -/
def register_material (w : World) (material : Ptr) : World :=
  { w with
    target :=
      { w.target with
        m_generation_required := true
        m_compilation_required := true
        m_materials := map_assign (w.materials material).id material w.target.m_materials } }

/-- The member function `Mdl_material_target::unregister_material` (lines 488-506). -/
def unregister_material (w : World) (material : Ptr) : Bool × World :=
  if (w.materials material).target ≠ some w.this then
    (false, w)
  else
    match map_find (w.materials material).id w.target.m_materials with
    | some _ =>
      let w1 := w.set_material material (w.materials material).reset_target_interface
      (true,
        { w1 with
          target :=
            { w1.target with
              m_materials := map_erase (w.materials material).id w.target.m_materials
              m_generation_required := true
              m_compilation_required := true } })
    | none => (true, w)

/-- The member function `Mdl_material_target::map_string_constant` (lines 519-539) on the table
`m_target_string_constants`; ids are `uint32_t`. -/
def map_string_constant (table : List Mdl_string_constant) (string_value : String) :
    Nat × List Mdl_string_constant :=
  if string_value = "" then (0, table)
  else
    match table.find? (fun c => c.value = string_value) with
    | some c => (c.runtime_string_id, table)
    | none =>
      let runtime_id :=
        match table.getLast? with
        | none => 1
        | some last => (last.runtime_string_id + 1) % 2 ^ 32
      (runtime_id, table ++ [⟨string_value, runtime_id⟩])

/-- The loop of `Mdl_material_target::visit_materials` (lines 543-550); the action
may update state of its own. -/
def visit_loop {σ : Type} (action : σ → Ptr → Bool × σ) : List (Nat × Ptr) → σ → Bool × σ
  | [], s => (true, s)
  | (_, p) :: rest, s =>
    if (action s p).1 then visit_loop action rest (action s p).2 else (false, (action s p).2)

/-- The member function `Mdl_material_target::visit_materials`. -/
def visit_materials {σ : Type} (w : World) (action : σ → Ptr → Bool × σ) (s : σ) : Bool × σ :=
  visit_loop action w.target.m_materials s

/-! ## Services used by `generate` and `compile` -/

/-- The collaborators of `Mdl_material_target` that are not implemented in the
sources, each as the outcome it produces: the MDL backend, the per-material
finalisation, the renderer options, the descriptor heap, the file system, the
platform shader compiler, and the memory image of the interface record. -/
structure Services where
  backend : Backend
  default_argument_layout_index : Nat
  create_link_unit_error : Bool
  translate_link_unit : Link_unit → Option Target_code
  translate_link_unit_error : Link_unit → Bool
  on_target_generated : Mdl_material_target → Mdl_material → Bool × Mdl_material
  texture_results_cache_size : Nat
  automatic_derivatives : Bool
  get_block_size : Nat → Nat
  reserve_views : Nat → Option Nat
  create_shader_resource_view : Buffer → Nat → Bool
  upload : Buffer → Bool
  executable_folder : String
  open_for_writing : String → Bool
  mkdir : String → Bool
  dirname : String → String
  use_slang : Bool
  enable_shader_cache : Bool
  get_shader_name_suffix : Mdl_material_target → String
  compile_shader_library_from_string : Compiler_invocation → List Shader_library
  serialize : Target_code → Option (List Byte)
  serialize_error : Target_code → Bool
  sizeof_interface : Nat
  object_representation : Mdl_material_target_interface → Fin sizeof_interface → Byte

/-! ## `generate` (lines 554-886) -/

/-- The loop state of lines 587-615. -/
structure Link_state where
  process_hash : String
  interface_data : Mdl_material_target_interface
  link_unit : Link_unit
  world : World

/-- The backend calls `add_material_to_link_unit` made: one per group it added. -/
def added_groups (before after : Link_unit) : List Backend_call :=
  (after.groups.drop before.groups.length).map Backend_call.add_material

/-- Lines 589-615: the loop over `m_materials`. The boolean is false when the body
executed `return false`. -/
def add_materials (sv : Services) : List (Nat × Ptr) → Link_state → Bool × Link_state
  | [], st => (true, st)
  | (_, p) :: rest, st =>
    let hash := (st.world.materials p).compiled_hash
    if st.process_hash = "" then
      let r := add_material_to_link_unit sv.backend st.interface_data
        (st.world.materials p).compiled_material st.link_unit
      let w1 : World :=
        { st.world with
          backend_calls := st.world.backend_calls ++ added_groups st.link_unit r.link_unit }
      if !r.result then
        (false, ⟨hash, r.interface_data, r.link_unit, w1⟩)
      else
        add_materials sv rest
          ⟨hash, r.interface_data, r.link_unit,
            w1.set_material p ((w1.materials p).set_target_interface w1.this r.interface_data)⟩
    else if st.process_hash ≠ hash then
      (false, st)
    else
      add_materials sv rest
        { st with
          world := st.world.set_material p
            ((st.world.materials p).set_target_interface st.world.this st.interface_data) }

/-- The `switch` of lines 637-651. -/
def texture_dimension_of : Texture_shape → Option Texture_dimension
  | .Texture_shape_2d => some .Texture_2D
  | .Texture_shape_3d => some .Texture_3D
  | .Texture_shape_bsdf_data => some .Texture_3D
  | _ => none

/-- Lines 628-654 from slot `i` on; false when the loop executed `return false`. -/
def add_body_textures (i : Nat) :
    List Target_texture → List Mdl_resource_assignment → Bool × List Mdl_resource_assignment
  | [], table => (true, table)
  | t :: rest, table =>
    if !t.is_body_resource then add_body_textures (i + 1) rest table
    else
      match texture_dimension_of t.shape with
      | some dimension =>
        add_body_textures (i + 1) rest (table ++ [⟨.Texture, t.name, dimension, i⟩])
      | none => (false, table)

/-- Lines 657-666 and 669-678 from slot `i` on. -/
def add_body_resources (kind : Mdl_resource_kind) (i : Nat) :
    List Target_resource → List Mdl_resource_assignment → List Mdl_resource_assignment
  | [], table => table
  | r :: rest, table =>
    if !r.is_body_resource then add_body_resources kind (i + 1) rest table
    else add_body_resources kind (i + 1) rest (table ++ [⟨kind, r.name, .Undefined, i⟩])

/-- Lines 681-688 from slot `i` on. -/
def add_string_constants (i : Nat) :
    List String → List Mdl_string_constant → List Mdl_string_constant
  | [], table => table
  | v :: rest, table => add_string_constants (i + 1) rest (table ++ [⟨v, i⟩])

/-- Lines 702-726: every member is finalised (one after the other here); the boolean
is the atomic `success`. -/
def finalize_materials (sv : Services) : List (Nat × Ptr) → Bool × World → Bool × World
  | [], r => r
  | (_, p) :: rest, (success, w) =>
    let r := sv.on_target_generated w.target (w.materials p)
    finalize_materials sv rest (success && r.1, w.set_material p r.2)

/-- The lambda of lines 742-752. -/
def count_resources (w : World) (count : Per_kind Nat) (p : Ptr) : Bool × Per_kind Nat :=
  (true,
    { texture := max count.texture (w.materials p).resources.texture.length
      light_profile := max count.light_profile (w.materials p).resources.light_profile.length
      bsdf_measurement :=
        max count.bsdf_measurement (w.materials p).resources.bsdf_measurement.length })

/-- Lines 839-871: the composed source. -/
def compose_hlsl_source (sv : Services) (tc : Target_code) (texcoord_id : Nat) : String :=
  "#define MDL_HAS_SURFACE_SCATTERING 1\n" ++
  "#define MDL_HAS_BACKFACE_SCATTERING 0\n" ++
  "#define MDL_CAN_BE_THIN_WALLED 1\n" ++
  "\n" ++
  "#define MDL_NUM_TEXTURE_RESULTS " ++ Nat.repr sv.texture_results_cache_size ++ "\n" ++
  "\n" ++
  (if sv.automatic_derivatives then "#define USE_DERIVS\n" else "") ++
  "\n" ++
  "#define SCENE_DATA_ID_TEXCOORD_0 " ++ Nat.repr texcoord_id ++ "\n" ++
  "\n" ++
  "#include \"content/common.hlsl\"\n" ++
  "#include \"content/mdl_target_code_types.hlsl\"\n" ++
  "#include \"content/mdl_renderer_runtime.hlsl\"\n\n" ++
  tc.code ++
  "\n\n#include \"content/mdl_hit_programs.hlsl\"\n\n"

/-- What `stream << s.c_str()` writes: the characters before the first NUL. -/
def c_str (s : String) : String :=
  String.mk (s.data.takeWhile (fun c => c != Char.ofNat 0))

/-- Lines 812-886: descriptor table, composed source, debug file, and the flag. -/
def generate_compose (sv : Services) (tc : Target_code) (w : World) : Outcome :=
  let texcoord := map_string_constant w.target.m_target_string_constants "TEXCOORD_0"
  let source := compose_hlsl_source sv tc texcoord.1
  let file_name := sv.executable_folder ++ "/link_unit_code.hlsl"
  .returned true
    { w with
      files :=
        if sv.open_for_writing file_name then
          fun f => if f = file_name then some (.text (c_str source)) else w.files f
        else w.files
      target :=
        { w.target with
          m_resource_descriptor_table := [(0, 2, 0)]
          m_target_string_constants := texcoord.2
          m_hlsl_source_code := source
          m_generation_required := false } }

/-- Lines 778-800: the read-only data segment after regeneration. -/
def read_only_data_segment (tc : Target_code) (previous : Option Buffer) : Buffer :=
  match tc.ro_data_segments with
  | (name, data) :: _ => ⟨"MDL_ReadOnly_" ++ name, data.length, data⟩
  | [] =>
    match previous with
    | some b => b
    | none => ⟨"MDL_ReadOnly_nullptr", 4, [0, 0, 0, 0]⟩

/-- Lines 754-809: the heap block and the read-only segment. `free_views` leaves the
handle invalid. -/
def generate_per_target (sv : Services) (tc : Target_code) (w : World) : Outcome :=
  let handle_count := 1
  let handle1 : Option Nat :=
    match w.target.m_first_resource_heap_handle with
    | some h => if sv.get_block_size h < handle_count then none else some h
    | none => none
  let handle2 : Option Nat :=
    match handle1 with
    | some h => some h
    | none => sv.reserve_views handle_count
  match handle2 with
  | none => .returned false { w with target := { w.target with m_first_resource_heap_handle := none } }
  | some h =>
    let segment := read_only_data_segment tc w.target.m_read_only_data_segment
    let w1 : World :=
      { w with
        target :=
          { w.target with
            m_first_resource_heap_handle := some h
            m_read_only_data_segment := some segment } }
    if !sv.create_shader_resource_view segment h then .returned false w1
    else if !sv.upload segment then .returned false w1
    else generate_compose sv tc w1

/-- Lines 696-752: finalisation of the members and the per-kind maxima. -/
def generate_finalize (sv : Services) (tc : Target_code) (w : World) : Outcome :=
  let r := finalize_materials sv w.target.m_materials (true, w)
  if !r.1 then .returned false r.2
  else
    let counts := (visit_materials r.2 (count_resources r.2) (⟨0, 0, 0⟩ : Per_kind Nat)).2
    generate_per_target sv tc
      { r.2 with target := { r.2.target with m_material_resource_count := counts } }

/-- Lines 627-694: the resource tables and the string table are filled from the
target code. -/
def generate_tables (sv : Services) (tc : Target_code) (w : World) : Outcome :=
  let textures := add_body_textures 1 (tc.textures.drop 1) w.target.m_target_resources.texture
  if !textures.1 then
    .returned false
      { w with
        target :=
          { w.target with
            m_target_resources := { w.target.m_target_resources with texture := textures.2 } } }
  else
    let resources : Per_kind (List Mdl_resource_assignment) :=
      { texture := textures.2
        light_profile :=
          add_body_resources .Light_profile 1 (tc.light_profiles.drop 1)
            w.target.m_target_resources.light_profile
        bsdf_measurement :=
          add_body_resources .Bsdf_measurement 1 (tc.bsdf_measurements.drop 1)
            w.target.m_target_resources.bsdf_measurement }
    let strings := add_string_constants 1 (tc.string_constants.drop 1) []
    generate_finalize sv tc
      { w with
        target :=
          { w.target with
            m_target_resources := resources
            m_target_string_constants := (map_string_constant strings "TEXCOORD_0").2 } }

/-- The member function `Mdl_material_target::generate` (lines 554-886). -/
def generate (sv : Services) (w : World) : Outcome :=
  if !w.target.m_generation_required then .returned true w
  else
    let w1 : World := { w with backend_calls := w.backend_calls ++ [.create_link_unit] }
    if sv.create_link_unit_error then .returned false w1
    else
      let w2 : World :=
        { w1 with target := { w1.target with m_target_resources := ⟨[], [], []⟩ } }
      let r := add_materials sv w2.target.m_materials
        ⟨"", Mdl_material_target_interface.fresh sv.default_argument_layout_index, ⟨[]⟩, w2⟩
      if !r.1 then .returned false r.2.world
      else
        let w3 : World :=
          { r.2.world with
            backend_calls := r.2.world.backend_calls ++ [.translate_link_unit]
            target :=
              { r.2.world.target with
                m_target_code := sv.translate_link_unit r.2.link_unit } }
        if sv.translate_link_unit_error r.2.link_unit then .returned false w3
        else
          match sv.translate_link_unit r.2.link_unit with
          | none => .undefined w3
          | some tc => generate_tables sv tc w3

/-! ## `compile` and the cache file (lines 45-60 and 901-1036) -/

/-- The function `compute_shader_cache_filename` (lines 45-60); the value returned. With
`create_parent_folders` the function also calls `mkdir` on the folder and drops the
result. -/
def compute_shader_cache_filename (sv : Services) (material_hash : String) : String :=
  let compiler := if sv.use_slang then "slang" else "dxc"
  let folder := sv.executable_folder ++ "/shader_cache/" ++ compiler
  folder ++ "/" ++ material_hash ++ ".bin"

/-- The call `file.write(reinterpret_cast<const char*>(&n), sizeof(size_t))` on a
little-endian machine with an 8-byte `size_t`. -/
def write_size (n : Nat) : List Byte :=
  List.ofFn (fun i : Fin 8 => (⟨n / 256 ^ i.val % 256, Nat.mod_lt _ (by decide)⟩ : Byte))

/-- Lines 1019-1021: one exported symbol. -/
def write_symbol (symbol : List Byte) : List Byte :=
  write_size symbol.length ++ symbol

/-- Lines 1012-1028: one library. -/
def write_library (library : Shader_library) : List Byte :=
  write_size library.exports.length ++ (library.exports.map write_symbol).flatten ++
    write_size library.dxil_library.length ++ library.dxil_library

/-- Lines 990-1029: everything `compile` writes to the cache file, in order. -/
def write_cache (tci_buffer : List Byte) (interface_record : List Byte)
    (libraries : List Shader_library) : List Byte :=
  write_size tci_buffer.length ++ tci_buffer ++ interface_record ++
    write_size libraries.length ++ (libraries.map write_library).flatten

/-- Lines 923-939: the pseudo file name taken from the first material. -/
def pseudo_file_name (w : World) : String :=
  match w.target.m_materials with
  | [] => "link_unit_code"
  | (_, p) :: _ =>
    let replaced := (w.materials p).scene_name.data.map (fun c => if c = ' ' then '_' else c)
    let mat_name := String.mk (replaced.filter (fun c => c.isAlphanum || c = '_'))
    if mat_name ≠ "" then mat_name else "link_unit_code"

/-- The arguments of the compiler call of lines 943-947. -/
def compiler_invocation (sv : Services) (w : World) : Compiler_invocation :=
  { source := w.target.m_hlsl_source_code
    file_name := pseudo_file_name w ++ "_" ++ sv.get_shader_name_suffix w.target
    defines := [("TARGET_CODE_ID", sv.get_shader_name_suffix w.target)]
    entry_points :=
      [w.target.m_radiance_closest_hit_name, w.target.m_radiance_any_hit_name,
        w.target.m_shadow_any_hit_name] }

/-- Lines 954-1033: the body of the `while` that writes the shader cache; `w` is the
state after the compiler ran and `success` is true. -/
def write_shader_cache (sv : Services) (w : World) : Outcome :=
  match w.target.m_target_code with
  | none => .undefined w
  | some tc =>
    let w1 : World := { w with backend_calls := w.backend_calls ++ [.serialize] }
    if sv.serialize_error tc then .returned false w1
    else
      let filename := compute_shader_cache_filename sv w.target.m_compiled_material_hash
      if !sv.mkdir (sv.dirname filename) then .returned true w1
      else if !sv.open_for_writing filename then .returned true w1
      else
        let opened : World :=
          { w1 with files := fun f => if f = filename then some (.binary []) else w1.files f }
        match sv.serialize tc with
        | none => .undefined opened
        | some tci_buffer =>
          match w.target.m_materials with
          | [] => .undefined opened
          | (_, p) :: _ =>
            let interface_record :=
              List.ofFn (sv.object_representation (w.materials p).target_interface)
            .returned true
              { w1 with
                files := fun f =>
                  if f = filename then
                    some (.binary (write_cache tci_buffer interface_record
                      w.target.m_dxil_compiled_libraries))
                  else w1.files f }

/-- The member function `Mdl_material_target::compile` (lines 901-1036). -/
def compile (sv : Services) (w : World) : Outcome :=
  if !w.target.m_compilation_required then .returned true w
  else if w.target.m_generation_required then .returned false w
  else
    let libraries := sv.compile_shader_library_from_string (compiler_invocation sv w)
    let success := !libraries.isEmpty
    let w1 : World :=
      { w with
        compiler_calls := w.compiler_calls ++ [compiler_invocation sv w]
        target :=
          { w.target with
            m_dxil_compiled_libraries := libraries
            m_compilation_required := !success } }
    if success && sv.enable_shader_cache then write_shader_cache sv w1
    else .returned success w1

/-! ### A reader of the cache file -/

/-- The content of a cache file: the serialized target code, the memory image of the
interface record, and the libraries. -/
structure Cache_bundle where
  tci_buffer : List Byte
  interface_record : List Byte
  libraries : List Shader_library
  deriving DecidableEq, Repr

/-- The value of eight little-endian bytes. -/
def size_of_bytes : List Byte → Nat
  | [] => 0
  | b :: rest => b.val + 256 * size_of_bytes rest

/-- Modelled from the spec: the sources hold no reader of the cache file. A
`[size_t]` field is read as eight bytes; a short read is a miss. -/
def read_size (bytes : List Byte) : Option (Nat × List Byte) :=
  if bytes.length < 8 then none else some (size_of_bytes (bytes.take 8), bytes.drop 8)

/-- Modelled from the spec: a `[bytes]` field of known length; a short read is a
miss. -/
def read_bytes (n : Nat) (bytes : List Byte) : Option (List Byte × List Byte) :=
  if bytes.length < n then none else some (bytes.take n, bytes.drop n)

/-- Modelled from the spec: `repeated per symbol: [size_t] name_length, [bytes] name`. -/
def read_symbols : Nat → List Byte → Option (List (List Byte) × List Byte)
  | 0, bytes => some ([], bytes)
  | count + 1, bytes =>
    match read_size bytes with
    | none => none
    | some (name_length, rest) =>
      match read_bytes name_length rest with
      | none => none
      | some (name, rest1) =>
        match read_symbols count rest1 with
        | none => none
        | some (names, rest2) => some (name :: names, rest2)

/-- Modelled from the spec: one library is `[size_t] symbol_count`, the symbols,
`[size_t] binary_blob_length, [bytes] binary_blob`. -/
def read_library (bytes : List Byte) : Option (Shader_library × List Byte) :=
  match read_size bytes with
  | none => none
  | some (symbol_count, rest) =>
    match read_symbols symbol_count rest with
    | none => none
    | some (names, rest1) =>
      match read_size rest1 with
      | none => none
      | some (blob_length, rest2) =>
        match read_bytes blob_length rest2 with
        | none => none
        | some (blob, rest3) => some (⟨names, blob⟩, rest3)

/-- Modelled from the spec: `repeated per library`. -/
def read_libraries : Nat → List Byte → Option (List Shader_library × List Byte)
  | 0, bytes => some ([], bytes)
  | count + 1, bytes =>
    match read_library bytes with
    | none => none
    | some (library, rest) =>
      match read_libraries count rest with
      | none => none
      | some (libraries, rest1) => some (library :: libraries, rest1)

/-- Modelled from the spec: the reader of the layout of section 4.6, for an interface
record of `record_size` bytes: blob length and blob, the fixed-size record, the
library count, the libraries. -/
def read_cache (record_size : Nat) (bytes : List Byte) : Option Cache_bundle :=
  match read_size bytes with
  | none => none
  | some (blob_length, rest) =>
    match read_bytes blob_length rest with
    | none => none
    | some (blob, rest1) =>
      match read_bytes record_size rest1 with
      | none => none
      | some (record, rest2) =>
        match read_size rest2 with
        | none => none
        | some (library_count, rest3) =>
          match read_libraries library_count rest3 with
          | none => none
          | some (libraries, _) => some ⟨blob, record, libraries⟩

/-! ## Concrete inputs used by the closed theorems -/

/-- A backend that never reports an error and hands out argument block 0. -/
def quiet_backend : Backend :=
  { unset_index := 2 ^ 64 - 1
    add_material := fun _ _ _ => ⟨false, 0⟩ }

/-- A material with a non-constant surface BSDF, black constant emission intensity,
black constant absorption, and `thin_walled` constant false. -/
def material_A : Compiled_material :=
  { lookup_sub_expression := fun path =>
      if path = "surface.emission.intensity" then .ek_constant (.vk_color [0, 0, 0])
      else if path = "volume.absorption_coefficient" then
        .ek_constant (.vk_color [0, 2 ^ 31, 0])
      else if path = "thin_walled" then .ek_constant (.vk_bool false)
      else if path = "surface.scattering" then .ek_direct_call
      else .ek_constant .vk_invalid_df
    get_slot_hash := fun _ => 0 }

/-- A thin-walled material whose backface differs from the surface only in the
emission slot, with a non-constant backface EDF. -/
def material_B : Compiled_material :=
  { lookup_sub_expression := fun path =>
      if path = "thin_walled" then .ek_constant (.vk_bool true)
      else if path = "backface.emission.emission" then .ek_direct_call
      else .ek_constant .vk_invalid_df
    get_slot_hash := fun slot =>
      match slot with
      | .SLOT_SURFACE_SCATTERING => 7
      | .SLOT_BACKFACE_SCATTERING => 7
      | .SLOT_SURFACE_EMISSION_EDF_EMISSION => 1
      | .SLOT_BACKFACE_EMISSION_EDF_EMISSION => 2 }

/-- The conditions of Scenario B on a compiled material. -/
def Scenario_B (cm : Compiled_material) : Prop :=
  cm.lookup_sub_expression "thin_walled" = .ek_constant (.vk_bool true) ∧
  cm.get_slot_hash .SLOT_SURFACE_SCATTERING = cm.get_slot_hash .SLOT_BACKFACE_SCATTERING ∧
  cm.get_slot_hash .SLOT_SURFACE_EMISSION_EDF_EMISSION ≠
    cm.get_slot_hash .SLOT_BACKFACE_EMISSION_EDF_EMISSION ∧
  cm.lookup_sub_expression "backface.emission.emission" ≠ .ek_constant .vk_invalid_df

/-- The constructor `Mdl_material_target::Mdl_material_target` (lines 215-242);
`suffix` is what `get_shader_name_suffix` returns. No heap block is held yet. -/
def Mdl_material_target.create (suffix : String) (compiled_material_hash : String) :
    Mdl_material_target :=
  { m_compiled_material_hash := compiled_material_hash
    m_target_code := none
    m_generation_required := true
    m_hlsl_source_code := ""
    m_compilation_required := true
    m_dxil_compiled_libraries := []
    m_read_only_data_segment := none
    m_target_resources := ⟨[], [], []⟩
    m_target_string_constants := []
    m_materials := []
    m_material_resource_count := ⟨0, 0, 0⟩
    m_first_resource_heap_handle := none
    m_resource_descriptor_table := []
    m_radiance_closest_hit_name := "MdlRadianceClosestHitProgram_" ++ suffix
    m_radiance_any_hit_name := "MdlRadianceAnyHitProgram_" ++ suffix
    m_shadow_any_hit_name := "MdlShadowAnyHitProgram_" ++ suffix }

/-- A target code without resources, strings or read-only data. -/
def plain_target_code : Target_code :=
  { textures := []
    light_profiles := []
    bsdf_measurements := []
    string_constants := []
    code := ""
    ro_data_segments := [] }

/-- Services in which every collaborator succeeds; the shader cache is enabled and
the compiler returns one library with one exported symbol. -/
def plain_services : Services :=
  { backend := quiet_backend
    default_argument_layout_index := 0
    create_link_unit_error := false
    translate_link_unit := fun _ => some plain_target_code
    translate_link_unit_error := fun _ => false
    on_target_generated := fun _ m => (true, m)
    texture_results_cache_size := 32
    automatic_derivatives := false
    get_block_size := fun _ => 1
    reserve_views := fun _ => some 0
    create_shader_resource_view := fun _ _ => true
    upload := fun _ => true
    executable_folder := "."
    open_for_writing := fun _ => true
    mkdir := fun _ => true
    dirname := fun f => f
    use_slang := false
    enable_shader_cache := true
    get_shader_name_suffix := fun t => t.m_compiled_material_hash
    compile_shader_library_from_string := fun _ => [⟨[[77]], [1, 2, 3]⟩]
    serialize := fun _ => some [9]
    serialize_error := fun _ => false
    sizeof_interface := 2
    object_representation := fun _ _ => 0 }

/-- The services of `plain_services`, except that serializing the target code
reports an error. -/
def failing_serialize_services : Services :=
  { plain_services with serialize_error := fun _ => true }

/-- A material object with the given id and hash, compiled to `material_A`, that
refers to no target. -/
def plain_material (id : Nat) (hash : String) : Mdl_material :=
  { id := id
    name := "material"
    scene_name := "scene material"
    compiled_hash := hash
    compiled_material := material_A
    target := none
    target_interface := Mdl_material_target_interface.fresh 0
    resources := ⟨[], [], []⟩
    string_constants := [] }

/-- A newly constructed target at address 100 for hash `a`; the material at pointer
1 has the empty hash, every other material has hash `a`; the material at pointer `p` has
id `p`. -/
def new_world : World :=
  { this := 100
    target := Mdl_material_target.create "a" "a"
    materials := fun p => plain_material p (if p = 1 then "" else "a")
    files := fun _ => none
    backend_calls := []
    compiler_calls := [] }

/-- The new target after materials 1 (empty hash) and 2 (hash `a`) registered. -/
def mixed_world : World :=
  register_material (register_material new_world 1) 2

/-- The new target after materials 2 and 3 (both hash `a`) registered. -/
def uniform_world : World :=
  register_material (register_material new_world 2) 3

/-- A target that holds no member and needs neither generation nor compilation,
beside a material at pointer 5 that refers back to it. -/
def stale_world : World :=
  { new_world with
    target :=
      { new_world.target with
        m_generation_required := false
        m_compilation_required := false }
    materials := fun p => { plain_material p "a" with target := some 100 } }

/-- What C6 says `unregister_material` does to the material at pointer `p`: it
returns true, the material's id is no key of the member set any more, its
back-reference is null, both flags are true, every other key of the member set and
every other material object is as before. -/
def Unregistered (w : World) (p : Ptr) : Prop :=
  (unregister_material w p).1 = true ∧
  map_find (w.materials p).id (unregister_material w p).2.target.m_materials = none ∧
  ((unregister_material w p).2.materials p).target = none ∧
  (unregister_material w p).2.target.m_generation_required = true ∧
  (unregister_material w p).2.target.m_compilation_required = true ∧
  (∀ key, key ≠ (w.materials p).id →
    map_find key (unregister_material w p).2.target.m_materials =
      map_find key w.target.m_materials) ∧
  (∀ q, q ≠ p → (unregister_material w p).2.materials q = w.materials q)

/-- Every length of a library fits a `size_t`. -/
def Library_fits (library : Shader_library) : Prop :=
  library.exports.length < 2 ^ 64 ∧ (∀ symbol ∈ library.exports, symbol.length < 2 ^ 64) ∧
    library.dxil_library.length < 2 ^ 64

/-- Every length of a bundle fits a `size_t`, and the interface record has the fixed
size `record_size`. -/
def Bundle_fits (record_size : Nat) (bundle : Cache_bundle) : Prop :=
  bundle.tci_buffer.length < 2 ^ 64 ∧ bundle.interface_record.length = record_size ∧
    bundle.libraries.length < 2 ^ 64 ∧ ∀ library ∈ bundle.libraries, Library_fits library

/-- The file that `compute_shader_cache_filename` names for the target's hash exists
and a reader of the layout of section 4.6 accepts it. -/
def Valid_cache_file (sv : Services) (w : World) : Prop :=
  ∃ bytes bundle,
    w.files (compute_shader_cache_filename sv w.target.m_compiled_material_hash) =
      some (.binary bytes) ∧
    read_cache sv.sizeof_interface bytes = some bundle

/-- A generated target with member 2 that still needs compilation, beside a cache
file for its hash that holds a complete bundle. -/
def cached_world : World :=
  { new_world with
    target :=
      { (register_material new_world 2).target with
        m_generation_required := false
        m_target_code := some plain_target_code }
    files := fun f =>
      if f = compute_shader_cache_filename plain_services "a" then
        some (.binary (write_cache [9] [0, 0] [⟨[[77]], [1, 2, 3]⟩]))
      else none }

/-- A small bundle: a two-byte blob, a two-byte record, one library with two
exported symbols. -/
def small_bundle : Cache_bundle :=
  { tci_buffer := [1, 2]
    interface_record := [0, 255]
    libraries := [⟨[[65, 66], []], [7]⟩] }

/-- The runtime ids of a string table, in table order. -/
def string_ids (table : List Mdl_string_constant) : List Nat :=
  table.map (fun c => c.runtime_string_id)

/-- The largest runtime id of a string table, 0 for the empty table. -/
def max_runtime_string_id (table : List Mdl_string_constant) : Nat :=
  (string_ids table).foldr max 0

/-- A sequence of `map_string_constant` calls on the target's table; the table
after the last call. -/
def map_string_constants :
    List Mdl_string_constant → List String → List Mdl_string_constant
  | table, [] => table
  | table, v :: rest => map_string_constants (map_string_constant table v).2 rest

/-- The string table as lines 681-688 leave it: the backend's constants of the slots
after slot 0. -/
def rebuilt_string_constants (tc : Target_code) : List Mdl_string_constant :=
  add_string_constants 1 (tc.string_constants.drop 1) []

/-- A target code with the string constants `a` and `b` after the invalid string of
slot 0. -/
def string_target_code : Target_code :=
  { plain_target_code with string_constants := ["", "a", "b"] }

/-- The services of `plain_services`, except that the shader cache is disabled and
the compiler returns one library that exports no symbol. -/
def exportless_services : Services :=
  { plain_services with
    enable_shader_cache := false
    compile_shader_library_from_string := fun _ => [⟨[], [1, 2, 3]⟩] }

/-- A call of one of the four operations of the registry and the orchestrators, with
the services it meets. -/
inductive Target_call where
  | register_material (material : Ptr)
  | unregister_material (material : Ptr)
  | generate (sv : Services)
  | compile (sv : Services)

/-- The state after one call. -/
def Target_call.run (w : World) : Target_call → World
  | .register_material material => MdlD3d12.register_material w material
  | .unregister_material material => (MdlD3d12.unregister_material w material).2
  | .generate sv => (MdlD3d12.generate sv w).world
  | .compile sv => (MdlD3d12.compile sv w).world

/-- The state after a sequence of calls. -/
def run_calls : World → List Target_call → World
  | w, [] => w
  | w, call :: rest => run_calls (call.run w) rest

/-- A newly constructed target at address `this`, beside any materials and files. -/
def created_world (this : Ptr) (suffix hash : String) (materials : Ptr → Mdl_material)
    (files : String → Option File_content) : World :=
  { this := this
    target := Mdl_material_target.create suffix hash
    materials := materials
    files := files
    backend_calls := []
    compiler_calls := [] }

/-- The dirty-flag invariant: binaries are not marked valid while generation is
pending. -/
def Flags_consistent (w : World) : Prop :=
  w.target.m_compilation_required = false → w.target.m_generation_required = false

/-- A sequence of `register_material` calls, first to last. -/
def register_materials : World → List Ptr → World
  | w, [] => w
  | w, material :: rest => register_materials (register_material w material) rest

/-- An action instrumented with a log: every application appends the member it was
applied to and the boolean it returned. -/
def logged {σ : Type} (action : σ → Ptr → Bool × σ) (st : σ × List (Ptr × Bool)) (p : Ptr) :
    Bool × (σ × List (Ptr × Bool)) :=
  ((action st.1 p).1, ((action st.1 p).2, st.2 ++ [(p, (action st.1 p).1)]))

/-- The entry that registering the material at pointer `p` puts into the map. -/
def member_entry (w : World) (p : Ptr) : Nat × Ptr :=
  ((w.materials p).id, p)

/-- What a visit that logged `log` and returned `result` has to satisfy on the
member list `members`: the members visited are an initial segment of the list, in
list order; the action returned true on all of them but possibly the last; the
result is true exactly when the whole list was visited with the action true
throughout, and otherwise the last member visited is the one on which the action
returned false. -/
def Visit_in_order (members : List (Nat × Ptr)) (log : List (Ptr × Bool)) (result : Bool) :
    Prop :=
  (∃ rest, members.map Prod.snd = log.map Prod.fst ++ rest) ∧
  (∀ e ∈ log.dropLast, e.2 = true) ∧
  (result = true → log.map Prod.fst = members.map Prod.snd ∧ ∀ e ∈ log, e.2 = true) ∧
  (result = false → ∃ p, log.getLast? = some (p, false))

/-! ## The resource callback (lines 64-210) -/

/-- The value kinds `IValue_resource::get_kind` can report. -/
inductive Resource_value_kind where
  | VK_TEXTURE
  | VK_LIGHT_PROFILE
  | VK_BSDF_MEASUREMENT
  | VK_OTHER (kind : Nat)
  deriving DecidableEq, Repr

/-- The enumeration `IType_texture::Shape`. -/
inductive Texture_type_shape where
  | TS_2D
  | TS_3D
  | TS_CUBE
  | TS_PTEX
  | TS_BSDF_DATA
  deriving DecidableEq, Repr

/-- An `IValue_resource`: its kind, the shape of its type (read for textures only)
and the name `get_value` returns (`none` is the null pointer). -/
structure Value_resource where
  kind : Resource_value_kind
  shape : Texture_type_shape
  value : Option String
  deriving DecidableEq, Repr

/-- The functions the callback calls and the sources do not implement.
`get_known_resource_index` is the backend's lookup of a resource value in the
target code. `register_resource` and `map_string_constant` are the member functions
of `Mdl_material`; they get the target and the material and give back the id and
the material they leave behind. -/
structure Callback_services where
  get_known_resource_index : Target_code → Value_resource → Nat
  register_resource :
    Mdl_material_target → Mdl_material → Mdl_resource_kind → Texture_dimension → String →
      Nat × Mdl_material
  map_string_constant : Mdl_material_target → Mdl_material → String → Nat × Mdl_material

/-- How a callback ends: it returns an index, or it dereferences a null pointer. -/
inductive Index_outcome where
  | returned (index : Nat) (world : World)
  | undefined (world : World)

/-- The state a callback ends in. -/
def Index_outcome.world : Index_outcome → World
  | .returned _ w => w
  | .undefined w => w

/-- The index a callback returns, if it returns. -/
def Index_outcome.index : Index_outcome → Option Nat
  | .returned i _ => some i
  | .undefined _ => none

/-- The three `get_..._is_body_resource` queries of lines 93-111, by kind; a slot
the target code does not have is no body resource. -/
def is_body_resource (tc : Target_code) (kind : Resource_value_kind) (index : Nat) : Bool :=
  match kind with
  | .VK_TEXTURE => ((tc.textures.get? index).map (fun t => t.is_body_resource)).getD false
  | .VK_LIGHT_PROFILE =>
    ((tc.light_profiles.get? index).map (fun r => r.is_body_resource)).getD false
  | .VK_BSDF_MEASUREMENT =>
    ((tc.bsdf_measurements.get? index).map (fun r => r.is_body_resource)).getD false
  | .VK_OTHER _ => false

/-- The `switch` of lines 127-169: the kind and dimension to register, or `none`
where the code logs an error and returns 0. -/
def resource_kind_and_dimension (resource : Value_resource) :
    Option (Mdl_resource_kind × Texture_dimension) :=
  match resource.kind with
  | .VK_TEXTURE =>
    match resource.shape with
    | .TS_2D => some (.Texture, .Texture_2D)
    | .TS_3D => some (.Texture, .Texture_3D)
    | _ => none
  | .VK_LIGHT_PROFILE => some (.Light_profile, .Undefined)
  | .VK_BSDF_MEASUREMENT => some (.Bsdf_measurement, .Undefined)
  | .VK_OTHER _ => none

/-- The member function `Resource_callback::get_resource_index` (lines 74-182) of
the callback created for the material at pointer `material`; the result is a
`mi::Uint32`. -/
def get_resource_index (cb : Callback_services) (w : World) (material : Ptr)
    (resource : Value_resource) : Index_outcome :=
  match w.target.m_target_code with
  | none => .undefined w
  | some tc =>
    let index := cb.get_known_resource_index tc resource
    if 0 < index && is_body_resource tc resource.kind index then .returned index w
    else
      match resource.value with
      | none => .returned 0 w
      | some name =>
        match resource_kind_and_dimension resource with
        | none => .returned 0 w
        | some (kind, dimension) =>
          let r := cb.register_resource w.target (w.materials material) kind dimension name
          .returned (r.1 % 2 ^ 32) (w.set_material material r.2)

/-- The loop of lines 194-196 from slot `i` on: the first slot whose string equals
`value`. -/
def find_string_constant (value : String) : Nat → List String → Option Nat
  | _, [] => none
  | i, c :: rest => if c = value then some i else find_string_constant value (i + 1) rest

/-- The member function `Resource_callback::get_string_index` (lines 186-210) of
the callback created for the material at pointer `material`; `s` is what
`s->get_value()` returns (`none` is the null pointer, which `strcmp` dereferences).
The `assert` of line 208 computes nothing; the theorems state its condition
separately. -/
def get_string_index (cb : Callback_services) (w : World) (material : Ptr)
    (s : Option String) : Index_outcome :=
  match w.target.m_target_code with
  | none => .undefined w
  | some tc =>
    match s with
    | none => if tc.string_constants = [] then .returned 0 w else .undefined w
    | some value =>
      match find_string_constant value 0 tc.string_constants with
      | some i => .returned (i % 2 ^ 32) w
      | none =>
        if value = "" then .returned 0 w
        else
          let r := cb.map_string_constant w.target (w.materials material) value
          .returned (r.1 % 2 ^ 32) (w.set_material material r.2)

/-- The string table of a target after lines 680-694: the backend's constants, then
`TEXCOORD_0` unless the backend has it already. -/
def generated_string_constants (tc : Target_code) : List Mdl_string_constant :=
  (map_string_constant (rebuilt_string_constants tc) "TEXCOORD_0").2

/-- Modelled from the spec: `Mdl_material::map_string_constant` is implemented
outside the sources. A string the material has registered keeps its id; a new
string is registered in the material's own table with an id strictly greater than
any target-level id (and any id of the material's table). -/
def spec_material_map_string_constant (target : Mdl_material_target) (m : Mdl_material)
    (v : String) : Nat × Mdl_material :=
  match m.string_constants.find? (fun c => c.value = v) with
  | some c => (c.runtime_string_id, m)
  | none =>
    let id :=
      max (max_runtime_string_id target.m_target_string_constants)
        (max_runtime_string_id m.string_constants) + 1
    (id, { m with string_constants := m.string_constants ++ [⟨v, id⟩] })

/-- Modelled from the spec: `Mdl_material::register_resource` is implemented outside
the sources. A resource the material has registered under this name keeps its id; a
new one is registered in the material's own table of its kind with an id above
every id of the target's and of the material's table of that kind. -/
def spec_material_register_resource (target : Mdl_material_target) (m : Mdl_material)
    (kind : Mdl_resource_kind) (dimension : Texture_dimension) (name : String) :
    Nat × Mdl_material :=
  match (m.resources.get kind).find? (fun a => a.resource_name = name) with
  | some a => (a.runtime_resource_id, m)
  | none =>
    let ids :=
      ((target.m_target_resources.get kind) ++ (m.resources.get kind)).map
        (fun a => a.runtime_resource_id)
    let id := ids.foldr max 0 + 1
    let entry : Mdl_resource_assignment := ⟨kind, name, dimension, id⟩
    (id,
      { m with
        resources :=
          match kind with
          | .Texture => { m.resources with texture := m.resources.texture ++ [entry] }
          | .Light_profile =>
            { m.resources with light_profile := m.resources.light_profile ++ [entry] }
          | .Bsdf_measurement =>
            { m.resources with bsdf_measurement := m.resources.bsdf_measurement ++ [entry] } })

/-- Callback services in which the backend knows no resource and the material
functions are the ones modelled from the spec. -/
def spec_callbacks : Callback_services :=
  { get_known_resource_index := fun _ _ => 0
    register_resource := spec_material_register_resource
    map_string_constant := spec_material_map_string_constant }

/-- A target code with three texture slots after the invalid slot 0: a body texture,
a texture that comes from arguments only, and a second body texture. -/
def texture_target_code : Target_code :=
  { plain_target_code with
    textures :=
      [⟨"", false, .Texture_shape_invalid⟩, ⟨"wood", true, .Texture_shape_2d⟩,
        ⟨"argument", false, .Texture_shape_2d⟩, ⟨"noise", true, .Texture_shape_3d⟩] }

/-- A generated target for `texture_target_code`, with member 2. -/
def texture_world : World :=
  (generate { plain_services with translate_link_unit := fun _ => some texture_target_code }
    (register_material new_world 2)).world

/-- Callback services in which the backend knows the resource named `wood` under
index 1 and the one named `argument` under index 2. -/
def texture_callbacks : Callback_services :=
  { spec_callbacks with
    get_known_resource_index := fun _ resource =>
      if resource.value = some "wood" then 1
      else if resource.value = some "argument" then 2
      else 0 }

/-- The slot indices, counted from `i`, whose flag is set, in ascending order. -/
def body_slot_ids (i : Nat) : List Bool → List Nat
  | [] => []
  | flag :: rest => if flag then i :: body_slot_ids (i + 1) rest else body_slot_ids (i + 1) rest

/-- The runtime ids of a resource table, in table order. -/
def resource_ids (table : List Mdl_resource_assignment) : List Nat :=
  table.map (fun a => a.runtime_resource_id)

/-- The expression paths of the vector `selected_functions`, in order. -/
def selected_paths (r : Add_material_outcome) : List String :=
  r.selected_functions.map (fun f => f.path)

/-- The condition of line 421 in terms of the material: one of the two backface
distributions is not the invalid one, and one of the two slot-hash pairs differs. -/
def backface_differs (cm : Compiled_material) : Bool :=
  (!is_invalid_df cm "backface.scattering" || !is_invalid_df cm "backface.emission.emission") &&
    (cm.get_slot_hash .SLOT_SURFACE_SCATTERING != cm.get_slot_hash .SLOT_BACKFACE_SCATTERING ||
      cm.get_slot_hash .SLOT_SURFACE_EMISSION_EDF_EMISSION !=
        cm.get_slot_hash .SLOT_BACKFACE_EMISSION_EDF_EMISSION)

/-- The paths lines 366-435 select, as a function of the five conditions. -/
def policy_paths (cm : Compiled_material) : List String :=
  ["init"] ++
  (if !is_invalid_df cm "surface.scattering" then ["surface.scattering"] else []) ++
  (if !is_invalid_df cm "surface.emission.emission" &&
      !is_constant_black_color cm "surface.emission.intensity" then
    ["surface.emission.emission", "surface.emission.intensity"] else []) ++
  (if !is_constant_black_color cm "volume.absorption_coefficient" then
    ["volume.absorption_coefficient"] else []) ++
  (if !is_constant_false cm "thin_walled" then
    ["thin_walled"] ++
      (if backface_differs cm then
        ["backface.scattering", "backface.emission.emission", "backface.emission.intensity"]
      else [])
  else [])

/-- A material without any feature: both surface distributions and both backface
distributions are the invalid one, the absorption is black and `thin_walled` is
false. -/
def material_empty : Compiled_material :=
  { lookup_sub_expression := fun path =>
      if path = "volume.absorption_coefficient" then .ek_constant (.vk_color [0, 0, 0])
      else if path = "surface.emission.intensity" then .ek_constant (.vk_color [1065353216, 0, 0])
      else if path = "thin_walled" then .ek_constant (.vk_bool false)
      else .ek_constant .vk_invalid_df
    get_slot_hash := fun _ => 0 }

/-- A new target on which material 2, compiled to `material_B`, is registered. -/
def world_B : World :=
  register_material
    { new_world with
      materials := fun p => { plain_material p "a" with compiled_material := material_B } } 2

end MdlD3d12

namespace Dist

/-- A non-null `IMaterial_instance` pointer. -/
abbrev Material_instance := Nat

/-- The part of `Mdl_distiller_plugin` that line 52 uses: `distill` is given the
instance, the target index and the value `error` holds on entry, and answers with
the result pointer (`none` is NULL) and the value `error` holds afterwards. -/
structure Mdl_distiller_plugin where
  distill : Material_instance → Nat → Int → Option Material_instance × Int

/-- The members of `Dist_module_impl` that `distill` reads: the registry
`m_target_to_index_map` (target name to plugin index and target index) and the
plugin vector. -/
structure Dist_module_impl where
  m_target_to_index_map : List (String × (Nat × Nat))
  m_plugins : List Mdl_distiller_plugin

/-- The member function `Target_to_index_map::find`; `none` is `end()`. -/
def find_target : List (String × (Nat × Nat)) → String → Option (Nat × Nat)
  | [], _ => none
  | (name, indices) :: rest, target =>
    if name = target then some indices else find_target rest target

/-- How a call of `distill` ends: with the pointer it returns and the last value it
wrote through `error`, or with undefined behaviour (`m_plugins[plugin_index]` out of
range). -/
inductive Distill_outcome where
  | returned (res : Option Material_instance) (error : Int)
  | undefined
deriving DecidableEq

/-- The member function `Dist_module_impl::distill`, lines 21-66 of dist.cpp.
`error` is the reference of line 33 (the caller's variable, or `dummy`). -/
def distill (self : Dist_module_impl) (material_instance : Material_instance)
    (target : String) : Distill_outcome :=
  let error : Int := 0
  if target = "none" then
    .returned (some material_instance) error
  else
    match find_target self.m_target_to_index_map target with
    | some (plugin_index, target_index) =>
      match self.m_plugins[plugin_index]? with
      | some distiller_plugin =>
        let r := distiller_plugin.distill material_instance target_index error
        if r.1.isNone then .returned r.1 (-3) else .returned r.1 r.2
      | none => .undefined
    | none => .returned none (-2)

end Dist

namespace DfCuda

/-- The fields of `Param_info` that `add_sorted_by_group` reads or that tell two
entries apart; `m_group_name = none` is the null pointer. -/
structure Param_info where
  m_index : Nat
  m_name : String
  m_display_name : String
  m_group_name : Option String
deriving DecidableEq, Repr

/-- The loop of lines 675-685 from the iterator position on: `g` is
`info.group_name()`, the list is what `it` has not passed yet. Reaching `end()`
falls through to `push_back` of line 687. -/
def insert_in_group (info : Param_info) (g : String) :
    Bool → List Param_info → List Param_info
  | _, [] => [info]
  | group_found, it :: rest =>
    let same_group := decide (it.m_group_name = some g)
    if group_found && !same_group then
      info :: it :: rest
    else
      it :: insert_in_group info g (group_found || same_group) rest

/-- The member function `Material_info::add_sorted_by_group`, lines 671-689. -/
def add_sorted_by_group (m_params : List Param_info) (info : Param_info) :
    List Param_info :=
  match info.m_group_name with
  | some g => insert_in_group info g false m_params
  | none => m_params ++ [info]

/-- A parameter list built from the empty list by `add_sorted_by_group` calls. -/
def build_params (infos : List Param_info) : List Param_info :=
  infos.foldl add_sorted_by_group []

/-- Entries with the same non-null group name are contiguous: whatever lies between
two entries of group `g` is of group `g`. -/
def Groups_contiguous (l : List Param_info) : Prop :=
  ∀ (a b c : List Param_info) (x y : Param_info) (g : String),
    l = a ++ x :: (b ++ y :: c) → x.m_group_name = some g → y.m_group_name = some g →
    ∀ z ∈ b, z.m_group_name = some g

/-- After the leading run of group `g`, no entry of group `g` follows. -/
def Run_then_none (g : String) (l : List Param_info) : Prop :=
  ∀ y ∈ l.dropWhile (fun z => decide (z.m_group_name = some g)), y.m_group_name ≠ some g

/-- The recursive form of contiguity: every entry with a group is followed by the
rest of its run and then by no entry of its group. -/
def Grouped : List Param_info → Prop
  | [] => True
  | x :: rest => Grouped rest ∧ ∀ g, x.m_group_name = some g → Run_then_none g rest

/-- The members of `String_constant_table`. The `std::map` is kept as an association
list with one entry per key; the class never iterates over it, so the key order of
the map is not observable. -/
structure String_constant_table where
  m_string_constants_map : List (String × Nat)
  m_strings : List String
  m_max_len : Nat
deriving DecidableEq, Repr

/-- The member function `String_map::find`; `none` is `end()`. -/
def string_map_find : List (String × Nat) → String → Option Nat
  | [], _ => none
  | (k, v) :: rest, key => if k = key then some v else string_map_find rest key

/-- The assignment `m[key] = value` on the map. -/
def string_map_assign : List (String × Nat) → String → Nat → List (String × Nat)
  | [], key, value => [(key, value)]
  | (k, v) :: rest, key, value =>
    if k = key then (k, value) :: rest else (k, v) :: string_map_assign rest key value

/-- The loop of lines 865-872 from index `i` on; the list holds
`get_string_constant(i)`, `get_string_constant(i + 1)`, ... -/
def get_all_strings_from :
    Nat → List String → String_constant_table → String_constant_table
  | _, [], t => t
  | i, s :: rest, t =>
    let l := s.utf8ByteSize
    get_all_strings_from (i + 1) rest
      { m_string_constants_map := string_map_assign t.m_string_constants_map s (i % 2 ^ 32)
        m_strings := t.m_strings ++ [s]
        m_max_len := if l > t.m_max_len then l else t.m_max_len }

/-- The member function `get_all_strings`, lines 859-874; `target_code` lists the
string constants of the target code, slot 0 included. -/
def get_all_strings (target_code : List String) (t : String_constant_table) :
    String_constant_table :=
  get_all_strings_from 1 (target_code.drop 1) { t with m_max_len := 0 }

/-- The constructor of lines 823-826. -/
def String_constant_table.create (target_code : List String) : String_constant_table :=
  get_all_strings target_code ⟨[], [], 0⟩

/-- The member function `get_id_for_string`, lines 828-846: the id it returns and
the table it leaves. -/
def get_id_for_string (t : String_constant_table) (name : String) :
    Nat × String_constant_table :=
  match string_map_find t.m_string_constants_map name with
  | some id => (id, t)
  | none =>
    let n_id := (t.m_string_constants_map.length + 1) % 2 ^ 32
    let l := name.utf8ByteSize
    (n_id,
      { m_string_constants_map := string_map_assign t.m_string_constants_map name n_id
        m_strings := t.m_strings ++ [name]
        m_max_len := if l > t.m_max_len then l else t.m_max_len })

/-- The member function `get_string`, lines 851-856, on an `unsigned` id; `none` is
`nullptr`. -/
def get_string (t : String_constant_table) (id : Nat) : Option String :=
  if id = 0 ∨ id - 1 ≥ t.m_strings.length then none else t.m_strings[id - 1]?

/-- A sequence of `get_id_for_string` calls. -/
def get_ids (t : String_constant_table) (names : List String) : String_constant_table :=
  names.foldl (fun t name => (get_id_for_string t name).2) t

/-- The map holds exactly the stored strings, each with its position plus one, and
no string is stored twice. -/
def Table_consistent (t : String_constant_table) : Prop :=
  t.m_strings.Nodup ∧
  t.m_string_constants_map = t.m_strings.zip (List.range' 1 t.m_strings.length)

end DfCuda

namespace Coco

/-- The streams of a `Generator` that `CopyFramePart` touches: the unread part of
`fram`, its end-of-file indicator, and what has been written to `gen`. -/
structure Generator where
  fram : List Char
  fram_eof : Bool
  gen : List Char
deriving DecidableEq, Repr

/-- The call `fscanf(fram, "%c", &ch)`: the next character, or the end-of-file
indicator with `ch` left as it was. -/
def read_char (g : Generator) (ch : Char) : Generator × Char :=
  match g.fram with
  | [] => ({ g with fram_eof := true }, ch)
  | c :: rest => ({ g with fram := rest }, c)

/-- How `CopyFramePart` ends: `stopped` is the `return` of line 150, `finished`
reaching the last line with `stop == NULL`, `incomplete` the exception of line 165,
`undefined` a read of `stop[i]` past the terminator; `out_of_fuel` never happens
for the fuel `CopyFramePart` gives. -/
inductive Copy_outcome where
  | stopped (g : Generator)
  | finished (g : Generator)
  | incomplete (g : Generator)
  | undefined
  | out_of_fuel
deriving DecidableEq, Repr

/-- The `do ... while` of lines 149-152 at index `i`; the list is `stop[i+1..]`,
which is empty exactly when `i == endOfStopString`. The boolean tells whether the
function returned at line 150. -/
def match_stop : List Char → Nat → Generator → Char → Bool × Nat × Generator × Char
  | [], i, g, ch => (true, i, g, ch)
  | c :: rest, i, g, ch =>
    let r := read_char g ch
    if r.2 = c then match_stop rest (i + 1) r.1 r.2 else (false, i + 1, r.1, r.2)

/-- The `else` branch of lines 159-162. -/
def copy_char (generateOutput : Bool) (g : Generator) (ch : Char) : Generator × Char :=
  read_char { g with gen := if generateOutput then g.gen ++ [ch] else g.gen } ch

/-- The `while` loop of lines 146-163 and the tail of the function; `stop = none`
is the null pointer. -/
def copy_loop (stop : Option (List Char)) (generateOutput : Bool) :
    Nat → Generator → Char → Copy_outcome
  | 0, _, _ => .out_of_fuel
  | fuel + 1, g, ch =>
    if g.fram_eof then
      if stop.isSome then .incomplete g else .finished g
    else
      match stop with
      | none =>
        let r := copy_char generateOutput g ch
        copy_loop stop generateOutput fuel r.1 r.2
      | some [] =>
        if ch = Char.ofNat 0 then .undefined
        else
          let r := copy_char generateOutput g ch
          copy_loop stop generateOutput fuel r.1 r.2
      | some (startCh :: rest) =>
        if ch = startCh then
          match match_stop rest 0 g ch with
          | (true, _, g1, _) => .stopped g1
          | (false, i, g1, ch1) =>
            copy_loop stop generateOutput fuel
              { g1 with
                gen := if generateOutput then g1.gen ++ (startCh :: rest).take i else g1.gen }
              ch1
        else
          let r := copy_char generateOutput g ch
          copy_loop stop generateOutput fuel r.1 r.2

/-- The member function `Generator::CopyFramePart(stop, generateOutput)`, lines
134-168. -/
def CopyFramePart (stop : Option (List Char)) (generateOutput : Bool) (g : Generator) :
    Copy_outcome :=
  let r := read_char g (Char.ofNat 0)
  copy_loop stop generateOutput (g.fram.length + 2) r.1 r.2

/-- What is left to read, counting the read that will set the end-of-file
indicator. -/
def reads_left (g : Generator) : Nat :=
  g.fram.length + (if g.fram_eof then 0 else 1)

end Coco

namespace MdlD3d12

/-! ## Theorems -/

/-- A path that holds no constant is never the invalid distribution. -/
theorem is_invalid_df_of_not_constant (cm : Compiled_material) (path : String)
    (h : ∀ value, cm.lookup_sub_expression path ≠ .ek_constant value) :
    is_invalid_df cm path = false := by
  unfold is_invalid_df
  cases hx : cm.lookup_sub_expression path with
  | ek_constant value => exact absurd hx (h value)
  | _ => rfl

/-- A constant colour all of whose channels are zero is constant black. -/
theorem is_constant_black_color_of_zero (cm : Compiled_material) (path : String)
    (channels : List Float32)
    (h : cm.lookup_sub_expression path = .ek_constant (.vk_color channels))
    (hz : ∀ c ∈ channels, float_ne_zero c = false) :
    is_constant_black_color cm path = true := by
  unfold is_constant_black_color
  rw [h]
  simp only [List.all_eq_true, Bool.not_eq_true']
  exact hz

/-- C1 (Scenario A). For a compiled material whose `surface.scattering` is not a
constant, whose `surface.emission.intensity` and `volume.absorption_coefficient` are
constant colours with every channel zero and whose `thin_walled` is the constant
false, `add_material_to_link_unit` on a fresh interface record with a backend that
reports no error returns true, sets `has_surface_scattering` and no other feature
flag, selects exactly `init` and `surface.scattering` (no backface entry), and adds
exactly two groups to the link unit: the main group and the standalone
`geometry.cutout_opacity` entry. -/
theorem scenario_A_surface_scattering_only (backend : Backend) (cm : Compiled_material)
    (link_unit : Link_unit) (index : Nat) (intensity absorption : List Float32)
    (h_scattering : ∀ value, cm.lookup_sub_expression "surface.scattering" ≠ .ek_constant value)
    (h_intensity :
      cm.lookup_sub_expression "surface.emission.intensity" = .ek_constant (.vk_color intensity))
    (h_intensity_black : ∀ c ∈ intensity, float_ne_zero c = false)
    (h_absorption :
      cm.lookup_sub_expression "volume.absorption_coefficient" =
        .ek_constant (.vk_color absorption))
    (h_absorption_black : ∀ c ∈ absorption, float_ne_zero c = false)
    (h_thin : cm.lookup_sub_expression "thin_walled" = .ek_constant (.vk_bool false))
    (h_quiet : ∀ unit functions, (backend.add_material unit cm functions).error = false) :
    (add_material_to_link_unit backend (Mdl_material_target_interface.fresh index) cm
        link_unit).result = true ∧
    (add_material_to_link_unit backend (Mdl_material_target_interface.fresh index) cm
        link_unit).interface_data.has_surface_scattering = true ∧
    (add_material_to_link_unit backend (Mdl_material_target_interface.fresh index) cm
        link_unit).interface_data.has_surface_emission = false ∧
    (add_material_to_link_unit backend (Mdl_material_target_interface.fresh index) cm
        link_unit).interface_data.has_backface_scattering = false ∧
    (add_material_to_link_unit backend (Mdl_material_target_interface.fresh index) cm
        link_unit).interface_data.has_backface_emission = false ∧
    (add_material_to_link_unit backend (Mdl_material_target_interface.fresh index) cm
        link_unit).interface_data.has_volume_absorption = false ∧
    (add_material_to_link_unit backend (Mdl_material_target_interface.fresh index) cm
        link_unit).interface_data.can_be_thin_walled = false ∧
    (add_material_to_link_unit backend (Mdl_material_target_interface.fresh index) cm
        link_unit).selected_functions.map (fun f => f.path) = ["init", "surface.scattering"] ∧
    (add_material_to_link_unit backend (Mdl_material_target_interface.fresh index) cm
        link_unit).link_unit.groups =
      link_unit.groups ++
        [[⟨"init", "mdl_init", backend.unset_index⟩,
          ⟨"surface.scattering", "mdl_surface_scattering", backend.unset_index⟩],
         [⟨"geometry.cutout_opacity", "mdl_standalone_geometry_cutout_opacity",
            backend.unset_index⟩]] := by
  have h1 := is_invalid_df_of_not_constant cm "surface.scattering" h_scattering
  have h2 := is_constant_black_color_of_zero cm _ intensity h_intensity h_intensity_black
  have h3 := is_constant_black_color_of_zero cm _ absorption h_absorption h_absorption_black
  have h4 : is_constant_false cm "thin_walled" = true := by
    unfold is_constant_false
    rw [h_thin]
    rfl
  simp [add_material_to_link_unit, select_functions, select_thin_walled,
    select_volume_absorption, select_surface_emission, select_surface_scattering, select_init,
    h1, h2, h3, h4, h_quiet, assign_index, Mdl_material_target_interface.fresh,
    standalone_opacity]

/-- Scenario A is inhabited: `material_A` with the quiet backend. -/
theorem scenario_A_witness :
    (add_material_to_link_unit quiet_backend (Mdl_material_target_interface.fresh 0)
        material_A ⟨[]⟩).result = true ∧
    (add_material_to_link_unit quiet_backend (Mdl_material_target_interface.fresh 0)
        material_A ⟨[]⟩).interface_data.has_surface_scattering = true ∧
    (add_material_to_link_unit quiet_backend (Mdl_material_target_interface.fresh 0)
        material_A ⟨[]⟩).link_unit.groups.length = 2 := by
  have h := scenario_A_surface_scattering_only quiet_backend material_A ⟨[]⟩ 0
    [0, 0, 0] [0, 2 ^ 31, 0] (by intro v; simp [material_A]) (by simp [material_A])
    (by decide) (by simp [material_A]) (by decide) (by simp [material_A])
    (by intro u f; rfl)
  refine ⟨h.1, h.2.1, ?_⟩
  rw [h.2.2.2.2.2.2.2.2]
  rfl

/-- The interface record is written before any backend call: whatever the backend
answers, the record that `add_material_to_link_unit` leaves carries the feature flags
that the selection computed. -/
theorem add_material_flags (backend : Backend) (interface_data : Mdl_material_target_interface)
    (cm : Compiled_material) (link_unit : Link_unit) :
    (add_material_to_link_unit backend interface_data cm link_unit).interface_data.can_be_thin_walled
        = (select_functions backend cm interface_data).interface_data.can_be_thin_walled ∧
    (add_material_to_link_unit backend interface_data cm
        link_unit).interface_data.has_backface_emission
        = (select_functions backend cm interface_data).interface_data.has_backface_emission ∧
    (add_material_to_link_unit backend interface_data cm
        link_unit).interface_data.has_backface_scattering
        = (select_functions backend cm interface_data).interface_data.has_backface_scattering := by
  unfold add_material_to_link_unit
  simp only []
  split <;> split <;> (try split) <;> simp

/-- C2 (Scenario B), as the code has it. For a compiled material whose `thin_walled`
is the constant true, whose surface and backface scattering slot hashes are equal,
whose surface and backface emission slot hashes differ and whose backface emission
is not the invalid distribution, `add_material_to_link_unit` leaves
`can_be_thin_walled`, `has_backface_emission` and also `has_backface_scattering`
true: both backface entries are generated together. -/
theorem scenario_B_both_backface_flags (backend : Backend)
    (interface_data : Mdl_material_target_interface) (cm : Compiled_material)
    (link_unit : Link_unit) (h : Scenario_B cm) :
    (add_material_to_link_unit backend interface_data cm
        link_unit).interface_data.can_be_thin_walled = true ∧
    (add_material_to_link_unit backend interface_data cm
        link_unit).interface_data.has_backface_emission = true ∧
    (add_material_to_link_unit backend interface_data cm
        link_unit).interface_data.has_backface_scattering = true := by
  obtain ⟨h_thin, _, h_edf, h_back⟩ := h
  have h1 : is_constant_false cm "thin_walled" = false := by
    unfold is_constant_false
    rw [h_thin]
    rfl
  have h2 : is_invalid_df cm "backface.emission.emission" = false := by
    unfold is_invalid_df
    cases hx : cm.lookup_sub_expression "backface.emission.emission" with
    | ek_constant value =>
      cases value with
      | vk_invalid_df => exact absurd hx h_back
      | _ => rfl
    | _ => rfl
  have h3 : (need_backface cm).2 = true := by
    simp [need_backface, h2, h_edf]
  obtain ⟨e1, e2, e3⟩ := add_material_flags backend interface_data cm link_unit
  rw [e1, e2, e3]
  simp [select_functions, select_thin_walled, h1, h3]

/-- Scenario B is inhabited: `material_B`. -/
theorem scenario_B_witness :
    Scenario_B material_B ∧
    (add_material_to_link_unit quiet_backend (Mdl_material_target_interface.fresh 0)
        material_B ⟨[]⟩).interface_data.has_backface_scattering = true :=
  ⟨by simp [Scenario_B, material_B],
   (scenario_B_both_backface_flags quiet_backend (Mdl_material_target_interface.fresh 0)
      material_B ⟨[]⟩ (by simp [Scenario_B, material_B])).2.2⟩

/-- C2 as stated fails: not every material in Scenario B ends with
`has_backface_scattering = false`; `material_B` ends with it true. -/
theorem scenario_B_stated_flags_fail :
    ¬ ∀ (backend : Backend) (interface_data : Mdl_material_target_interface)
        (cm : Compiled_material) (link_unit : Link_unit), Scenario_B cm →
      (add_material_to_link_unit backend interface_data cm
          link_unit).interface_data.can_be_thin_walled = true ∧
      (add_material_to_link_unit backend interface_data cm
          link_unit).interface_data.has_backface_emission = true ∧
      (add_material_to_link_unit backend interface_data cm
          link_unit).interface_data.has_backface_scattering = false := by
  intro h
  have hB : Scenario_B material_B := by simp [Scenario_B, material_B]
  have h1 := (h quiet_backend (Mdl_material_target_interface.fresh 0) material_B ⟨[]⟩ hB).2.2
  have h2 : (add_material_to_link_unit quiet_backend (Mdl_material_target_interface.fresh 0)
      material_B ⟨[]⟩).interface_data.has_backface_scattering = true := by decide
  rw [h2] at h1
  exact Bool.noConfusion h1

/-- Lines 812-886 return true only with the generation flag cleared. -/
theorem generate_compose_clears (sv : Services) (tc : Target_code) (w w' : World)
    (h : generate_compose sv tc w = .returned true w') :
    w'.target.m_generation_required = false := by
  unfold generate_compose at h
  simp only [Outcome.returned.injEq, true_and] at h
  rw [← h]

/-- Lines 754-886 return true only with the generation flag cleared. -/
theorem generate_per_target_clears (sv : Services) (tc : Target_code) (w w' : World)
    (h : generate_per_target sv tc w = .returned true w') :
    w'.target.m_generation_required = false := by
  unfold generate_per_target at h
  simp only [] at h
  split at h
  · simp at h
  · split at h
    · simp at h
    · split at h
      · simp at h
      · exact generate_compose_clears sv tc _ w' h

/-- Lines 696-886 return true only with the generation flag cleared. -/
theorem generate_finalize_clears (sv : Services) (tc : Target_code) (w w' : World)
    (h : generate_finalize sv tc w = .returned true w') :
    w'.target.m_generation_required = false := by
  unfold generate_finalize at h
  simp only [] at h
  split at h
  · simp at h
  · exact generate_per_target_clears sv tc _ w' h

/-- Lines 627-886 return true only with the generation flag cleared. -/
theorem generate_tables_clears (sv : Services) (tc : Target_code) (w w' : World)
    (h : generate_tables sv tc w = .returned true w') :
    w'.target.m_generation_required = false := by
  unfold generate_tables at h
  simp only [] at h
  split at h
  · simp at h
  · exact generate_finalize_clears sv tc _ w' h

/-- A successful `generate` leaves generation-required false. -/
theorem generate_success_clears (sv : Services) (w w' : World)
    (h : generate sv w = .returned true w') :
    w'.target.m_generation_required = false := by
  unfold generate at h
  simp only [] at h
  split at h
  · rename_i h0
    simp only [Outcome.returned.injEq, true_and] at h
    rw [← h]
    simpa using h0
  · split at h
    · simp at h
    · split at h
      · simp at h
      · split at h
        · simp at h
        · split at h
          · simp at h
          · exact generate_tables_clears sv _ _ w' h

/-- C4. `generate` is idempotent: when generation-required is false it returns true
and leaves the whole state as it was (target, materials, files, and the lists of
backend and compiler calls, so no backend call is made); and after a `generate`
that returned true, a further `generate` (with any services) returns true and
changes nothing. -/
theorem generate_idempotent (sv sv2 : Services) (w : World) :
    (w.target.m_generation_required = false → generate sv w = .returned true w) ∧
    (∀ w', generate sv w = .returned true w' → generate sv2 w' = .returned true w') := by
  have key : ∀ (s : Services) (v : World), v.target.m_generation_required = false →
      generate s v = .returned true v := by
    intro s v hv
    unfold generate
    simp [hv]
  exact ⟨key sv w, fun w' h => key sv2 w' (generate_success_clears sv w w' h)⟩

/-- C3 at the failing input: members 1 and 2 have different hashes (the empty hash
and `a`), every collaborator succeeds, and `generate` returns true and clears
generation-required. -/
theorem generate_misses_mismatch_after_empty_hash :
    mixed_world.target.m_materials = [(1, 1), (2, 2)] ∧
    (mixed_world.materials 1).compiled_hash = "" ∧
    (mixed_world.materials 2).compiled_hash = "a" ∧
    mixed_world.target.m_generation_required = true ∧
    (generate plain_services mixed_world).value = some true ∧
    (generate plain_services mixed_world).world.target.m_generation_required = false := by
  decide

/-- C5. When compilation-required and generation-required are both true, `compile`
returns false and leaves the whole state as it was: the platform shader compiler is
not invoked, both flags and the stored libraries are unchanged. -/
theorem compile_before_generate_rejected (sv : Services) (w : World)
    (hc : w.target.m_compilation_required = true)
    (hg : w.target.m_generation_required = true) :
    compile sv w = .returned false w := by
  unfold compile
  simp [hc, hg]

/-- C7. For a material whose back-reference is not this target,
`unregister_material` returns false and leaves the whole state as it was (member
set, both flags, the material's back-reference), whether or not the material's id is
in the member set. -/
theorem unregister_wrong_target_unchanged (w : World) (material : Ptr)
    (h : (w.materials material).target ≠ some w.this) :
    unregister_material w material = (false, w) := by
  unfold unregister_material
  simp [h]

/-- After `erase`, `find` misses the erased key. -/
theorem map_find_erase_self (key : Nat) (m : List (Nat × Ptr)) :
    map_find key (map_erase key m) = none := by
  induction m with
  | nil => rfl
  | cons e rest ih =>
    obtain ⟨k, p⟩ := e
    by_cases hk : k = key
    · simp [map_erase, hk, ih]
    · simp [map_erase, hk, map_find, ih]

/-- Erasing a key leaves the entries of the other keys alone. -/
theorem map_find_erase_other (key other : Nat) (m : List (Nat × Ptr)) (h : other ≠ key) :
    map_find other (map_erase key m) = map_find other m := by
  induction m with
  | nil => rfl
  | cons e rest ih =>
    obtain ⟨k, p⟩ := e
    by_cases hk : k = key
    · have hne : ¬ key = other := fun e => h e.symm
      simp [map_erase, hk, map_find, ih, hne]
    · by_cases ho : k = other
      · subst ho
        simp [map_erase, hk, map_find]
      · simp [map_erase, hk, map_find, ho, ih]

/-- C6, as the code has it. For a material whose back-reference is this target:
if the material is registered under its id, `unregister_material` returns true, the
id is no member any more, the back-reference is null, both flags are true, every
other member and every other material is untouched; if the id is not in the member
set, `unregister_material` returns true and changes nothing. -/
theorem unregister_registered_member (w : World) (p : Ptr)
    (h_owner : (w.materials p).target = some w.this) :
    (map_find (w.materials p).id w.target.m_materials = some p → Unregistered w p) ∧
    (map_find (w.materials p).id w.target.m_materials = none →
      unregister_material w p = (true, w)) := by
  constructor
  · intro h_member
    unfold Unregistered unregister_material
    simp only [h_owner, ne_eq, not_true_eq_false, if_false, h_member]
    refine ⟨trivial, map_find_erase_self _ _, ?_, trivial, trivial, ?_, ?_⟩
    · simp [World.set_material, Mdl_material.reset_target_interface]
    · intro key hkey
      exact map_find_erase_other _ _ _ hkey
    · intro q hq
      simp [World.set_material, hq]
  · intro h_absent
    unfold unregister_material
    simp [h_owner, h_absent]

/-- Scenario C: materials 2 and 3 share hash `a`; after `generate` and `compile`
the second is unregistered. -/
theorem unregister_registered_member_witness :
    ((compile plain_services (generate plain_services uniform_world).world).world.materials
        3).target = some 100 ∧
    Unregistered (compile plain_services (generate plain_services uniform_world).world).world 3 :=
  ⟨by decide,
   (unregister_registered_member
      (compile plain_services (generate plain_services uniform_world).world).world 3
      (by decide)).1 (by decide)⟩

/-- C6 as stated fails: the material at pointer 5 of `stale_world` refers back to
the target without being a member; `unregister_material` returns true and neither
clears the back-reference nor marks the flags. -/
theorem unregister_non_member_changes_nothing :
    (stale_world.materials 5).target = some stale_world.this ∧
    (unregister_material stale_world 5).1 = true ∧
    ((unregister_material stale_world 5).2.materials 5).target = some stale_world.this ∧
    (unregister_material stale_world 5).2.target.m_generation_required = false ∧
    (unregister_material stale_world 5).2.target.m_compilation_required = false ∧
    ¬ Unregistered stale_world 5 := by
  refine ⟨by decide, by decide, by decide, by decide, by decide, ?_⟩
  intro h
  have h4 := h.2.2.2.1
  have h5 : (unregister_material stale_world 5).2.target.m_generation_required = false := by
    decide
  rw [h5] at h4
  exact Bool.noConfusion h4

/-- Every returned `generate` that reports success is `returned true` of its state. -/
theorem outcome_of_value_true (o : Outcome) (h : o.value = some true) :
    o = .returned true o.world := by
  cases o with
  | returned v w =>
    simp only [Outcome.value, Option.some.injEq] at h
    rw [h]
    rfl
  | undefined w => simp [Outcome.value] at h

/-- The idempotence of `generate` at `uniform_world`: the first call succeeds, the
second one returns true and leaves the state of the first. -/
theorem generate_idempotent_witness :
    (generate plain_services uniform_world).world.target.m_generation_required = false ∧
    generate plain_services (generate plain_services uniform_world).world =
      .returned true (generate plain_services uniform_world).world :=
  ⟨by decide,
   (generate_idempotent plain_services plain_services uniform_world).2 _
     (outcome_of_value_true _ (by decide))⟩

/-- Both flags are true right after registration, and `compile` is rejected. -/
theorem compile_before_generate_rejected_witness :
    mixed_world.target.m_compilation_required = true ∧
    mixed_world.target.m_generation_required = true ∧
    compile plain_services mixed_world = .returned false mixed_world :=
  ⟨by decide, by decide,
   compile_before_generate_rejected plain_services mixed_world (by decide) (by decide)⟩

/-- Material 2 is a member of `uniform_world` but does not yet refer back to the
target: unregistering it fails and changes nothing. -/
theorem unregister_wrong_target_witness :
    map_find (uniform_world.materials 2).id uniform_world.target.m_materials = some 2 ∧
    (uniform_world.materials 2).target ≠ some uniform_world.this ∧
    unregister_material uniform_world 2 = (false, uniform_world) :=
  ⟨by decide, by decide, unregister_wrong_target_unchanged uniform_world 2 (by decide)⟩

/-- A `size_t` field is eight bytes long. -/
theorem write_size_length (n : Nat) : (write_size n).length = 8 := by
  simp [write_size]

/-- Eight little-endian bytes give back a number below `2 ^ 64`. -/
theorem size_of_bytes_write_size (n : Nat) (h : n < 2 ^ 64) :
    size_of_bytes (write_size n) = n := by
  simp only [write_size, List.ofFn_succ, List.ofFn_zero, size_of_bytes, Fin.val_zero,
    Fin.val_succ]
  norm_num
  omega

/-- Reading a `size_t` field that was written. -/
theorem read_size_write_size (n : Nat) (rest : List Byte) (h : n < 2 ^ 64) :
    read_size (write_size n ++ rest) = some (n, rest) := by
  have hl := write_size_length n
  unfold read_size
  rw [if_neg (by simp [hl])]
  rw [List.take_left' hl, List.drop_left' hl, size_of_bytes_write_size n h]

/-- Reading a `bytes` field that was written. -/
theorem read_bytes_append (bytes rest : List Byte) :
    read_bytes bytes.length (bytes ++ rest) = some (bytes, rest) := by
  unfold read_bytes
  rw [if_neg (by simp)]
  simp

/-- Reading back the symbols of a library. -/
theorem read_symbols_written (symbols : List (List Byte)) (rest : List Byte)
    (h : ∀ symbol ∈ symbols, symbol.length < 2 ^ 64) :
    read_symbols symbols.length ((symbols.map write_symbol).flatten ++ rest) =
      some (symbols, rest) := by
  induction symbols with
  | nil => rfl
  | cons symbol others ih =>
    have h1 : symbol.length < 2 ^ 64 := h symbol (List.mem_cons_self _ _)
    have h2 : ∀ s ∈ others, s.length < 2 ^ 64 := fun s hs => h s (List.mem_cons_of_mem _ hs)
    simp only [List.length_cons, List.map_cons, List.flatten_cons, write_symbol,
      List.append_assoc, read_symbols]
    rw [read_size_write_size _ _ h1]
    simp only []
    rw [read_bytes_append]
    simp only []
    rw [ih h2]

/-- Reading back one library. -/
theorem read_library_written (library : Shader_library) (rest : List Byte)
    (h : Library_fits library) :
    read_library (write_library library ++ rest) = some (library, rest) := by
  obtain ⟨h1, h2, h3⟩ := h
  simp only [write_library, List.append_assoc, read_library]
  rw [read_size_write_size _ _ h1]
  simp only []
  rw [read_symbols_written _ _ h2]
  simp only []
  rw [read_size_write_size _ _ h3]
  simp only []
  rw [read_bytes_append]

/-- Reading back the libraries. -/
theorem read_libraries_written (libraries : List Shader_library) (rest : List Byte)
    (h : ∀ library ∈ libraries, Library_fits library) :
    read_libraries libraries.length ((libraries.map write_library).flatten ++ rest) =
      some (libraries, rest) := by
  induction libraries with
  | nil => rfl
  | cons library others ih =>
    have h1 := h library (List.mem_cons_self _ _)
    have h2 : ∀ l ∈ others, Library_fits l := fun l hl => h l (List.mem_cons_of_mem _ hl)
    simp only [List.length_cons, List.map_cons, List.flatten_cons, List.append_assoc,
      read_libraries]
    rw [read_library_written _ _ h1]
    simp only []
    rw [ih h2]

/-- Reading back a whole cache file. -/
theorem read_cache_written (record_size : Nat) (bundle : Cache_bundle)
    (h : Bundle_fits record_size bundle) :
    read_cache record_size
      (write_cache bundle.tci_buffer bundle.interface_record bundle.libraries) =
      some bundle := by
  obtain ⟨h1, h2, h3, h4⟩ := h
  simp only [write_cache, List.append_assoc, read_cache]
  rw [read_size_write_size _ _ h1]
  simp only []
  rw [read_bytes_append]
  simp only []
  rw [← h2, read_bytes_append]
  simp only []
  rw [read_size_write_size _ _ h3]
  simp only []
  have h5 := read_libraries_written bundle.libraries [] h4
  rw [List.append_nil] at h5
  rw [h5]

/-- C8. Cache round trip. For every serialized target blob, every interface record
of the fixed size and every list of libraries whose lengths fit a `size_t`, the
bytes that `compile` writes to the cache file (`write_cache`), read by a reader that
follows the field order of section 4.6, give back exactly the same blob, record and
libraries (count, symbol names and binary of each); and two such bundles written to
the same bytes are equal. -/
theorem cache_round_trip (record_size : Nat) (bundle : Cache_bundle)
    (h : Bundle_fits record_size bundle) :
    read_cache record_size
      (write_cache bundle.tci_buffer bundle.interface_record bundle.libraries) =
      some bundle ∧
    ∀ other : Cache_bundle, Bundle_fits record_size other →
      write_cache other.tci_buffer other.interface_record other.libraries =
        write_cache bundle.tci_buffer bundle.interface_record bundle.libraries →
      other = bundle := by
  refine ⟨read_cache_written record_size bundle h, ?_⟩
  intro other h_other h_eq
  have h1 := read_cache_written record_size other h_other
  rw [h_eq, read_cache_written record_size bundle h] at h1
  exact (Option.some.inj h1).symm

/-- The round trip at `small_bundle`. -/
theorem cache_round_trip_witness :
    Bundle_fits 2 small_bundle ∧
    read_cache 2
      (write_cache small_bundle.tci_buffer small_bundle.interface_record
        small_bundle.libraries) = some small_bundle :=
  ⟨by simp [Bundle_fits, Library_fits, small_bundle],
   (cache_round_trip 2 small_bundle (by simp [Bundle_fits, Library_fits, small_bundle])).1⟩

/-- Writing the shader cache never touches the list of compiler calls. -/
theorem write_shader_cache_compiler_calls (sv : Services) (w : World) :
    (write_shader_cache sv w).world.compiler_calls = w.compiler_calls := by
  unfold write_shader_cache
  split
  · rfl
  · simp only []
    split
    · rfl
    · split
      · rfl
      · split
        · rfl
        · split
          · rfl
          · split <;> rfl

/-- C9, as the code has it. `compile` does not read the cache file: whenever
compilation-required is true and generation-required is false, `compile` invokes the
platform shader compiler exactly once, whatever files exist; and when
compilation-required is false it returns true without invoking the compiler. -/
theorem compile_invokes_compiler_once (sv : Services) (w : World) :
    (w.target.m_compilation_required = true → w.target.m_generation_required = false →
      (compile sv w).world.compiler_calls = w.compiler_calls ++ [compiler_invocation sv w]) ∧
    (w.target.m_compilation_required = false → compile sv w = .returned true w) := by
  constructor
  · intro hc hg
    unfold compile
    simp only [hc, hg, Bool.not_true, Bool.false_eq_true, if_false]
    split
    · rw [write_shader_cache_compiler_calls]
    · rfl
  · intro hc
    unfold compile
    simp [hc]

/-- With a complete cache file on disk, `compile` on `cached_world` still invokes
the compiler once. -/
theorem compile_invokes_compiler_once_witness :
    cached_world.target.m_compilation_required = true ∧
    cached_world.target.m_generation_required = false ∧
    (compile plain_services cached_world).world.compiler_calls =
      cached_world.compiler_calls ++ [compiler_invocation plain_services cached_world] :=
  ⟨by decide, by decide,
   (compile_invokes_compiler_once plain_services cached_world).1 (by decide) (by decide)⟩

/-- C9 as stated fails: `cached_world` holds a valid cache file for its hash and
compiler, `compile` succeeds, and yet the platform shader compiler was invoked. -/
theorem cache_hit_still_invokes_compiler :
    Valid_cache_file plain_services cached_world ∧
    (compile plain_services cached_world).value = some true ∧
    cached_world.compiler_calls = [] ∧
    (compile plain_services cached_world).world.compiler_calls.length = 1 := by
  refine ⟨⟨write_cache [9] [0, 0] [⟨[[77]], [1, 2, 3]⟩], ⟨[9], [0, 0], [⟨[[77]], [1, 2, 3]⟩]⟩,
    by decide, ?_⟩, by decide, by decide, by decide⟩
  exact read_cache_written 2 ⟨[9], [0, 0], [⟨[[77]], [1, 2, 3]⟩]⟩
    (by simp [Bundle_fits, Library_fits])

/-- C10 at the failing input: generation is done, the shader cache is enabled, the
compiler returns a library, and serializing the target code for the cache reports
an error. `compile` returns false although it has already cleared
compilation-required and stored the library. -/
theorem compile_fails_on_cache_serialization_error :
    cached_world.target.m_generation_required = false ∧
    cached_world.target.m_compilation_required = true ∧
    failing_serialize_services.enable_shader_cache = true ∧
    failing_serialize_services.compile_shader_library_from_string
      (compiler_invocation failing_serialize_services cached_world) ≠ [] ∧
    (compile failing_serialize_services cached_world).value = some false ∧
    (compile failing_serialize_services cached_world).world.target.m_compilation_required =
      false ∧
    (compile failing_serialize_services cached_world).world.target.m_dxil_compiled_libraries ≠
      [] := by
  decide

/-- When the compiler returns a library, the cache is enabled and nothing fails on
the way, the file that `compile` leaves under the cache file name holds exactly
`write_cache` of the serialized target code, the memory image of the first member's
interface record and the compiled libraries. -/
theorem compile_writes_cache_file (sv : Services) (w : World) (tc : Target_code)
    (tci_buffer : List Byte) (key : Nat) (p : Ptr) (others : List (Nat × Ptr))
    (hc : w.target.m_compilation_required = true)
    (hg : w.target.m_generation_required = false)
    (h_libraries : sv.compile_shader_library_from_string (compiler_invocation sv w) ≠ [])
    (h_cache : sv.enable_shader_cache = true)
    (h_code : w.target.m_target_code = some tc)
    (h_serialized : sv.serialize tc = some tci_buffer)
    (h_no_error : sv.serialize_error tc = false)
    (h_mkdir :
      sv.mkdir (sv.dirname (compute_shader_cache_filename sv w.target.m_compiled_material_hash))
        = true)
    (h_open :
      sv.open_for_writing (compute_shader_cache_filename sv w.target.m_compiled_material_hash)
        = true)
    (h_members : w.target.m_materials = (key, p) :: others) :
    (compile sv w).value = some true ∧
    (compile sv w).world.files
        (compute_shader_cache_filename sv w.target.m_compiled_material_hash) =
      some (.binary (write_cache tci_buffer
        (List.ofFn (sv.object_representation (w.materials p).target_interface))
        (sv.compile_shader_library_from_string (compiler_invocation sv w)))) := by
  have h_ne : (sv.compile_shader_library_from_string (compiler_invocation sv w)).isEmpty
      = false := by
    cases hl : sv.compile_shader_library_from_string (compiler_invocation sv w) with
    | nil => exact absurd hl h_libraries
    | cons a b => rfl
  simp [compile, hc, hg, h_ne, h_cache, write_shader_cache, h_code, h_serialized, h_no_error,
    h_mkdir, h_open, h_members, Outcome.value, Outcome.world]

/-- Storing a material with a new target interface does not change any hash. -/
theorem set_target_interface_hash (w : World) (p q : Ptr) (target : Ptr)
    (interface_data : Mdl_material_target_interface) :
    ((w.set_material p ((w.materials p).set_target_interface target interface_data)).materials
        q).compiled_hash = (w.materials q).compiled_hash := by
  unfold World.set_material Mdl_material.set_target_interface
  by_cases h : q = p
  · simp [h]
  · simp [h]

/-- The loop of lines 589-615, started with a non-empty `process_hash`, runs to its
end only if every member has that hash. -/
theorem add_materials_same_hash (sv : Services) (hash_of : Ptr → String)
    (members : List (Nat × Ptr)) (st : Link_state)
    (h_hash : ∀ q, (st.world.materials q).compiled_hash = hash_of q)
    (h_set : st.process_hash ≠ "")
    (h_done : (add_materials sv members st).1 = true) :
    ∀ e ∈ members, hash_of e.2 = st.process_hash := by
  induction members generalizing st with
  | nil => intro e he; cases he
  | cons first rest ih =>
    obtain ⟨k, p⟩ := first
    unfold add_materials at h_done
    simp only [h_set, if_false] at h_done
    by_cases h_eq : st.process_hash = (st.world.materials p).compiled_hash
    · rw [if_neg (not_not.mpr h_eq)] at h_done
      have h_rest := ih
        { st with
          world := st.world.set_material p
            ((st.world.materials p).set_target_interface st.world.this st.interface_data) }
        (fun q => by
          rw [set_target_interface_hash]
          exact h_hash q) h_set h_done
      intro e he
      rcases List.mem_cons.mp he with h1 | h1
      · rw [h1, h_eq, h_hash]
      · exact h_rest e h1
    · rw [if_pos h_eq] at h_done
      simp at h_done

/-- The loop of lines 589-615, started with the empty `process_hash` over members
none of which has the empty hash, runs to its end only if all members have the same
hash. -/
theorem add_materials_checks_hashes (sv : Services) (hash_of : Ptr → String)
    (members : List (Nat × Ptr)) (st : Link_state)
    (h_hash : ∀ q, (st.world.materials q).compiled_hash = hash_of q)
    (h_start : st.process_hash = "")
    (h_nonempty : ∀ e ∈ members, hash_of e.2 ≠ "")
    (h_done : (add_materials sv members st).1 = true) :
    ∀ e1 ∈ members, ∀ e2 ∈ members, hash_of e1.2 = hash_of e2.2 := by
  cases members with
  | nil => intro e he; cases he
  | cons first rest =>
    obtain ⟨k, p⟩ := first
    unfold add_materials at h_done
    simp only [h_start, if_true] at h_done
    split at h_done
    · simp at h_done
    · have h_p : hash_of p ≠ "" := h_nonempty (k, p) (List.mem_cons_self _ _)
      have h_rest := add_materials_same_hash sv hash_of rest _ (fun q => by
        simp only []
        rw [set_target_interface_hash]
        exact h_hash q) (by simp only []; rw [h_hash]; exact h_p) h_done
      simp only [] at h_rest
      rw [h_hash] at h_rest
      have h_all : ∀ e ∈ (k, p) :: rest, hash_of e.2 = hash_of p := by
        intro e he
        rcases List.mem_cons.mp he with h1 | h1
        · rw [h1]
        · exact h_rest e h1
      intro e1 h1 e2 h2
      rw [h_all e1 h1, h_all e2 h2]

/-- What `generate` does check: when generation is required and no member has the
empty hash, `generate` returns true only if all members have the same hash. -/
theorem generate_checks_nonempty_hashes (sv : Services) (w w' : World)
    (h_required : w.target.m_generation_required = true)
    (h_nonempty : ∀ e ∈ w.target.m_materials, (w.materials e.2).compiled_hash ≠ "")
    (h_done : generate sv w = .returned true w') :
    ∀ e1 ∈ w.target.m_materials, ∀ e2 ∈ w.target.m_materials,
      (w.materials e1.2).compiled_hash = (w.materials e2.2).compiled_hash := by
  unfold generate at h_done
  simp only [h_required, Bool.not_true, Bool.false_eq_true, if_false] at h_done
  split at h_done
  · simp at h_done
  · split at h_done
    · simp at h_done
    · rename_i h_loop
      simp only [Bool.not_eq_true', Bool.not_eq_false] at h_loop
      exact add_materials_checks_hashes sv (fun q => (w.materials q).compiled_hash)
        w.target.m_materials _ (fun q => rfl) rfl h_nonempty h_loop

/-- The two file-system failures of the cache-writing block are not fatal: when the
compiler returned a library and serialization reported no error, a failing `mkdir`
or a cache file that cannot be opened still lets `compile` return true with
compilation-required cleared. -/
theorem compile_survives_cache_file_failure (sv : Services) (w : World) (tc : Target_code)
    (hc : w.target.m_compilation_required = true)
    (hg : w.target.m_generation_required = false)
    (h_libraries : sv.compile_shader_library_from_string (compiler_invocation sv w) ≠ [])
    (h_code : w.target.m_target_code = some tc)
    (h_no_error : sv.serialize_error tc = false)
    (h_fail :
      sv.mkdir (sv.dirname (compute_shader_cache_filename sv w.target.m_compiled_material_hash))
          = false ∨
        sv.open_for_writing
          (compute_shader_cache_filename sv w.target.m_compiled_material_hash) = false) :
    (compile sv w).value = some true ∧
    (compile sv w).world.target.m_compilation_required = false := by
  have h_ne : (sv.compile_shader_library_from_string (compiler_invocation sv w)).isEmpty
      = false := by
    cases hl : sv.compile_shader_library_from_string (compiler_invocation sv w) with
    | nil => exact absurd hl h_libraries
    | cons a b => rfl
  cases h_enabled : sv.enable_shader_cache with
  | false =>
    simp [compile, hc, hg, h_ne, h_enabled, Outcome.value, Outcome.world]
  | true =>
    rcases h_fail with h | h
    · simp [compile, hc, hg, h_ne, h_enabled, write_shader_cache, h_code, h_no_error, h,
        Outcome.value, Outcome.world]
    · cases h_mk : sv.mkdir
          (sv.dirname (compute_shader_cache_filename sv w.target.m_compiled_material_hash)) <;>
        simp [compile, hc, hg, h_ne, h_enabled, write_shader_cache, h_code, h_no_error, h,
          h_mk, Outcome.value, Outcome.world]

/-- C12. `map_string_constant` is idempotent: on every table and for every string, a
second call returns the id of the first call and leaves the table as the first call
left it; for the empty string the call returns 0 and leaves the table alone. -/
theorem map_string_constant_idempotent (table : List Mdl_string_constant) (v : String) :
    map_string_constant (map_string_constant table v).2 v = map_string_constant table v ∧
    map_string_constant table "" = (0, table) := by
  refine ⟨?_, by simp [map_string_constant]⟩
  by_cases hv : v = ""
  · simp [map_string_constant, hv]
  · cases hf : table.find? (fun c => c.value = v) with
    | some c => simp [map_string_constant, hv, hf]
    | none => simp [map_string_constant, hv, hf, List.find?_append]

/-- The loop of lines 681-688 appends consecutive ids. -/
theorem string_ids_add_string_constants (i : Nat) (values : List String)
    (table : List Mdl_string_constant) :
    string_ids (add_string_constants i values table) =
      string_ids table ++ List.range' i values.length := by
  induction values generalizing i table with
  | nil => simp [add_string_constants]
  | cons v rest ih =>
    rw [add_string_constants, ih]
    simp [string_ids, List.range'_succ]

/-- The table rebuilt by `generate` has the ids 1, 2, ... in order. -/
theorem string_ids_rebuilt (tc : Target_code) :
    string_ids (rebuilt_string_constants tc) =
      List.range' 1 (rebuilt_string_constants tc).length := by
  have h := string_ids_add_string_constants 1 (tc.string_constants.drop 1) []
  have hl : (rebuilt_string_constants tc).length = (tc.string_constants.drop 1).length := by
    have := congrArg List.length h
    simpa [string_ids, rebuilt_string_constants] using this
  rw [hl]
  simpa [string_ids, rebuilt_string_constants] using h

/-- In a table with ids 1, 2, ... the largest id is the size. -/
theorem max_runtime_string_id_dense (table : List Mdl_string_constant)
    (h : string_ids table = List.range' 1 table.length) :
    max_runtime_string_id table = table.length := by
  unfold max_runtime_string_id
  rw [h]
  generalize table.length = n
  have key : ∀ s, (List.range' s n).foldr max 0 = if n = 0 then 0 else s + n - 1 := by
    induction n with
    | zero => intro s; rfl
    | succ k ih =>
      intro s
      rw [List.range'_succ, List.foldr_cons, ih]
      split
      · simp_all
      · simp
  rw [key]
  split <;> omega

/-- One `map_string_constant` call on a table with ids 1, 2, ..., as long as the
table it leaves is smaller than `2 ^ 32`: the ids stay 1, 2, ...; the table is
unchanged or grew by one entry for the string with id previous maximum + 1; a
non-empty string never gets id 0. -/
theorem map_string_constant_dense (table : List Mdl_string_constant) (v : String)
    (h : string_ids table = List.range' 1 table.length)
    (h_size : (map_string_constant table v).2.length < 2 ^ 32) :
    string_ids (map_string_constant table v).2 =
        List.range' 1 (map_string_constant table v).2.length ∧
    ((map_string_constant table v).2 = table ∨
      (map_string_constant table v) =
        (max_runtime_string_id table + 1,
          table ++ [⟨v, max_runtime_string_id table + 1⟩])) ∧
    (v ≠ "" → (map_string_constant table v).1 ≠ 0) := by
  by_cases hv : v = ""
  · simp [map_string_constant, hv, h]
  · cases hf : table.find? (fun c => c.value = v) with
    | some c =>
      have hmem : c ∈ table := List.mem_of_find?_eq_some hf
      have hid : c.runtime_string_id ∈ List.range' 1 table.length := by
        rw [← h]
        exact List.mem_map_of_mem _ hmem
      have hpos : 1 ≤ c.runtime_string_id := (List.mem_range'_1.mp hid).1
      simp only [map_string_constant, hv, if_false, hf]
      exact ⟨h, Or.inl trivial, fun _ => by omega⟩
    | none =>
      have hlast : table.getLast?.map (fun c => c.runtime_string_id) =
          if table.length = 0 then none else some (1 + table.length - 1) := by
        rw [← List.getLast?_map, ← List.getLast?_range']
        exact congrArg List.getLast? h
      have hmax := max_runtime_string_id_dense table h
      simp only [map_string_constant, hv, if_false, hf, List.length_append,
        List.length_singleton] at h_size ⊢
      cases hl : table.getLast? with
      | none =>
        have h0 : table = [] := List.getLast?_eq_none_iff.mp hl
        subst h0
        simp [string_ids, max_runtime_string_id]
      | some last =>
        rw [hl] at hlast
        have hne : table.length ≠ 0 := by
          intro h0
          rw [if_pos h0] at hlast
          simp at hlast
        rw [if_neg hne] at hlast
        simp only [Option.map_some', Option.some.injEq] at hlast
        have hmod : (last.runtime_string_id + 1) % 2 ^ 32 = table.length + 1 := by
          rw [hlast]
          have : 1 + table.length - 1 + 1 = table.length + 1 := by omega
          rw [this]
          exact Nat.mod_eq_of_lt h_size
        simp only [hmod, hmax]
        refine ⟨?_, Or.inr trivial, fun _ => by omega⟩
        have h2 : string_ids (table ++ [⟨v, table.length + 1⟩]) =
            string_ids table ++ [table.length + 1] := by
          simp [string_ids]
        rw [h2, h, List.range'_concat]
        simp [Nat.add_comm]



/-- A `map_string_constant` call never shrinks the table. -/
theorem map_string_constant_length (table : List Mdl_string_constant) (v : String) :
    table.length ≤ (map_string_constant table v).2.length := by
  unfold map_string_constant
  split
  · exact Nat.le_refl _
  · split
    · exact Nat.le_refl _
    · simp

/-- A sequence of `map_string_constant` calls never shrinks the table. -/
theorem map_string_constants_length (calls : List String) (table : List Mdl_string_constant) :
    table.length ≤ (map_string_constants table calls).length := by
  induction calls generalizing table with
  | nil => exact Nat.le_refl _
  | cons v rest ih =>
    exact Nat.le_trans (map_string_constant_length table v) (ih _)

/-- A sequence of `map_string_constant` calls keeps the ids 1, 2, ... as long as the
final table is smaller than `2 ^ 32`. -/
theorem map_string_constants_dense (calls : List String) (table : List Mdl_string_constant)
    (h : string_ids table = List.range' 1 table.length)
    (h_size : (map_string_constants table calls).length < 2 ^ 32) :
    string_ids (map_string_constants table calls) =
      List.range' 1 (map_string_constants table calls).length := by
  induction calls generalizing table with
  | nil => exact h
  | cons v rest ih =>
    have h1 : (map_string_constant table v).2.length < 2 ^ 32 :=
      Nat.lt_of_le_of_lt (map_string_constants_length rest _) h_size
    exact ih _ (map_string_constant_dense table v h h1).1 h_size

/-- C13. Target string ids are dense from 1 and never 0. Start from the empty table
or from the table that `generate` rebuilds out of the backend's string constants;
after any sequence of `map_string_constant` calls and one more call for a string
`v`, as long as the table stays smaller than `2 ^ 32`: the ids of the table are
exactly 1, 2, ..., size in table order before and after the call; the call leaves
the table alone or appends one entry for `v` whose id is the previous maximum + 1;
and a non-empty `v` is never given id 0. -/
theorem target_string_ids_dense (tc : Target_code) (start : List Mdl_string_constant)
    (calls : List String) (v : String)
    (h_start : start = [] ∨ start = rebuilt_string_constants tc)
    (h_size :
      (map_string_constant (map_string_constants start calls) v).2.length < 2 ^ 32) :
    string_ids (map_string_constants start calls) =
        List.range' 1 (map_string_constants start calls).length ∧
    string_ids (map_string_constant (map_string_constants start calls) v).2 =
        List.range' 1 (map_string_constant (map_string_constants start calls) v).2.length ∧
    ((map_string_constant (map_string_constants start calls) v).2 =
        map_string_constants start calls ∨
      map_string_constant (map_string_constants start calls) v =
        (max_runtime_string_id (map_string_constants start calls) + 1,
          map_string_constants start calls ++
            [⟨v, max_runtime_string_id (map_string_constants start calls) + 1⟩])) ∧
    (v ≠ "" → (map_string_constant (map_string_constants start calls) v).1 ≠ 0) := by
  have h0 : string_ids start = List.range' 1 start.length := by
    rcases h_start with h | h
    · rw [h]; rfl
    · rw [h]; exact string_ids_rebuilt tc
  have h1 : (map_string_constants start calls).length < 2 ^ 32 :=
    Nat.lt_of_le_of_lt (map_string_constant_length _ v) h_size
  have h2 := map_string_constants_dense calls start h0 h1
  exact ⟨h2, map_string_constant_dense _ v h2 h_size⟩

/-- The table rebuilt from the backend constants `["", "a", "b"]`, after
`TEXCOORD_0` and `a` were mapped, and one more call for `c`. -/
theorem target_string_ids_dense_witness :
    (map_string_constant
      (map_string_constants (rebuilt_string_constants string_target_code) ["TEXCOORD_0", "a"])
      "c").2.length < 2 ^ 32 ∧
    string_ids (map_string_constant
      (map_string_constants (rebuilt_string_constants string_target_code) ["TEXCOORD_0", "a"])
      "c").2 = [1, 2, 3, 4] ∧
    (map_string_constant
      (map_string_constants (rebuilt_string_constants string_target_code) ["TEXCOORD_0", "a"])
      "c").1 ≠ 0 := by
  have h := target_string_ids_dense string_target_code
    (rebuilt_string_constants string_target_code) ["TEXCOORD_0", "a"] "c" (Or.inr rfl)
    (by decide)
  exact ⟨by decide, by decide, h.2.2.2 (by decide)⟩

/-- Writing the shader cache never touches the two flags or the libraries. -/
theorem write_shader_cache_target (sv : Services) (w : World) :
    (write_shader_cache sv w).world.target = w.target := by
  unfold write_shader_cache
  split
  · rfl
  · simp only []
    split
    · rfl
    · split
      · rfl
      · split
        · rfl
        · split
          · rfl
          · split <;> rfl

/-- When compilation is required, `compile` returns true only if the compiler
returned a library. -/
theorem compile_true_needs_library (sv : Services) (w : World)
    (hc : w.target.m_compilation_required = true)
    (h : (compile sv w).value = some true) :
    sv.compile_shader_library_from_string (compiler_invocation sv w) ≠ [] := by
  intro h_empty
  unfold compile at h
  cases hg : w.target.m_generation_required <;>
    simp [hc, hg, h_empty, Outcome.value] at h

/-- C11, as the code has it. When `compile` has to compile (compilation-required
true, generation-required false): it returns true only if the platform compiler
returned at least one library, whatever that library exports; and if the compiler
returns no library, `compile` returns false and compilation-required stays true. -/
theorem compile_needs_a_library (sv : Services) (w : World)
    (hc : w.target.m_compilation_required = true)
    (hg : w.target.m_generation_required = false) :
    ((compile sv w).value = some true →
      sv.compile_shader_library_from_string (compiler_invocation sv w) ≠ []) ∧
    (sv.compile_shader_library_from_string (compiler_invocation sv w) = [] →
      (compile sv w).value = some false ∧
      (compile sv w).world.target.m_compilation_required = true) := by
  refine ⟨compile_true_needs_library sv w hc, ?_⟩
  intro h_empty
  simp [compile, hc, hg, h_empty, Outcome.value, Outcome.world]

/-- A compiler that returns nothing on `cached_world`. -/
theorem compile_needs_a_library_witness :
    cached_world.target.m_compilation_required = true ∧
    cached_world.target.m_generation_required = false ∧
    (compile { plain_services with compile_shader_library_from_string := fun _ => [] }
      cached_world).value = some false ∧
    (compile { plain_services with compile_shader_library_from_string := fun _ => [] }
      cached_world).world.target.m_compilation_required = true :=
  ⟨by decide, by decide,
   (compile_needs_a_library
      { plain_services with compile_shader_library_from_string := fun _ => [] }
      cached_world (by decide) (by decide)).2 rfl⟩

/-- C11 as stated fails: the compiler returns one library whose export list is
empty, and `compile` returns true and clears compilation-required. -/
theorem compile_accepts_library_without_exports :
    cached_world.target.m_compilation_required = true ∧
    cached_world.target.m_generation_required = false ∧
    (∀ library ∈ exportless_services.compile_shader_library_from_string
        (compiler_invocation exportless_services cached_world), library.exports = []) ∧
    (compile exportless_services cached_world).value = some true ∧
    (compile exportless_services cached_world).world.target.m_compilation_required = false := by
  decide

/-- The loop of lines 589-615 does not touch the target. -/
theorem add_materials_target (sv : Services) (members : List (Nat × Ptr)) (st : Link_state) :
    (add_materials sv members st).2.world.target = st.world.target := by
  induction members generalizing st with
  | nil => rfl
  | cons first rest ih =>
    obtain ⟨k, p⟩ := first
    unfold add_materials
    simp only []
    split
    · split
      · rfl
      · rw [ih]; rfl
    · split
      · rfl
      · rw [ih]; rfl

/-- Finalising the members does not touch the target. -/
theorem finalize_materials_target (sv : Services) (members : List (Nat × Ptr))
    (r : Bool × World) :
    (finalize_materials sv members r).2.target = r.2.target := by
  induction members generalizing r with
  | nil => rfl
  | cons first rest ih =>
    obtain ⟨k, p⟩ := first
    obtain ⟨b, w⟩ := r
    unfold finalize_materials
    rw [ih]
    rfl

/-- Flag facts about an outcome carry over to a world with the same flags. -/
theorem flags_carry (o : Outcome) (v w : World)
    (h : o.world.target.m_compilation_required = v.target.m_compilation_required ∧
      (o.world.target.m_generation_required = false ∨
        o.world.target.m_generation_required = v.target.m_generation_required))
    (hc : v.target.m_compilation_required = w.target.m_compilation_required)
    (hg : v.target.m_generation_required = w.target.m_generation_required) :
    o.world.target.m_compilation_required = w.target.m_compilation_required ∧
      (o.world.target.m_generation_required = false ∨
        o.world.target.m_generation_required = w.target.m_generation_required) :=
  ⟨h.1.trans hc, h.2.imp id (fun e => e.trans hg)⟩

/-- Lines 812-886 leave compilation-required alone and clear generation-required. -/
theorem generate_compose_flags (sv : Services) (tc : Target_code) (w : World) :
    (generate_compose sv tc w).world.target.m_compilation_required =
        w.target.m_compilation_required ∧
    (generate_compose sv tc w).world.target.m_generation_required = false :=
  ⟨rfl, rfl⟩

/-- Lines 754-886 leave compilation-required alone; generation-required is cleared
or left alone. -/
theorem generate_per_target_flags (sv : Services) (tc : Target_code) (w : World) :
    (generate_per_target sv tc w).world.target.m_compilation_required =
        w.target.m_compilation_required ∧
    ((generate_per_target sv tc w).world.target.m_generation_required = false ∨
      (generate_per_target sv tc w).world.target.m_generation_required =
        w.target.m_generation_required) := by
  unfold generate_per_target
  simp only []
  split
  · exact ⟨rfl, Or.inr rfl⟩
  · split
    · exact ⟨rfl, Or.inr rfl⟩
    · split
      · exact ⟨rfl, Or.inr rfl⟩
      · exact ⟨(generate_compose_flags sv tc _).1, Or.inl (generate_compose_flags sv tc _).2⟩

/-- Lines 696-886 leave compilation-required alone; generation-required is cleared
or left alone. -/
theorem generate_finalize_flags (sv : Services) (tc : Target_code) (w : World) :
    (generate_finalize sv tc w).world.target.m_compilation_required =
        w.target.m_compilation_required ∧
    ((generate_finalize sv tc w).world.target.m_generation_required = false ∨
      (generate_finalize sv tc w).world.target.m_generation_required =
        w.target.m_generation_required) := by
  have ht := finalize_materials_target sv w.target.m_materials (true, w)
  unfold generate_finalize
  simp only []
  split
  · simp only [Outcome.world]
    rw [ht]
    exact ⟨rfl, Or.inr rfl⟩
  · have hc := congrArg Mdl_material_target.m_compilation_required ht
    have hg := congrArg Mdl_material_target.m_generation_required ht
    exact flags_carry _ _ w (generate_per_target_flags sv tc _) hc hg

/-- Lines 627-886 leave compilation-required alone; generation-required is cleared
or left alone. -/
theorem generate_tables_flags (sv : Services) (tc : Target_code) (w : World) :
    (generate_tables sv tc w).world.target.m_compilation_required =
        w.target.m_compilation_required ∧
    ((generate_tables sv tc w).world.target.m_generation_required = false ∨
      (generate_tables sv tc w).world.target.m_generation_required =
        w.target.m_generation_required) := by
  unfold generate_tables
  simp only []
  split
  · exact ⟨rfl, Or.inr rfl⟩
  · exact generate_finalize_flags sv tc _

/-- Every run of `generate`, however it ends, leaves compilation-required alone
and either clears generation-required or leaves it alone. -/
theorem generate_flags (sv : Services) (w : World) :
    (generate sv w).world.target.m_compilation_required = w.target.m_compilation_required ∧
    ((generate sv w).world.target.m_generation_required = false ∨
      (generate sv w).world.target.m_generation_required = w.target.m_generation_required) := by
  have ht := add_materials_target sv w.target.m_materials
    ⟨"", Mdl_material_target_interface.fresh sv.default_argument_layout_index, ⟨[]⟩,
      { w with
        backend_calls := w.backend_calls ++ [.create_link_unit]
        target := { w.target with m_target_resources := ⟨[], [], []⟩ } }⟩
  unfold generate
  simp only []
  split
  · exact ⟨rfl, Or.inr rfl⟩
  · split
    · exact ⟨rfl, Or.inr rfl⟩
    · split
      · simp only [Outcome.world]
        rw [ht]
        exact ⟨rfl, Or.inr rfl⟩
      · split
        · simp only [Outcome.world]
          rw [ht]
          exact ⟨rfl, Or.inr rfl⟩
        · split
          · simp only [Outcome.world]
            rw [ht]
            exact ⟨rfl, Or.inr rfl⟩
          · have hc := congrArg Mdl_material_target.m_compilation_required ht
            have hg := congrArg Mdl_material_target.m_generation_required ht
            exact flags_carry _ _ w (generate_tables_flags sv _ _) hc hg


/-- The flags after `compile`, however it ends: if compilation-required is false
afterwards and the invariant held before, generation-required is false. -/
theorem compile_keeps_flags_consistent (sv : Services) (w : World)
    (h : Flags_consistent w) : Flags_consistent (compile sv w).world := by
  unfold Flags_consistent at h ⊢
  unfold compile
  cases hc : w.target.m_compilation_required with
  | false => simpa [hc, Outcome.world] using h hc
  | true =>
    cases hg : w.target.m_generation_required with
    | true => simp [hc, hg, Outcome.world]
    | false =>
      simp only [hc, hg, Bool.not_true, Bool.false_eq_true, if_false]
      split
      · rw [write_shader_cache_target]
        intro _
        rfl
      · intro _
        rfl

/-- Every run of `generate` keeps the invariant. -/
theorem generate_keeps_flags_consistent (sv : Services) (w : World)
    (h : Flags_consistent w) : Flags_consistent (generate sv w).world := by
  unfold Flags_consistent at h ⊢
  obtain ⟨h1, h2⟩ := generate_flags sv w
  intro hc
  rcases h2 with h2 | h2
  · exact h2
  · rw [h2]
    exact h (h1 ▸ hc)

/-- Registration keeps the invariant (both flags are set). -/
theorem register_keeps_flags_consistent (w : World) (material : Ptr) :
    Flags_consistent (register_material w material) := by
  intro hc
  simp [register_material] at hc

/-- Unregistration keeps the invariant. -/
theorem unregister_keeps_flags_consistent (w : World) (material : Ptr)
    (h : Flags_consistent w) : Flags_consistent (unregister_material w material).2 := by
  unfold unregister_material
  split
  · exact h
  · split
    · intro hc
      simp at hc
    · exact h

/-- Every call keeps the invariant. -/
theorem run_keeps_flags_consistent (call : Target_call) (w : World)
    (h : Flags_consistent w) : Flags_consistent (call.run w) := by
  cases call with
  | register_material material => exact register_keeps_flags_consistent w material
  | unregister_material material => exact unregister_keeps_flags_consistent w material h
  | generate sv => exact generate_keeps_flags_consistent sv w h
  | compile sv => exact compile_keeps_flags_consistent sv w h

/-- Every sequence of calls keeps the invariant. -/
theorem run_calls_keeps_flags_consistent (calls : List Target_call) (w : World)
    (h : Flags_consistent w) : Flags_consistent (run_calls w calls) := by
  induction calls generalizing w with
  | nil => exact h
  | cons call rest ih => exact ih _ (run_keeps_flags_consistent call w h)

/-- C20. Dirty-flag invariant: in every state reached from a newly constructed
target by any sequence of `register_material`, `unregister_material`, `generate`
and `compile` calls (with any services, succeeding or failing), compilation-required
= false implies generation-required = false. -/
theorem dirty_flag_invariant (this : Ptr) (suffix hash : String)
    (materials : Ptr → Mdl_material) (files : String → Option File_content)
    (calls : List Target_call) :
    (run_calls (created_world this suffix hash materials files)
        calls).target.m_compilation_required = false →
    (run_calls (created_world this suffix hash materials files)
        calls).target.m_generation_required = false :=
  run_calls_keeps_flags_consistent calls _ (by
    intro hc
    simp [created_world, Mdl_material_target.create] at hc)

/-- After registering material 2, generating and compiling, both flags are false. -/
theorem dirty_flag_invariant_witness :
    (run_calls (created_world 100 "a" "a" (fun p => plain_material p "a") (fun _ => none))
        [.register_material 2, .generate plain_services,
          .compile plain_services]).target.m_compilation_required = false ∧
    (run_calls (created_world 100 "a" "a" (fun p => plain_material p "a") (fun _ => none))
        [.register_material 2, .generate plain_services,
          .compile plain_services]).target.m_generation_required = false :=
  ⟨by decide,
   dirty_flag_invariant 100 "a" "a" (fun p => plain_material p "a") (fun _ => none)
      [.register_material 2, .generate plain_services, .compile plain_services] (by decide)⟩

/-- An entry of the map after an assignment is the new entry or an old one. -/
theorem mem_map_assign (key : Nat) (value : Ptr) (m : List (Nat × Ptr)) (e : Nat × Ptr)
    (h : e ∈ map_assign key value m) : e = (key, value) ∨ e ∈ m := by
  induction m with
  | nil =>
    simp only [map_assign, List.mem_singleton] at h
    exact Or.inl h
  | cons first rest ih =>
    obtain ⟨k, p⟩ := first
    unfold map_assign at h
    split at h
    · rcases List.mem_cons.mp h with h1 | h1
      · exact Or.inl h1
      · exact Or.inr h1
    · split at h
      · rcases List.mem_cons.mp h with h1 | h1
        · exact Or.inl h1
        · exact Or.inr (List.mem_cons_of_mem _ h1)
      · rcases List.mem_cons.mp h with h1 | h1
        · exact Or.inr (h1 ▸ List.mem_cons_self _ _)
        · rcases ih h1 with h2 | h2
          · exact Or.inl h2
          · exact Or.inr (List.mem_cons_of_mem _ h2)

/-- Assignment keeps the map in ascending key order. -/
theorem map_assign_sorted (key : Nat) (value : Ptr) (m : List (Nat × Ptr))
    (h : m.Pairwise (fun a b => a.1 < b.1)) :
    (map_assign key value m).Pairwise (fun a b => a.1 < b.1) := by
  induction m with
  | nil => simp [map_assign]
  | cons first rest ih =>
    obtain ⟨k, p⟩ := first
    obtain ⟨h1, h2⟩ := List.pairwise_cons.mp h
    unfold map_assign
    split
    · rename_i hlt
      refine List.pairwise_cons.mpr ⟨?_, h⟩
      intro e he
      rcases List.mem_cons.mp he with h3 | h3
      · rw [h3]; exact hlt
      · exact Nat.lt_trans hlt (h1 e h3)
    · split
      · rename_i heq
        refine List.pairwise_cons.mpr ⟨?_, h2⟩
        intro e he
        have := h1 e he
        simp only [] at this ⊢
        omega
      · rename_i hnlt hne
        refine List.pairwise_cons.mpr ⟨?_, ih h2⟩
        intro e he
        rcases mem_map_assign key value rest e he with h3 | h3
        · rw [h3]
          simp only []
          omega
        · exact h1 e h3

/-- Assigning a key that the map does not hold adds one entry. -/
theorem map_assign_perm (key : Nat) (value : Ptr) (m : List (Nat × Ptr))
    (h : ∀ e ∈ m, e.1 ≠ key) : (map_assign key value m).Perm ((key, value) :: m) := by
  induction m with
  | nil => simp [map_assign]
  | cons first rest ih =>
    obtain ⟨k, p⟩ := first
    have hk : k ≠ key := h (k, p) (List.mem_cons_self _ _)
    unfold map_assign
    split
    · exact List.Perm.refl _
    · exact ((ih (fun e he => h e (List.mem_cons_of_mem _ he))).cons (k, p)).trans
        (List.Perm.swap _ _ _)

/-- Registration does not change the material objects. -/
theorem register_materials_materials (ps : List Ptr) (w : World) :
    (register_materials w ps).materials = w.materials := by
  induction ps generalizing w with
  | nil => rfl
  | cons p rest ih =>
    unfold register_materials
    rw [ih]
    rfl

/-- Registering materials with distinct ids that the map does not hold yet: the map
stays in ascending id order and holds the old entries and one entry per
registration. -/
theorem register_materials_sorted (ps : List Ptr) (w : World)
    (h_sorted : w.target.m_materials.Pairwise (fun a b => a.1 < b.1))
    (h_new : ∀ p ∈ ps, ∀ e ∈ w.target.m_materials, e.1 ≠ (w.materials p).id)
    (h_distinct : (ps.map (fun p => (w.materials p).id)).Nodup) :
    (register_materials w ps).target.m_materials.Pairwise (fun a b => a.1 < b.1) ∧
    (register_materials w ps).target.m_materials.Perm
      (w.target.m_materials ++ ps.map (member_entry w)) := by
  induction ps generalizing w with
  | nil => simpa [register_materials] using h_sorted
  | cons p rest ih =>
    obtain ⟨hp, hrest⟩ := List.nodup_cons.mp h_distinct
    have h_perm := map_assign_perm (w.materials p).id p w.target.m_materials
      (h_new p (List.mem_cons_self _ _))
    have h1 := ih (register_material w p)
      (map_assign_sorted _ _ _ h_sorted)
      (by
        intro q hq e he
        have he' : e ∈ map_assign (w.materials p).id p w.target.m_materials := he
        show e.1 ≠ (w.materials q).id
        rcases mem_map_assign _ _ _ e he' with h2 | h2
        · rw [h2]
          intro h3
          exact hp (List.mem_map.mpr ⟨q, hq, h3.symm⟩)
        · exact h_new q (List.mem_cons_of_mem _ hq) e h2)
      hrest
    refine ⟨h1.1, h1.2.trans ?_⟩
    show (map_assign (w.materials p).id p w.target.m_materials ++
        rest.map (member_entry (register_material w p))).Perm _
    have h4 : rest.map (member_entry (register_material w p)) = rest.map (member_entry w) := rfl
    rw [h4, List.map_cons]
    exact (h_perm.append_right _).trans List.perm_middle.symm


/-- The logged loop, started with any log: it behaves as the plain loop, and what it
appends to the log satisfies `Visit_in_order`. -/
theorem visit_loop_logged {σ : Type} (action : σ → Ptr → Bool × σ)
    (members : List (Nat × Ptr)) (s : σ) (acc : List (Ptr × Bool)) :
    ∃ log,
      (visit_loop (logged action) members (s, acc)).2.2 = acc ++ log ∧
      ((visit_loop (logged action) members (s, acc)).1,
        (visit_loop (logged action) members (s, acc)).2.1) = visit_loop action members s ∧
      Visit_in_order members log (visit_loop (logged action) members (s, acc)).1 := by
  induction members generalizing s acc with
  | nil =>
    refine ⟨[], by simp [visit_loop], rfl, ⟨[], rfl⟩, ?_, ?_, ?_⟩
    · intro e he; cases he
    · intro _; exact ⟨rfl, fun e he => by cases he⟩
    · intro h; simp [visit_loop] at h
  | cons first rest ih =>
    obtain ⟨k, p⟩ := first
    cases hb : (action s p).1 with
    | false =>
      refine ⟨[(p, false)], ?_, ?_, ⟨rest.map Prod.snd, rfl⟩, ?_, ?_, ?_⟩
      · simp [visit_loop, logged, hb]
      · simp [visit_loop, logged, hb]
      · intro e he; cases he
      · intro h; simp [visit_loop, logged, hb] at h
      · intro _; exact ⟨p, rfl⟩
    | true =>
      obtain ⟨log, h1, h2, ⟨tail, h3⟩, h4, h5, h6⟩ :=
        ih (action s p).2 (acc ++ [(p, true)])
      have hstep : visit_loop (logged action) ((k, p) :: rest) (s, acc) =
          visit_loop (logged action) rest ((action s p).2, acc ++ [(p, true)]) := by
        simp [visit_loop, logged, hb]
      have hplain : visit_loop action ((k, p) :: rest) s =
          visit_loop action rest (action s p).2 := by
        simp [visit_loop, hb]
      rw [hstep, hplain]
      refine ⟨(p, true) :: log, ?_, h2, ⟨tail, ?_⟩, ?_, ?_, ?_⟩
      · rw [h1]; simp
      · simp [h3]
      · intro e he
        cases log with
        | nil => cases he
        | cons l ls =>
          rw [List.dropLast_cons₂] at he
          rcases List.mem_cons.mp he with h7 | h7
          · rw [h7]
          · exact h4 e h7
      · intro hr
        obtain ⟨h8, h9⟩ := h5 hr
        refine ⟨by simp [h8], ?_⟩
        intro e he
        rcases List.mem_cons.mp he with h7 | h7
        · rw [h7]
        · exact h9 e h7
      · intro hr
        obtain ⟨q, hq⟩ := h6 hr
        refine ⟨q, ?_⟩
        cases log with
        | nil => simp at hq
        | cons l ls => rw [List.getLast?_cons_cons]; exact hq

/-- C19, as the code has it. After any sequence of `register_material` calls with
distinct material ids on a target without members, the member map is in ascending
id order and holds exactly the registered materials; `visit_materials` applies the
action to the members in that order (ascending id, not registration order), stops
at the first member on which the action returns false and then returns false, and
returns true exactly when the action returned true on every member. -/
theorem visit_materials_in_id_order {σ : Type} (w : World) (ps : List Ptr)
    (action : σ → Ptr → Bool × σ) (s : σ)
    (h_empty : w.target.m_materials = [])
    (h_distinct : (ps.map (fun p => (w.materials p).id)).Nodup) :
    (register_materials w ps).target.m_materials.Pairwise (fun a b => a.1 < b.1) ∧
    (register_materials w ps).target.m_materials.Perm (ps.map (member_entry w)) ∧
    ((visit_materials (register_materials w ps) (logged action) (s, [])).1,
      (visit_materials (register_materials w ps) (logged action) (s, [])).2.1) =
        visit_materials (register_materials w ps) action s ∧
    Visit_in_order (register_materials w ps).target.m_materials
      (visit_materials (register_materials w ps) (logged action) (s, [])).2.2
      (visit_materials (register_materials w ps) (logged action) (s, [])).1 := by
  have h1 := register_materials_sorted ps w (by rw [h_empty]; exact List.Pairwise.nil)
    (by intro p _ e he; rw [h_empty] at he; cases he) h_distinct
  rw [h_empty, List.nil_append] at h1
  obtain ⟨log, h2, h3, h4⟩ :=
    visit_loop_logged action (register_materials w ps).target.m_materials s []
  rw [List.nil_append] at h2
  refine ⟨h1.1, h1.2, h3, ?_⟩
  unfold visit_materials
  rw [h2]
  exact h4

/-- Materials 3, 1 and 2 registered in this order are visited as 1, 2, 3; the
action fails on material 2, so material 3 is not visited. -/
theorem visit_materials_in_id_order_witness :
    new_world.target.m_materials = [] ∧
    (register_materials new_world [3, 1, 2]).target.m_materials = [(1, 1), (2, 2), (3, 3)] ∧
    (visit_materials (register_materials new_world [3, 1, 2])
      (logged (fun (n : Nat) p => (p != 2, n + 1))) (0, [])).2.2 = [(1, true), (2, false)] ∧
    Visit_in_order (register_materials new_world [3, 1, 2]).target.m_materials
      (visit_materials (register_materials new_world [3, 1, 2])
        (logged (fun (n : Nat) p => (p != 2, n + 1))) (0, [])).2.2
      (visit_materials (register_materials new_world [3, 1, 2])
        (logged (fun (n : Nat) p => (p != 2, n + 1))) (0, [])).1 :=
  ⟨by decide, by decide, by decide,
   (visit_materials_in_id_order new_world [3, 1, 2] (fun (n : Nat) p => (p != 2, n + 1)) 0
      (by decide) (by decide)).2.2.2⟩

/-- C19 as stated fails: materials 2 and 1 have distinct ids and are registered in
this order; the action returns true throughout; `visit_materials` applies it to
material 1 first and to material 2 second. -/
theorem visit_materials_not_in_registration_order :
    ([2, 1].map (fun p => (new_world.materials p).id)).Nodup ∧
    (visit_materials (register_materials new_world [2, 1])
      (logged (fun (_ : Unit) _ => (true, ()))) ((), [])).2.2.map Prod.fst = [1, 2] ∧
    (visit_materials (register_materials new_world [2, 1])
      (logged (fun (_ : Unit) _ => (true, ()))) ((), [])).2.2.map Prod.fst ≠ [2, 1] := by
  decide

/-- The loop of lines 681-688 appends to the table it is given. -/
theorem add_string_constants_append (i : Nat) (values : List String)
    (table : List Mdl_string_constant) :
    add_string_constants i values table = table ++ add_string_constants i values [] := by
  induction values generalizing i table with
  | nil => simp [add_string_constants]
  | cons v rest ih =>
    rw [add_string_constants, ih, add_string_constants, ih (i + 1) ([] ++ _)]
    simp

/-- The first slot that holds a string is the id the rebuilt table stores for it. -/
theorem find_in_added_string_constants (value : String) (i j : Nat) (values : List String)
    (h : find_string_constant value j values = some i) :
    (add_string_constants j values []).find? (fun c => c.value = value) = some ⟨value, i⟩ := by
  induction values generalizing j with
  | nil => simp [find_string_constant] at h
  | cons c rest ih =>
    rw [add_string_constants, add_string_constants_append]
    unfold find_string_constant at h
    by_cases hc : c = value
    · rw [if_pos hc] at h
      simp only [Option.some.injEq] at h
      simp [hc, h]
    · rw [if_neg hc] at h
      simp [hc, ih (j + 1) h]

/-- A `map_string_constant` call leaves the table or appends one entry. -/
theorem map_string_constant_appends (table : List Mdl_string_constant) (v : String) :
    ∃ extra, (map_string_constant table v).2 = table ++ extra := by
  unfold map_string_constant
  split
  · exact ⟨[], by simp⟩
  · split
    · exact ⟨[], by simp⟩
    · exact ⟨_, rfl⟩

/-- On a generated target, a string that the table does not hold and that is not
the string of slot 0 is not found by the scan of lines 194-196. -/
theorem absent_from_table_fails_scan (tc : Target_code) (value : String)
    (h_absent : (generated_string_constants tc).find? (fun c => c.value = value) = none)
    (h_slot : tc.string_constants.head? ≠ some value) :
    find_string_constant value 0 tc.string_constants = none := by
  cases hl : tc.string_constants with
  | nil => rfl
  | cons c rest =>
    rw [hl] at h_slot
    have hc : c ≠ value := by
      intro e
      exact h_slot (by rw [e]; rfl)
    unfold find_string_constant
    rw [if_neg hc]
    cases h_found : find_string_constant value (0 + 1) rest with
    | none => rfl
    | some i =>
      have h2 := find_in_added_string_constants value i 1 rest h_found
      obtain ⟨extra, h3⟩ :=
        map_string_constant_appends (rebuilt_string_constants tc) "TEXCOORD_0"
      have h4 : rebuilt_string_constants tc = add_string_constants 1 rest [] := by
        simp [rebuilt_string_constants, hl]
      unfold generated_string_constants at h_absent
      rw [h3, List.find?_append, h4, h2] at h_absent
      simp at h_absent

/-- C16. `get_resource_index` follows the three-way rule on a generated target. If
the backend knows the resource under an index above 0 that is flagged as a body
resource of the resource's kind, the result is that index and nothing changes.
Otherwise, if the resource has no name, the result is 0 and nothing changes.
Otherwise, for a 2D or 3D texture, a light profile or a BSDF measurement, the
material's `register_resource` is called with the kind, the dimension and the name,
its material is stored and the result is its id (as a 32-bit value, so the id
itself whenever it fits). -/
theorem get_resource_index_three_way (cb : Callback_services) (w : World) (material : Ptr)
    (tc : Target_code) (resource : Value_resource)
    (h_code : w.target.m_target_code = some tc) :
    (0 < cb.get_known_resource_index tc resource →
      is_body_resource tc resource.kind (cb.get_known_resource_index tc resource) = true →
      get_resource_index cb w material resource =
        .returned (cb.get_known_resource_index tc resource) w) ∧
    (¬ (0 < cb.get_known_resource_index tc resource ∧
        is_body_resource tc resource.kind (cb.get_known_resource_index tc resource) = true) →
      (resource.value = none → get_resource_index cb w material resource = .returned 0 w) ∧
      (∀ name kind dimension, resource.value = some name →
        (resource.kind = .VK_TEXTURE ∧ resource.shape = .TS_2D ∧
            kind = .Texture ∧ dimension = .Texture_2D ∨
          resource.kind = .VK_TEXTURE ∧ resource.shape = .TS_3D ∧
            kind = .Texture ∧ dimension = .Texture_3D ∨
          resource.kind = .VK_LIGHT_PROFILE ∧
            kind = .Light_profile ∧ dimension = .Undefined ∨
          resource.kind = .VK_BSDF_MEASUREMENT ∧
            kind = .Bsdf_measurement ∧ dimension = .Undefined) →
        get_resource_index cb w material resource =
          .returned
            ((cb.register_resource w.target (w.materials material) kind dimension name).1
              % 2 ^ 32)
            (w.set_material material
              (cb.register_resource w.target (w.materials material) kind dimension name).2) ∧
        ((cb.register_resource w.target (w.materials material) kind dimension name).1
            < 2 ^ 32 →
          (get_resource_index cb w material resource).index =
            some (cb.register_resource w.target (w.materials material) kind dimension
              name).1))) := by
  refine ⟨?_, ?_⟩
  · intro h1 h2
    simp [get_resource_index, h_code, h1, h2]
  · intro h_not
    have h_if : (decide (0 < cb.get_known_resource_index tc resource) &&
        is_body_resource tc resource.kind (cb.get_known_resource_index tc resource)) = false := by
      cases hb : is_body_resource tc resource.kind (cb.get_known_resource_index tc resource)
      · simp
      · simp only [Bool.and_true, decide_eq_false_iff_not]
        exact fun h => h_not ⟨h, hb⟩
    refine ⟨?_, ?_⟩
    · intro h_none
      simp [get_resource_index, h_code, h_if, h_none]
    · intro name kind dimension h_name h_kind
      have h_sel : resource_kind_and_dimension resource = some (kind, dimension) := by
        rcases h_kind with ⟨a, b, c, d⟩ | ⟨a, b, c, d⟩ | ⟨a, c, d⟩ | ⟨a, c, d⟩ <;>
          simp [resource_kind_and_dimension, *]
      have h_eq : get_resource_index cb w material resource =
          .returned
            ((cb.register_resource w.target (w.materials material) kind dimension name).1
              % 2 ^ 32)
            (w.set_material material
              (cb.register_resource w.target (w.materials material) kind dimension name).2) := by
        simp [get_resource_index, h_code, h_if, h_name, h_sel]
      refine ⟨h_eq, ?_⟩
      intro h_fits
      rw [h_eq]
      simp only [Index_outcome.index, Nat.mod_eq_of_lt h_fits]

/-- The three ways on the generated target for `texture_target_code`: the body
texture `wood` keeps the backend's index 1; a resource without a name gets 0; the
texture `argument`, known to the backend under index 2 but no body resource, is
registered with the material. -/
theorem get_resource_index_three_way_witness :
    get_resource_index texture_callbacks texture_world 2
        ⟨.VK_TEXTURE, .TS_2D, some "wood"⟩ = .returned 1 texture_world ∧
    get_resource_index texture_callbacks texture_world 2
        ⟨.VK_LIGHT_PROFILE, .TS_2D, none⟩ = .returned 0 texture_world ∧
    (get_resource_index texture_callbacks texture_world 2
        ⟨.VK_TEXTURE, .TS_2D, some "argument"⟩).index =
      some (texture_callbacks.register_resource texture_world.target
        (texture_world.materials 2) .Texture .Texture_2D "argument").1 :=
  ⟨(get_resource_index_three_way texture_callbacks texture_world 2 texture_target_code
      ⟨.VK_TEXTURE, .TS_2D, some "wood"⟩ (by decide)).1 (by decide) (by decide),
   ((get_resource_index_three_way texture_callbacks texture_world 2 texture_target_code
      ⟨.VK_LIGHT_PROFILE, .TS_2D, none⟩ (by decide)).2 (by decide)).1 rfl,
   (((get_resource_index_three_way texture_callbacks texture_world 2 texture_target_code
      ⟨.VK_TEXTURE, .TS_2D, some "argument"⟩ (by decide)).2 (by decide)).2
      "argument" .Texture .Texture_2D rfl (Or.inl ⟨rfl, rfl, rfl, rfl⟩)).2 (by decide)⟩

/-- C17. The callbacks never write to the target: for every resource value and
every string value, `get_resource_index` and `get_string_index` leave the whole
target as it was (its per-kind resource tables and its string-constant table
included), and of the materials only the one the callback was created for can
change. -/
theorem callbacks_leave_target_alone (cb : Callback_services) (w : World) (material : Ptr)
    (resource : Value_resource) (s : Option String) :
    (get_resource_index cb w material resource).world.target = w.target ∧
    (get_string_index cb w material s).world.target = w.target ∧
    (∀ q, q ≠ material →
      (get_resource_index cb w material resource).world.materials q = w.materials q ∧
      (get_string_index cb w material s).world.materials q = w.materials q) := by
  have h1 : (get_resource_index cb w material resource).world.target = w.target ∧
      ∀ q, q ≠ material →
        (get_resource_index cb w material resource).world.materials q = w.materials q := by
    unfold get_resource_index
    split
    · exact ⟨rfl, fun _ _ => rfl⟩
    · simp only []
      split
      · exact ⟨rfl, fun _ _ => rfl⟩
      · split
        · exact ⟨rfl, fun _ _ => rfl⟩
        · split
          · exact ⟨rfl, fun _ _ => rfl⟩
          · refine ⟨rfl, fun q hq => ?_⟩
            simp [Index_outcome.world, World.set_material, hq]
  have h2 : (get_string_index cb w material s).world.target = w.target ∧
      ∀ q, q ≠ material →
        (get_string_index cb w material s).world.materials q = w.materials q := by
    unfold get_string_index
    split
    · exact ⟨rfl, fun _ _ => rfl⟩
    · split
      · split <;> exact ⟨rfl, fun _ _ => rfl⟩
      · split
        · exact ⟨rfl, fun _ _ => rfl⟩
        · split
          · exact ⟨rfl, fun _ _ => rfl⟩
          · refine ⟨rfl, fun q hq => ?_⟩
            simp [Index_outcome.world, World.set_material, hq]
  exact ⟨h1.1, h2.1, fun q hq => ⟨h1.2 q hq, h2.2 q hq⟩⟩

/-- A second `map_string_constant` call for the same string changes nothing. -/
theorem map_string_constant_twice (table : List Mdl_string_constant) (v : String) :
    (map_string_constant (map_string_constant table v).2 v).2 =
      (map_string_constant table v).2 := by
  by_cases hv : v = ""
  · simp [map_string_constant, hv]
  · cases hf : table.find? (fun c => c.value = v) with
    | some c => simp [map_string_constant, hv, hf]
    | none => simp [map_string_constant, hv, hf, List.find?_append]

/-- The loops of lines 657-678 append the body slots, each under its slot index. -/
theorem resource_ids_add_body_resources (kind : Mdl_resource_kind) (i : Nat)
    (slots : List Target_resource) (table : List Mdl_resource_assignment) :
    resource_ids (add_body_resources kind i slots table) =
      resource_ids table ++ body_slot_ids i (slots.map (fun r => r.is_body_resource)) := by
  induction slots generalizing i table with
  | nil => simp [add_body_resources, body_slot_ids]
  | cons r rest ih =>
    cases hb : r.is_body_resource with
    | false =>
      simp only [add_body_resources, hb, Bool.not_false, if_true, List.map_cons, body_slot_ids,
        Bool.false_eq_true, if_false]
      exact ih _ _
    | true =>
      simp only [add_body_resources, hb, Bool.not_true, Bool.false_eq_true, if_false,
        List.map_cons, body_slot_ids, if_true]
      rw [ih]
      simp [resource_ids]

/-- The loop of lines 628-654, when it runs to its end, appends the body slots, each
under its slot index. -/
theorem resource_ids_add_body_textures (i : Nat) (slots : List Target_texture)
    (table : List Mdl_resource_assignment)
    (h : (add_body_textures i slots table).1 = true) :
    resource_ids (add_body_textures i slots table).2 =
      resource_ids table ++ body_slot_ids i (slots.map (fun t => t.is_body_resource)) := by
  induction slots generalizing i table with
  | nil => simp [add_body_textures, body_slot_ids]
  | cons t rest ih =>
    unfold add_body_textures at h ⊢
    cases hb : t.is_body_resource with
    | false =>
      simp only [hb, Bool.not_false, if_true] at h ⊢
      rw [ih _ _ h]
      simp [body_slot_ids, hb]
    | true =>
      simp only [hb, Bool.not_true, Bool.false_eq_true, if_false] at h ⊢
      cases hd : texture_dimension_of t.shape with
      | none => simp [hd] at h
      | some d =>
        simp only [hd] at h ⊢
        rw [ih _ _ h]
        simp [body_slot_ids, hb, resource_ids]

/-- The flagged slot indices counted from `i` are at least `i`, belong to flagged
slots, and ascend strictly. -/
theorem body_slot_ids_sound (flags : List Bool) (i : Nat) :
    (∀ x ∈ body_slot_ids i flags, i ≤ x ∧ flags.get? (x - i) = some true) ∧
    (body_slot_ids i flags).Pairwise (fun a b => a < b) := by
  induction flags generalizing i with
  | nil => simp [body_slot_ids]
  | cons flag rest ih =>
    obtain ⟨h1, h2⟩ := ih (i + 1)
    have h_rest : ∀ x ∈ body_slot_ids (i + 1) rest,
        i ≤ x ∧ (flag :: rest).get? (x - i) = some true := by
      intro x hx
      obtain ⟨h3, h4⟩ := h1 x hx
      have h5 : x - i = (x - (i + 1)) + 1 := by omega
      refine ⟨by omega, ?_⟩
      rw [h5, List.get?_cons_succ]
      exact h4
    unfold body_slot_ids
    cases flag with
    | false => exact ⟨by simpa using h_rest, by simpa using h2⟩
    | true =>
      simp only [if_true]
      refine ⟨?_, List.pairwise_cons.mpr ⟨fun x hx => ?_, h2⟩⟩
      · intro x hx
        rcases List.mem_cons.mp hx with h3 | h3
        · rw [h3]; simp
        · exact h_rest x h3
      · have := (h1 x hx).1
        omega

/-- When the flagged slots come first, their indices are consecutive. -/
theorem body_slot_ids_dense (i k m : Nat) :
    body_slot_ids i (List.replicate k true ++ List.replicate m false) = List.range' i k := by
  induction k generalizing i with
  | zero =>
    induction m generalizing i with
    | zero => rfl
    | succ n ih =>
      simp only [List.replicate_zero, List.nil_append, List.replicate_succ, body_slot_ids,
        Bool.false_eq_true, if_false] at ih ⊢
      exact ih (i + 1)
  | succ n ih =>
    simp only [List.replicate_succ, List.cons_append, body_slot_ids, if_true,
      List.range'_succ]
    exact congrArg (List.cons i) (ih (i + 1))


/-- Lines 812-886, when they return true, leave the resource tables and the target
code alone and map `TEXCOORD_0` once more. -/
theorem generate_compose_tables (sv : Services) (tc : Target_code) (w w' : World)
    (h : generate_compose sv tc w = .returned true w') :
    w'.target.m_target_resources = w.target.m_target_resources ∧
    w'.target.m_target_string_constants =
      (map_string_constant w.target.m_target_string_constants "TEXCOORD_0").2 ∧
    w'.target.m_target_code = w.target.m_target_code := by
  unfold generate_compose at h
  simp only [Outcome.returned.injEq, true_and] at h
  rw [← h]
  exact ⟨rfl, rfl, rfl⟩

/-- Lines 754-886, when they return true: as `generate_compose_tables`. -/
theorem generate_per_target_tables (sv : Services) (tc : Target_code) (w w' : World)
    (h : generate_per_target sv tc w = .returned true w') :
    w'.target.m_target_resources = w.target.m_target_resources ∧
    w'.target.m_target_string_constants =
      (map_string_constant w.target.m_target_string_constants "TEXCOORD_0").2 ∧
    w'.target.m_target_code = w.target.m_target_code := by
  unfold generate_per_target at h
  simp only [] at h
  split at h
  · simp at h
  · split at h
    · simp at h
    · split at h
      · simp at h
      · have h1 := generate_compose_tables sv tc _ w' h
        exact h1

/-- Lines 696-886, when they return true: as `generate_compose_tables`. -/
theorem generate_finalize_tables (sv : Services) (tc : Target_code) (w w' : World)
    (h : generate_finalize sv tc w = .returned true w') :
    w'.target.m_target_resources = w.target.m_target_resources ∧
    w'.target.m_target_string_constants =
      (map_string_constant w.target.m_target_string_constants "TEXCOORD_0").2 ∧
    w'.target.m_target_code = w.target.m_target_code := by
  have ht := finalize_materials_target sv w.target.m_materials (true, w)
  unfold generate_finalize at h
  simp only [] at h
  split at h
  · simp at h
  · have h1 := generate_per_target_tables sv tc _ w' h
    have e1 := congrArg Mdl_material_target.m_target_resources ht
    have e2 := congrArg Mdl_material_target.m_target_string_constants ht
    have e3 := congrArg Mdl_material_target.m_target_code ht
    exact ⟨h1.1.trans e1, h1.2.1.trans (congrArg (fun t => (map_string_constant t _).2) e2),
      h1.2.2.trans e3⟩

/-- Lines 627-886, when they return true on empty resource tables: the texture loop
ran to its end, the three resource tables are what the loops built, the string
table is the generated one, and the target code is untouched. -/
theorem generate_tables_tables (sv : Services) (tc : Target_code) (w w' : World)
    (h : generate_tables sv tc w = .returned true w')
    (h_empty : w.target.m_target_resources = ⟨[], [], []⟩) :
    (add_body_textures 1 (tc.textures.drop 1) []).1 = true ∧
    w'.target.m_target_resources.texture = (add_body_textures 1 (tc.textures.drop 1) []).2 ∧
    w'.target.m_target_resources.light_profile =
      add_body_resources .Light_profile 1 (tc.light_profiles.drop 1) [] ∧
    w'.target.m_target_resources.bsdf_measurement =
      add_body_resources .Bsdf_measurement 1 (tc.bsdf_measurements.drop 1) [] ∧
    w'.target.m_target_string_constants = generated_string_constants tc ∧
    w'.target.m_target_code = w.target.m_target_code := by
  unfold generate_tables at h
  simp only [h_empty] at h
  split at h
  · simp at h
  · rename_i h_textures
    simp only [Bool.not_eq_true', Bool.not_eq_false] at h_textures
    obtain ⟨h1, h2, h3⟩ := generate_finalize_tables sv tc _ w' h
    refine ⟨h_textures, ?_, ?_, ?_, ?_, h3⟩
    · rw [h1]
    · rw [h1]
    · rw [h1]
    · rw [h2]
      exact map_string_constant_twice _ _

/-- A `generate` that had to run and returned true: the backend handed over a target
code, the three resource tables were rebuilt from the empty tables out of it, and
the string table is the generated one. -/
theorem generate_rebuilds_tables (sv : Services) (w w' : World)
    (h_required : w.target.m_generation_required = true)
    (h : generate sv w = .returned true w') :
    ∃ tc, w'.target.m_target_code = some tc ∧
      (add_body_textures 1 (tc.textures.drop 1) []).1 = true ∧
      w'.target.m_target_resources.texture = (add_body_textures 1 (tc.textures.drop 1) []).2 ∧
      w'.target.m_target_resources.light_profile =
        add_body_resources .Light_profile 1 (tc.light_profiles.drop 1) [] ∧
      w'.target.m_target_resources.bsdf_measurement =
        add_body_resources .Bsdf_measurement 1 (tc.bsdf_measurements.drop 1) [] ∧
      w'.target.m_target_string_constants = generated_string_constants tc := by
  have ht := add_materials_target sv w.target.m_materials
    ⟨"", Mdl_material_target_interface.fresh sv.default_argument_layout_index, ⟨[]⟩,
      { w with
        backend_calls := w.backend_calls ++ [.create_link_unit]
        target := { w.target with m_target_resources := ⟨[], [], []⟩ } }⟩
  unfold generate at h
  have h_run : ¬ ((!w.target.m_generation_required) = true) := by simp [h_required]
  rw [if_neg h_run] at h
  simp only [] at h
  split at h
  · simp at h
  · split at h
    · simp at h
    · split at h
      · simp at h
      · split at h
        · simp at h
        · rename_i tc h_tc
          have e := congrArg Mdl_material_target.m_target_resources ht
          obtain ⟨h1, h2, h3, h4, h5, h6⟩ := generate_tables_tables sv tc _ w' h e
          exact ⟨tc, h6.trans h_tc, h1, h2, h3, h4, h5⟩

/-- C18, as the code has it. After every `generate` that had to run and returned
true, each of the three resource tables of the target was rebuilt from scratch out
of the generated target code: its runtime ids are the slot indices, counted from 1,
of the slots the backend flags as body resources, in ascending order. Such ids are
at least 1, belong to body slots only and ascend strictly; they are the consecutive
ids 1..k when the k body slots come before every other slot. -/
theorem generate_resource_ids_are_body_slots (sv : Services) (w w' : World)
    (h_required : w.target.m_generation_required = true)
    (h : generate sv w = .returned true w') :
    (∃ tc, w'.target.m_target_code = some tc ∧
      resource_ids w'.target.m_target_resources.texture =
        body_slot_ids 1 ((tc.textures.drop 1).map (fun t => t.is_body_resource)) ∧
      resource_ids w'.target.m_target_resources.light_profile =
        body_slot_ids 1 ((tc.light_profiles.drop 1).map (fun r => r.is_body_resource)) ∧
      resource_ids w'.target.m_target_resources.bsdf_measurement =
        body_slot_ids 1 ((tc.bsdf_measurements.drop 1).map (fun r => r.is_body_resource))) ∧
    (∀ flags : List Bool,
      (∀ x ∈ body_slot_ids 1 flags, 1 ≤ x ∧ flags.get? (x - 1) = some true) ∧
      (body_slot_ids 1 flags).Pairwise (fun a b => a < b)) ∧
    (∀ k m : Nat,
      body_slot_ids 1 (List.replicate k true ++ List.replicate m false) = List.range' 1 k) := by
  refine ⟨?_, fun flags => body_slot_ids_sound flags 1, fun k m => body_slot_ids_dense 1 k m⟩
  obtain ⟨tc, h1, h2, h3, h4, h5, _⟩ := generate_rebuilds_tables sv w w' h_required h
  refine ⟨tc, h1, ?_, ?_, ?_⟩
  · rw [h3, resource_ids_add_body_textures _ _ _ h2]
    rfl
  · rw [h4, resource_ids_add_body_resources]
    rfl
  · rw [h5, resource_ids_add_body_resources]
    rfl

/-- Generating for `texture_target_code`: the texture table holds the body slots 1
and 3. -/
theorem generate_resource_ids_are_body_slots_witness :
    (register_material new_world 2).target.m_generation_required = true ∧
    resource_ids texture_world.target.m_target_resources.texture =
      body_slot_ids 1 [true, false, true] := by
  obtain ⟨⟨tc, h1, h2, _⟩, _⟩ := generate_resource_ids_are_body_slots
    { plain_services with translate_link_unit := fun _ => some texture_target_code }
    (register_material new_world 2) texture_world (by decide)
    (outcome_of_value_true _ (by decide))
  have h3 : texture_world.target.m_target_code = some texture_target_code := by decide
  rw [h3] at h1
  have h4 := Option.some.inj h1
  subst h4
  exact ⟨by decide, h2⟩

/-- C18 as stated fails: `generate` succeeds on a target code whose texture slot 2
comes from arguments only while the slots 1 and 3 are body textures; the texture
table then holds two entries with the runtime ids 1 and 3, not 1 and 2. -/
theorem generate_resource_ids_have_gaps :
    (generate { plain_services with translate_link_unit := fun _ => some texture_target_code }
      (register_material new_world 2)).value = some true ∧
    texture_world.target.m_target_resources.texture.length = 2 ∧
    resource_ids texture_world.target.m_target_resources.texture = [1, 3] ∧
    resource_ids texture_world.target.m_target_resources.texture ≠ List.range' 1 2 := by
  decide

/-- The invalid distribution is recognised on constants only. -/
theorem is_invalid_df_iff (cm : Compiled_material) (path : String) :
    is_invalid_df cm path = true ↔
      cm.lookup_sub_expression path = .ek_constant .vk_invalid_df := by
  unfold is_invalid_df
  cases h : cm.lookup_sub_expression path with
  | ek_constant value => cases value <;> simp
  | _ => simp

/-- Constant black is a constant colour without a channel that differs from zero. -/
theorem is_constant_black_color_iff (cm : Compiled_material) (path : String) :
    is_constant_black_color cm path = true ↔
      ∃ channels, cm.lookup_sub_expression path = .ek_constant (.vk_color channels) ∧
        ∀ c ∈ channels, float_ne_zero c = false := by
  unfold is_constant_black_color
  cases h : cm.lookup_sub_expression path with
  | ek_constant value => cases value <;> simp
  | _ => simp

/-- Constant false is the boolean constant false. -/
theorem is_constant_false_iff (cm : Compiled_material) (path : String) :
    is_constant_false cm path = true ↔
      cm.lookup_sub_expression path = .ek_constant (.vk_bool false) := by
  unfold is_constant_false
  cases h : cm.lookup_sub_expression path with
  | ek_constant value => cases value <;> simp
  | _ => simp

/-- The two booleans of lines 408-419 or-ed together. -/
theorem need_backface_or (cm : Compiled_material) :
    ((need_backface cm).1 || (need_backface cm).2) = backface_differs cm := by
  unfold need_backface backface_differs
  cases is_invalid_df cm "backface.scattering" <;>
    cases is_invalid_df cm "backface.emission.emission" <;>
    cases (cm.get_slot_hash .SLOT_SURFACE_SCATTERING !=
        cm.get_slot_hash .SLOT_BACKFACE_SCATTERING) <;>
    cases (cm.get_slot_hash .SLOT_SURFACE_EMISSION_EDF_EMISSION !=
        cm.get_slot_hash .SLOT_BACKFACE_EMISSION_EDF_EMISSION) <;> rfl

/-- What lines 366-435 compute from a fresh interface record: the selected paths and
the six feature flags. -/
theorem select_functions_fresh (backend : Backend) (cm : Compiled_material) (index : Nat) :
    (select_functions backend cm (Mdl_material_target_interface.fresh index)).selected_functions.map
        (fun f => f.path) = policy_paths cm ∧
    (select_functions backend cm (Mdl_material_target_interface.fresh index)).interface_data =
      { has_init := false
        has_surface_scattering := !is_invalid_df cm "surface.scattering"
        has_surface_emission := !is_invalid_df cm "surface.emission.emission" &&
          !is_constant_black_color cm "surface.emission.intensity"
        has_backface_scattering := !is_constant_false cm "thin_walled" && backface_differs cm
        has_backface_emission := !is_constant_false cm "thin_walled" && backface_differs cm
        has_volume_absorption := !is_constant_black_color cm "volume.absorption_coefficient"
        can_be_thin_walled := !is_constant_false cm "thin_walled"
        argument_layout_index := index } := by
  have hb := need_backface_or cm
  unfold select_functions select_thin_walled select_volume_absorption select_surface_emission
    select_surface_scattering select_init policy_paths Mdl_material_target_interface.fresh
  rw [hb]
  cases is_invalid_df cm "surface.scattering" <;>
    cases is_invalid_df cm "surface.emission.emission" <;>
    cases is_constant_black_color cm "surface.emission.intensity" <;>
    cases is_constant_black_color cm "volume.absorption_coefficient" <;>
    cases is_constant_false cm "thin_walled" <;>
    cases backface_differs cm <;> simp

/-- Whatever the backend answers, `add_material_to_link_unit` leaves the paths and
the six feature flags that lines 366-435 computed; `has_init` is set exactly when
something beyond `init` was selected. -/
theorem add_material_keeps_selection (backend : Backend)
    (interface_data : Mdl_material_target_interface) (cm : Compiled_material)
    (link_unit : Link_unit) :
    selected_paths (add_material_to_link_unit backend interface_data cm link_unit) =
      (select_functions backend cm interface_data).selected_functions.map (fun f => f.path) ∧
    { (add_material_to_link_unit backend interface_data cm link_unit).interface_data with
        argument_layout_index := 0 } =
      { (select_functions backend cm interface_data).interface_data with
        has_init :=
          (select_functions backend cm interface_data).interface_data.has_init ||
            decide (1 < (select_functions backend cm interface_data).selected_functions.length)
        argument_layout_index := 0 } := by
  unfold add_material_to_link_unit selected_paths
  simp only []
  split
  · rename_i h
    split
    · simp [assign_index, h, Function.comp_def]
    · split <;> simp [assign_index, h, Function.comp_def]
  · rename_i h
    split <;> simp [h]

/-- The feature flags `add_material_to_link_unit` leaves on a fresh interface
record, and the paths it selected. -/
theorem add_material_fresh (backend : Backend) (cm : Compiled_material)
    (link_unit : Link_unit) (index : Nat) :
    selected_paths (add_material_to_link_unit backend
      (Mdl_material_target_interface.fresh index) cm link_unit) = policy_paths cm ∧
    (add_material_to_link_unit backend (Mdl_material_target_interface.fresh index) cm
      link_unit).interface_data.has_surface_scattering =
        (!is_invalid_df cm "surface.scattering") ∧
    (add_material_to_link_unit backend (Mdl_material_target_interface.fresh index) cm
      link_unit).interface_data.has_surface_emission =
        (!is_invalid_df cm "surface.emission.emission" &&
          !is_constant_black_color cm "surface.emission.intensity") ∧
    (add_material_to_link_unit backend (Mdl_material_target_interface.fresh index) cm
      link_unit).interface_data.has_backface_scattering =
        (!is_constant_false cm "thin_walled" && backface_differs cm) ∧
    (add_material_to_link_unit backend (Mdl_material_target_interface.fresh index) cm
      link_unit).interface_data.has_backface_emission =
        (!is_constant_false cm "thin_walled" && backface_differs cm) ∧
    (add_material_to_link_unit backend (Mdl_material_target_interface.fresh index) cm
      link_unit).interface_data.has_volume_absorption =
        (!is_constant_black_color cm "volume.absorption_coefficient") ∧
    (add_material_to_link_unit backend (Mdl_material_target_interface.fresh index) cm
      link_unit).interface_data.can_be_thin_walled = (!is_constant_false cm "thin_walled") ∧
    (add_material_to_link_unit backend (Mdl_material_target_interface.fresh index) cm
      link_unit).interface_data.has_init = decide (1 < (policy_paths cm).length) := by
  obtain ⟨h1, h2⟩ := add_material_keeps_selection backend
    (Mdl_material_target_interface.fresh index) cm link_unit
  obtain ⟨h3, h4⟩ := select_functions_fresh backend cm index
  rw [h3] at h1
  have h5 : (select_functions backend cm
      (Mdl_material_target_interface.fresh index)).selected_functions.length =
      (policy_paths cm).length := by
    rw [← h3, List.length_map]
  rw [h4, h5] at h2
  refine ⟨h1, ?_, ?_, ?_, ?_, ?_, ?_, ?_⟩
  · exact congrArg Mdl_material_target_interface.has_surface_scattering h2
  · exact congrArg Mdl_material_target_interface.has_surface_emission h2
  · exact congrArg Mdl_material_target_interface.has_backface_scattering h2
  · exact congrArg Mdl_material_target_interface.has_backface_emission h2
  · exact congrArg Mdl_material_target_interface.has_volume_absorption h2
  · exact congrArg Mdl_material_target_interface.can_be_thin_walled h2
  · have := congrArg Mdl_material_target_interface.has_init h2
    simpa using this

/-- C26. Backface entries are generated together. For every compiled material,
after `add_material_to_link_unit` on a fresh interface record (whatever the backend
answers), `has_backface_scattering` equals `has_backface_emission`; both are true
exactly when `thin_walled` is not the constant false, at least one of
`backface.scattering` and `backface.emission.emission` is not the invalid
distribution, and at least one of the two surface-versus-backface slot-hash pairs
differs; and then `backface.scattering`, `backface.emission.emission` and
`backface.emission.intensity` are all selected. -/
theorem backface_entries_together (backend : Backend) (cm : Compiled_material)
    (link_unit : Link_unit) (index : Nat) :
    (add_material_to_link_unit backend (Mdl_material_target_interface.fresh index) cm
      link_unit).interface_data.has_backface_scattering =
    (add_material_to_link_unit backend (Mdl_material_target_interface.fresh index) cm
      link_unit).interface_data.has_backface_emission ∧
    ((add_material_to_link_unit backend (Mdl_material_target_interface.fresh index) cm
        link_unit).interface_data.has_backface_scattering = true ↔
      cm.lookup_sub_expression "thin_walled" ≠ .ek_constant (.vk_bool false) ∧
      (cm.lookup_sub_expression "backface.scattering" ≠ .ek_constant .vk_invalid_df ∨
        cm.lookup_sub_expression "backface.emission.emission" ≠
          .ek_constant .vk_invalid_df) ∧
      (cm.get_slot_hash .SLOT_SURFACE_SCATTERING ≠
          cm.get_slot_hash .SLOT_BACKFACE_SCATTERING ∨
        cm.get_slot_hash .SLOT_SURFACE_EMISSION_EDF_EMISSION ≠
          cm.get_slot_hash .SLOT_BACKFACE_EMISSION_EDF_EMISSION)) ∧
    ((add_material_to_link_unit backend (Mdl_material_target_interface.fresh index) cm
        link_unit).interface_data.has_backface_scattering = true →
      "backface.scattering" ∈ selected_paths (add_material_to_link_unit backend
        (Mdl_material_target_interface.fresh index) cm link_unit) ∧
      "backface.emission.emission" ∈ selected_paths (add_material_to_link_unit backend
        (Mdl_material_target_interface.fresh index) cm link_unit) ∧
      "backface.emission.intensity" ∈ selected_paths (add_material_to_link_unit backend
        (Mdl_material_target_interface.fresh index) cm link_unit)) := by
  obtain ⟨h_paths, _, _, h_bs, h_be, _, _, _⟩ := add_material_fresh backend cm link_unit index
  have h_iff : (!is_constant_false cm "thin_walled" && backface_differs cm) = true ↔
      cm.lookup_sub_expression "thin_walled" ≠ .ek_constant (.vk_bool false) ∧
      (cm.lookup_sub_expression "backface.scattering" ≠ .ek_constant .vk_invalid_df ∨
        cm.lookup_sub_expression "backface.emission.emission" ≠
          .ek_constant .vk_invalid_df) ∧
      (cm.get_slot_hash .SLOT_SURFACE_SCATTERING ≠
          cm.get_slot_hash .SLOT_BACKFACE_SCATTERING ∨
        cm.get_slot_hash .SLOT_SURFACE_EMISSION_EDF_EMISSION ≠
          cm.get_slot_hash .SLOT_BACKFACE_EMISSION_EDF_EMISSION) := by
    have e1 := is_constant_false_iff cm "thin_walled"
    have e2 := is_invalid_df_iff cm "backface.scattering"
    have e3 := is_invalid_df_iff cm "backface.emission.emission"
    rw [ne_eq, ne_eq, ne_eq, ← e1, ← e2, ← e3]
    unfold backface_differs
    simp
  rw [h_bs, h_be, h_paths]
  refine ⟨rfl, h_iff, ?_⟩
  intro h
  have h1 : is_constant_false cm "thin_walled" = false := by
    cases hc : is_constant_false cm "thin_walled"
    · rfl
    · rw [hc] at h; simp at h
  have h2 : backface_differs cm = true := by
    rw [h1] at h
    simpa using h
  unfold policy_paths
  simp [h1, h2]

/-- C27. Empty selection. For every compiled material whose `surface.scattering` is
the constant invalid distribution, whose surface emission is the constant invalid
distribution or has a constant black intensity, whose
`volume.absorption_coefficient` is constant black and whose `thin_walled` is the
constant false, `add_material_to_link_unit` on a fresh interface record adds
exactly one group to the link unit, the standalone `geometry.cutout_opacity` entry
(the main group is never submitted), and every flag of the interface record stays
false. -/
theorem empty_selection_submits_opacity_only (backend : Backend) (cm : Compiled_material)
    (link_unit : Link_unit) (index : Nat) (absorption : List Float32)
    (h_scattering : cm.lookup_sub_expression "surface.scattering" = .ek_constant .vk_invalid_df)
    (h_emission :
      cm.lookup_sub_expression "surface.emission.emission" = .ek_constant .vk_invalid_df ∨
      ∃ intensity,
        cm.lookup_sub_expression "surface.emission.intensity" =
          .ek_constant (.vk_color intensity) ∧
        ∀ c ∈ intensity, float_ne_zero c = false)
    (h_absorption :
      cm.lookup_sub_expression "volume.absorption_coefficient" =
        .ek_constant (.vk_color absorption))
    (h_absorption_black : ∀ c ∈ absorption, float_ne_zero c = false)
    (h_thin : cm.lookup_sub_expression "thin_walled" = .ek_constant (.vk_bool false)) :
    (add_material_to_link_unit backend (Mdl_material_target_interface.fresh index) cm
      link_unit).link_unit.groups =
        link_unit.groups ++
          [[⟨"geometry.cutout_opacity", "mdl_standalone_geometry_cutout_opacity",
              backend.unset_index⟩]] ∧
    selected_paths (add_material_to_link_unit backend
      (Mdl_material_target_interface.fresh index) cm link_unit) = ["init"] ∧
    (add_material_to_link_unit backend (Mdl_material_target_interface.fresh index) cm
      link_unit).interface_data.has_init = false ∧
    (add_material_to_link_unit backend (Mdl_material_target_interface.fresh index) cm
      link_unit).interface_data.has_surface_scattering = false ∧
    (add_material_to_link_unit backend (Mdl_material_target_interface.fresh index) cm
      link_unit).interface_data.has_surface_emission = false ∧
    (add_material_to_link_unit backend (Mdl_material_target_interface.fresh index) cm
      link_unit).interface_data.has_backface_scattering = false ∧
    (add_material_to_link_unit backend (Mdl_material_target_interface.fresh index) cm
      link_unit).interface_data.has_backface_emission = false ∧
    (add_material_to_link_unit backend (Mdl_material_target_interface.fresh index) cm
      link_unit).interface_data.has_volume_absorption = false ∧
    (add_material_to_link_unit backend (Mdl_material_target_interface.fresh index) cm
      link_unit).interface_data.can_be_thin_walled = false := by
  have h1 : is_invalid_df cm "surface.scattering" = true :=
    (is_invalid_df_iff cm _).mpr h_scattering
  have h2 : (!is_invalid_df cm "surface.emission.emission" &&
      !is_constant_black_color cm "surface.emission.intensity") = false := by
    rcases h_emission with h | ⟨intensity, h, hz⟩
    · rw [(is_invalid_df_iff cm _).mpr h]; rfl
    · rw [(is_constant_black_color_iff cm _).mpr ⟨intensity, h, hz⟩]; simp
  have h3 : is_constant_black_color cm "volume.absorption_coefficient" = true :=
    (is_constant_black_color_iff cm _).mpr ⟨absorption, h_absorption, h_absorption_black⟩
  have h4 : is_constant_false cm "thin_walled" = true := (is_constant_false_iff cm _).mpr h_thin
  have h_policy : policy_paths cm = ["init"] := by
    unfold policy_paths
    rw [h1, h2, h3, h4]
    rfl
  obtain ⟨p1, p2, p3, p4, p5, p6, p7, p8⟩ := add_material_fresh backend cm link_unit index
  rw [h_policy] at p1 p8
  rw [h1] at p2
  rw [h2] at p3
  rw [h4] at p4 p5 p7
  rw [h3] at p6
  refine ⟨?_, p1, by simpa using p8, by simpa using p2, p3, by simpa using p4,
    by simpa using p5, by simpa using p6, by simpa using p7⟩
  have h_len : ¬ 1 < (select_functions backend cm
      (Mdl_material_target_interface.fresh index)).selected_functions.length := by
    have := congrArg List.length (select_functions_fresh backend cm index).1
    rw [List.length_map, h_policy] at this
    rw [this]
    decide
  unfold add_material_to_link_unit
  simp only [h_len, if_false]
  split <;> rfl

/-- The material `material_empty` with the quiet backend: one group, no flag. -/
theorem empty_selection_submits_opacity_only_witness :
    (add_material_to_link_unit quiet_backend (Mdl_material_target_interface.fresh 0)
      material_empty ⟨[]⟩).link_unit.groups =
        [[⟨"geometry.cutout_opacity", "mdl_standalone_geometry_cutout_opacity",
            quiet_backend.unset_index⟩]] ∧
    (add_material_to_link_unit quiet_backend (Mdl_material_target_interface.fresh 0)
      material_empty ⟨[]⟩).interface_data.has_init = false :=
  ⟨(empty_selection_submits_opacity_only quiet_backend material_empty ⟨[]⟩ 0 [0, 0, 0]
      (by simp [material_empty]) (Or.inl (by simp [material_empty]))
      (by simp [material_empty]) (by decide) (by simp [material_empty])).1,
   (empty_selection_submits_opacity_only quiet_backend material_empty ⟨[]⟩ 0 [0, 0, 0]
      (by simp [material_empty]) (Or.inl (by simp [material_empty]))
      (by simp [material_empty]) (by decide) (by simp [material_empty])).2.2.1⟩

/-- The layout index `add_material_to_link_unit` records when it returns true: the
index the backend wrote into the main group when that group was submitted, and
otherwise the value `init` was constructed with, which no backend call has seen. -/
theorem recorded_argument_layout_index (backend : Backend)
    (interface_data : Mdl_material_target_interface) (cm : Compiled_material)
    (link_unit : Link_unit)
    (h : (add_material_to_link_unit backend interface_data cm link_unit).result = true) :
    (1 < (select_functions backend cm interface_data).selected_functions.length →
      (add_material_to_link_unit backend interface_data cm
        link_unit).interface_data.argument_layout_index =
        (backend.add_material link_unit cm
          (select_functions backend cm interface_data).selected_functions).argument_block_index) ∧
    (¬ 1 < (select_functions backend cm interface_data).selected_functions.length →
      (add_material_to_link_unit backend interface_data cm
        link_unit).interface_data.argument_layout_index = backend.unset_index) := by
  have h_init : (select_functions backend cm interface_data).selected_functions.head? =
      some ⟨"init", "mdl_init", backend.unset_index⟩ := by
    have hb := need_backface_or cm
    unfold select_functions select_thin_walled select_volume_absorption
      select_surface_emission select_surface_scattering select_init
    rw [hb]
    cases is_invalid_df cm "surface.scattering" <;>
      cases is_invalid_df cm "surface.emission.emission" <;>
      cases is_constant_black_color cm "surface.emission.intensity" <;>
      cases is_constant_black_color cm "volume.absorption_coefficient" <;>
      cases is_constant_false cm "thin_walled" <;>
      cases backface_differs cm <;> simp
  unfold add_material_to_link_unit at h ⊢
  simp only [] at h ⊢
  constructor
  · intro h_len
    rw [if_pos h_len] at h ⊢
    split at h
    · simp at h
    · rename_i h1
      rw [if_neg h1]
      split at h
      · simp at h
      · rename_i h2
        rw [if_neg h2]
        simp [assign_index, List.head?_map, h_init]
  · intro h_len
    rw [if_neg h_len] at h ⊢
    split at h
    · simp at h
    · rename_i h2
      rw [if_neg h2]
      simp [h_init]

/-- C29 at the failing input: nothing beyond `init` is selected for
`material_empty`, the backend gets the standalone `geometry.cutout_opacity` entry
only and assigns it the argument block 0, the call returns true, and the recorded
layout index is the value `init` was constructed with (all bits set), not 0. -/
theorem layout_index_not_assigned_for_opacity_only :
    (add_material_to_link_unit quiet_backend (Mdl_material_target_interface.fresh 0)
      material_empty ⟨[]⟩).result = true ∧
    (add_material_to_link_unit quiet_backend (Mdl_material_target_interface.fresh 0)
      material_empty ⟨[]⟩).link_unit.groups = [[standalone_opacity quiet_backend]] ∧
    (quiet_backend.add_material ⟨[]⟩ material_empty
      [standalone_opacity quiet_backend]).argument_block_index = 0 ∧
    (add_material_to_link_unit quiet_backend (Mdl_material_target_interface.fresh 0)
      material_empty ⟨[]⟩).interface_data.argument_layout_index = 2 ^ 64 - 1 := by
  decide

/-- C25 at the failing input: on `world_B`, whose only member is compiled to
`material_B`, `generate` succeeds and records an interface descriptor with
`has_surface_scattering` false and `has_backface_scattering` true, while the source
it composes defines `MDL_HAS_SURFACE_SCATTERING` as 1 and
`MDL_HAS_BACKFACE_SCATTERING` as 0. -/
theorem preamble_defines_ignore_interface :
    (generate plain_services world_B).value = some true ∧
    ((generate plain_services world_B).world.materials 2).target_interface.has_surface_scattering
      = false ∧
    ((generate plain_services world_B).world.materials 2).target_interface.has_backface_scattering
      = true ∧
    ((generate plain_services world_B).world.materials 2).target_interface.can_be_thin_walled
      = true ∧
    (generate plain_services world_B).world.target.m_hlsl_source_code =
      "#define MDL_HAS_SURFACE_SCATTERING 1\n" ++
      "#define MDL_HAS_BACKFACE_SCATTERING 0\n" ++
      "#define MDL_CAN_BE_THIN_WALLED 1\n" ++
      "\n#define MDL_NUM_TEXTURE_RESULTS 32\n\n\n#define SCENE_DATA_ID_TEXCOORD_0 1\n\n" ++
      "#include \"content/common.hlsl\"\n" ++
      "#include \"content/mdl_target_code_types.hlsl\"\n" ++
      "#include \"content/mdl_renderer_runtime.hlsl\"\n\n" ++
      "\n\n#include \"content/mdl_hit_programs.hlsl\"\n\n" := by
  set_option maxRecDepth 100000 in decide

end MdlD3d12

namespace Dist

/-- A target that is neither `none` nor registered: `distill` returns NULL and the
last value written through `error` is -2 (line 58). -/
theorem distill_unregistered_target (self : Dist_module_impl)
    (material_instance : Material_instance) (target : String)
    (h_builtin : target ≠ "none")
    (h_unregistered : find_target self.m_target_to_index_map target = none) :
    distill self material_instance target = .returned none (-2) := by
  unfold distill
  simp only []
  rw [if_neg h_builtin, h_unregistered]

/-- Whenever `distill` returns NULL, the error code is -3 or -2, so not 0. -/
theorem distill_null_has_error (self : Dist_module_impl)
    (material_instance : Material_instance) (target : String) (error : Int)
    (h : distill self material_instance target = .returned none error) :
    error = -3 ∨ error = -2 := by
  unfold distill at h
  simp only [] at h
  split at h
  · simp at h
  · split at h
    · split at h
      · split at h
        · simp at h
          exact Or.inl h.2.symm
        · rename_i h_res
          simp at h
          rw [h.1] at h_res
          simp at h_res
      · simp at h
    · simp at h
      exact Or.inr h.symm

/-- C21 at the failing input: with no plugin registered, `distill` for the target
name `unknown` returns NULL and writes -2, a code the documentation of
`Dist_module::distill` reserves for the API layer. -/
theorem distill_writes_reserved_code :
    distill ⟨[], []⟩ 7 "unknown" = .returned none (-2) := by
  decide

end Dist

namespace DfCuda

/-- A key that is not among the first components is not found. -/
theorem string_map_find_zip_none (s : String) :
    ∀ (l : List String) (vs : List Nat), s ∉ l → string_map_find (l.zip vs) s = none := by
  intro l
  induction l with
  | nil => intro vs _; rfl
  | cons x rest ih =>
    intro vs h
    cases vs with
    | nil => rfl
    | cons v vs =>
      simp only [List.mem_cons, not_or] at h
      simp only [List.zip_cons_cons, string_map_find]
      rw [if_neg (fun e => h.1 e.symm)]
      exact ih vs h.2

/-- A found key sits at the position its value names. -/
theorem string_map_find_zip_some (s : String) :
    ∀ (l : List String) (k v : Nat), string_map_find (l.zip (List.range' k l.length)) s = some v →
      ∃ j, v = k + j ∧ l[j]? = some s := by
  intro l
  induction l with
  | nil => intro k v h; simp [string_map_find] at h
  | cons x rest ih =>
    intro k v h
    simp only [List.length_cons, List.range'_succ, List.zip_cons_cons, string_map_find] at h
    by_cases hx : x = s
    · rw [if_pos hx] at h
      refine ⟨0, ?_, ?_⟩
      · simp at h
        omega
      · simp [hx]
    · rw [if_neg hx] at h
      obtain ⟨j, hj, hs⟩ := ih (k + 1) v h
      refine ⟨j + 1, by omega, ?_⟩
      simpa using hs

/-- A stored string is found. -/
theorem string_map_find_zip_mem (s : String) :
    ∀ (l : List String) (k : Nat), s ∈ l →
      ∃ v, string_map_find (l.zip (List.range' k l.length)) s = some v := by
  intro l
  induction l with
  | nil => intro k h; simp at h
  | cons x rest ih =>
    intro k h
    simp only [List.length_cons, List.range'_succ, List.zip_cons_cons, string_map_find]
    by_cases hx : x = s
    · rw [if_pos hx]
      exact ⟨k, rfl⟩
    · rw [if_neg hx]
      rcases List.mem_cons.mp h with e | e
      · exact absurd e.symm hx
      · exact ih (k + 1) e

/-- Assigning to a key the map does not hold appends the entry. -/
theorem string_map_assign_new (s : String) (v : Nat) :
    ∀ (m : List (String × Nat)), string_map_find m s = none → string_map_assign m s v = m ++ [(s, v)] := by
  intro m
  induction m with
  | nil => intro _; rfl
  | cons e rest ih =>
    intro h
    obtain ⟨k, w⟩ := e
    simp only [string_map_find] at h
    by_cases hk : k = s
    · rw [if_pos hk] at h
      simp at h
    · rw [if_neg hk] at h
      simp only [string_map_assign]
      rw [if_neg hk, ih h]
      rfl

/-- The numbered list of a list with one more string. -/
theorem zip_range_concat (l : List String) (s : String) (k : Nat) :
    (l ++ [s]).zip (List.range' k (l ++ [s]).length) =
      l.zip (List.range' k l.length) ++ [(s, k + l.length)] := by
  rw [List.length_append, List.length_singleton, List.range'_concat]
  rw [List.zip_append (by simp)]
  simp

/-- Storing a new string under the next id keeps the table consistent. -/
theorem consistent_push (t : String_constant_table) (s : String) (len : Nat)
    (h : Table_consistent t) (h_new : s ∉ t.m_strings) :
    Table_consistent
      { m_string_constants_map :=
          string_map_assign t.m_string_constants_map s (t.m_strings.length + 1)
        m_strings := t.m_strings ++ [s]
        m_max_len := len } := by
  obtain ⟨h_nodup, h_map⟩ := h
  refine ⟨?_, ?_⟩
  · simp only []
    rw [List.nodup_append]
    refine ⟨h_nodup, List.nodup_singleton s, ?_⟩
    intro a ha hb
    rw [List.mem_singleton] at hb
    exact h_new (hb ▸ ha)
  · simp only []
    rw [zip_range_concat, string_map_assign_new, h_map]
    · rw [Nat.add_comm]
    · rw [h_map]
      exact string_map_find_zip_none s _ _ h_new

/-- The loop of `get_all_strings` keeps a consistent table consistent when the
strings it reads are new and pairwise distinct, and stores them in order. -/
theorem get_all_strings_from_consistent :
    ∀ (rest : List String) (i : Nat) (t : String_constant_table),
      Table_consistent t → i = t.m_strings.length + 1 → (t.m_strings ++ rest).Nodup →
      t.m_strings.length + rest.length < 2 ^ 32 →
      Table_consistent (get_all_strings_from i rest t) ∧
        (get_all_strings_from i rest t).m_strings = t.m_strings ++ rest := by
  intro rest
  induction rest with
  | nil =>
    intro i t h _ _ _
    simp only [get_all_strings_from, List.append_nil]
    exact ⟨h, trivial⟩
  | cons s rest ih =>
    intro i t h hi h_nodup h_size
    simp only [List.length_cons] at h_size
    have h_new : s ∉ t.m_strings := by
      intro hs
      rw [List.nodup_append] at h_nodup
      exact h_nodup.2.2 hs (List.mem_cons_self s rest)
    have h_mod : i % 2 ^ 32 = t.m_strings.length + 1 := by
      rw [hi]
      exact Nat.mod_eq_of_lt (by omega)
    simp only [get_all_strings_from]
    rw [h_mod]
    have h1 := consistent_push t s
      (if s.utf8ByteSize > t.m_max_len then s.utf8ByteSize else t.m_max_len) h h_new
    have h2 := ih (i + 1) _ h1 (by simp [hi]) (by simpa using h_nodup)
      (by simp only [List.length_append, List.length_singleton]; omega)
    refine ⟨h2.1, ?_⟩
    rw [h2.2]
    simp

/-- The table the constructor builds from pairwise distinct constants. -/
theorem create_consistent (target_code : List String)
    (h_distinct : (target_code.drop 1).Nodup) (h_size : target_code.length < 2 ^ 32) :
    Table_consistent (String_constant_table.create target_code) ∧
      (String_constant_table.create target_code).m_strings = target_code.drop 1 := by
  unfold String_constant_table.create get_all_strings
  have h0 : Table_consistent { (⟨[], [], 0⟩ : String_constant_table) with m_max_len := 0 } :=
    ⟨List.nodup_nil, rfl⟩
  have h := get_all_strings_from_consistent (target_code.drop 1) 1 _ h0 rfl
    (by simpa using h_distinct) (by simp only [List.length_nil, List.length_drop]; omega)
  simpa using h

/-- On a consistent table `get_id_for_string` leaves a consistent table that holds
the old strings, followed by the new one if it was unknown, and the id it returns
names the string. -/
theorem get_id_for_string_consistent (t : String_constant_table) (s : String)
    (h : Table_consistent t) (h_size : t.m_strings.length + 1 < 2 ^ 32) :
    Table_consistent (get_id_for_string t s).2 ∧
    ((get_id_for_string t s).2.m_strings = t.m_strings ∨
      (get_id_for_string t s).2.m_strings = t.m_strings ++ [s]) ∧
    get_string (get_id_for_string t s).2 (get_id_for_string t s).1 = some s := by
  have h_len : t.m_string_constants_map.length = t.m_strings.length := by
    rw [h.2]
    simp
  unfold get_id_for_string
  cases h_find : string_map_find t.m_string_constants_map s with
  | some id =>
    simp only []
    refine ⟨h, by simp, ?_⟩
    rw [h.2] at h_find
    obtain ⟨j, hj, hs⟩ := string_map_find_zip_some s _ _ _ h_find
    have hj_lt : j < t.m_strings.length := by
      by_contra hc
      rw [List.getElem?_eq_none (by omega)] at hs
      simp at hs
    unfold get_string
    rw [if_neg (by omega)]
    have e : id - 1 = j := by omega
    rw [e]
    exact hs
  | none =>
    simp only []
    have h_new : s ∉ t.m_strings := by
      intro hs
      obtain ⟨v, hv⟩ := string_map_find_zip_mem s _ 1 hs
      rw [h.2, hv] at h_find
      simp at h_find
    have h_mod : (t.m_string_constants_map.length + 1) % 2 ^ 32 = t.m_strings.length + 1 := by
      rw [h_len]
      exact Nat.mod_eq_of_lt h_size
    rw [h_mod]
    refine ⟨consistent_push t s _ h h_new, by simp, ?_⟩
    unfold get_string
    simp only [List.length_append, List.length_singleton]
    rw [if_neg (by omega)]
    simp

/-- A sequence of calls keeps the table consistent and adds at most one string per
call. -/
theorem get_ids_consistent :
    ∀ (names : List String) (t : String_constant_table), Table_consistent t →
      t.m_strings.length + names.length + 1 < 2 ^ 32 →
      Table_consistent (get_ids t names) ∧
        (get_ids t names).m_strings.length ≤ t.m_strings.length + names.length := by
  intro names
  induction names with
  | nil =>
    intro t h _
    exact ⟨h, Nat.le_refl _⟩
  | cons name rest ih =>
    intro t h h_size
    simp only [List.length_cons] at h_size
    obtain ⟨h1, h2, _⟩ := get_id_for_string_consistent t name h (by omega)
    have h_len : (get_id_for_string t name).2.m_strings.length ≤ t.m_strings.length + 1 := by
      rcases h2 with e | e <;> rw [e] <;> simp
    have h3 := ih (get_id_for_string t name).2 h1 (by omega)
    refine ⟨h3.1, ?_⟩
    have h4 := h3.2
    simp only [List.length_cons]
    unfold get_ids at h4 ⊢
    simp only [List.foldl_cons]
    omega

/-- On a consistent table two different strings get two different ids. -/
theorem get_id_for_string_injective (t : String_constant_table) (s s' : String)
    (h : Table_consistent t) (h_size : t.m_strings.length + 2 < 2 ^ 32) (h_ne : s' ≠ s) :
    (get_id_for_string (get_id_for_string t s).2 s').1 ≠ (get_id_for_string t s).1 := by
  obtain ⟨h1, h2, h3⟩ := get_id_for_string_consistent t s h (by omega)
  have h_len : (get_id_for_string t s).2.m_strings.length ≤ t.m_strings.length + 1 := by
    rcases h2 with e | e <;> rw [e] <;> simp
  obtain ⟨_, k2, k3⟩ := get_id_for_string_consistent (get_id_for_string t s).2 s' h1 (by omega)
  intro h_eq
  rw [h_eq] at k3
  unfold get_string at h3 k3
  split at h3
  · simp at h3
  · rename_i h_in
    have h_lt : (get_id_for_string t s).1 - 1 < (get_id_for_string t s).2.m_strings.length := by
      omega
    split at k3
    · simp at k3
    · rcases k2 with e | e
      · rw [e, h3] at k3
        exact h_ne (Option.some.inj k3).symm
      · rw [e, List.getElem?_append_left h_lt, h3] at k3
        exact h_ne (Option.some.inj k3).symm

/-- C23. String_constant_table round trip. For a table built from a target code
whose string constants (slot 0 aside) are pairwise distinct, after any sequence of
`get_id_for_string` calls that keeps the ids within `unsigned`: the id returned for
a string `s` is mapped back to `s` by `get_string`; a different string gets a
different id; and `get_string id` is null exactly when `id` is 0 or exceeds the
number of stored strings. -/
theorem string_table_round_trip (target_code names : List String) (s : String)
    (h_distinct : (target_code.drop 1).Nodup)
    (h_size : target_code.length + names.length + 2 < 2 ^ 32) :
    get_string
        (get_id_for_string (get_ids (String_constant_table.create target_code) names) s).2
        (get_id_for_string (get_ids (String_constant_table.create target_code) names) s).1 =
      some s ∧
    (∀ s', s' ≠ s →
      (get_id_for_string
        (get_id_for_string (get_ids (String_constant_table.create target_code) names) s).2
          s').1 ≠
        (get_id_for_string (get_ids (String_constant_table.create target_code) names) s).1) ∧
    (∀ id, get_string (get_ids (String_constant_table.create target_code) names) id = none ↔
      id = 0 ∨
        id > (get_ids (String_constant_table.create target_code) names).m_strings.length) := by
  obtain ⟨h0, h_strings⟩ := create_consistent target_code h_distinct (by omega)
  have h_len : (String_constant_table.create target_code).m_strings.length ≤
      target_code.length := by
    rw [h_strings, List.length_drop]
    omega
  obtain ⟨h1, h2⟩ := get_ids_consistent names _ h0 (by omega)
  refine ⟨?_, ?_, ?_⟩
  · exact (get_id_for_string_consistent _ s h1 (by omega)).2.2
  · intro s' h_ne
    exact get_id_for_string_injective _ s s' h1 (by omega) h_ne
  · intro id
    unfold get_string
    constructor
    · intro h
      split at h
      · omega
      · rename_i h_in
        rw [List.getElem?_eq_none_iff] at h
        omega
    · intro h
      rw [if_pos (by omega)]

/-- C23 on the table built from the constants `a`, `b` after the calls for `c` and
`a`, asked for `c`. -/
theorem string_table_round_trip_witness :
    get_string
        (get_id_for_string (get_ids (String_constant_table.create ["", "a", "b"]) ["c", "a"])
          "c").2
        (get_id_for_string (get_ids (String_constant_table.create ["", "a", "b"]) ["c", "a"])
          "c").1 = some "c" ∧
    (∀ s', s' ≠ "c" →
      (get_id_for_string
        (get_id_for_string (get_ids (String_constant_table.create ["", "a", "b"]) ["c", "a"])
          "c").2 s').1 ≠
        (get_id_for_string (get_ids (String_constant_table.create ["", "a", "b"]) ["c", "a"])
          "c").1) ∧
    (∀ id, get_string (get_ids (String_constant_table.create ["", "a", "b"]) ["c", "a"]) id =
        none ↔
      id = 0 ∨
        id > (get_ids (String_constant_table.create ["", "a", "b"])
          ["c", "a"]).m_strings.length) :=
  string_table_round_trip ["", "a", "b"] ["c", "a"] "c" (by decide) (by decide)

/-- A string the map does not hold is added and gets the id after the last one. -/
theorem get_id_for_string_unknown (t : String_constant_table) (name : String)
    (h : string_map_find t.m_string_constants_map name = none) :
    (get_id_for_string t name).1 = (t.m_string_constants_map.length + 1) % 2 ^ 32 ∧
    (get_id_for_string t name).2.m_strings = t.m_strings ++ [name] := by
  unfold get_id_for_string
  rw [h]
  exact ⟨rfl, rfl⟩

/-- A string the map holds gets its id, and the table stays as it was. -/
theorem get_id_for_string_known (t : String_constant_table) (name : String) (id : Nat)
    (h : string_map_find t.m_string_constants_map name = some id) :
    get_id_for_string t name = (id, t) := by
  unfold get_id_for_string
  rw [h]

/-- C22 at the failing input: the table built from the constants `a` does not hold
`b`, and `get_id_for_string` returns 2 for `b`, not 0, and stores `b`. -/
theorem get_id_for_string_adds_unknown_string :
    string_map_find (String_constant_table.create ["", "a"]).m_string_constants_map "b" = none ∧
    "b" ∉ (String_constant_table.create ["", "a"]).m_strings ∧
    (get_id_for_string (String_constant_table.create ["", "a"]) "b").1 = 2 ∧
    (get_id_for_string (String_constant_table.create ["", "a"]) "b").2.m_strings =
      ["a", "b"] := by
  decide


/-- A list without entries of group `g` has none after its leading run either. -/
theorem run_then_none_of_none (g : String) (l : List Param_info)
    (h : ∀ y ∈ l, y.m_group_name ≠ some g) : Run_then_none g l := by
  intro y hy
  exact h y ((List.dropWhile_sublist _).subset hy)

/-- An entry of group `g` in front extends the leading run. -/
theorem run_then_none_cons_same (g : String) (x : Param_info) (l : List Param_info)
    (hx : x.m_group_name = some g) : Run_then_none g (x :: l) ↔ Run_then_none g l := by
  unfold Run_then_none
  rw [List.dropWhile_cons_of_pos (by simpa using hx)]

/-- An entry of another group in front leaves no room for a run. -/
theorem run_then_none_cons_other (g : String) (x : Param_info) (l : List Param_info)
    (hx : x.m_group_name ≠ some g) :
    Run_then_none g (x :: l) ↔ ∀ y ∈ x :: l, y.m_group_name ≠ some g := by
  unfold Run_then_none
  rw [List.dropWhile_cons_of_neg (by simpa using hx)]

/-- The entries of the list after the loop: the new one and the old ones. -/
theorem mem_insert_in_group (info : Param_info) (g : String) (y : Param_info) :
    ∀ (l : List Param_info) (group_found : Bool),
      y ∈ insert_in_group info g group_found l ↔ y = info ∨ y ∈ l := by
  intro l
  induction l with
  | nil => intro _; simp [insert_in_group]
  | cons it rest ih =>
    intro group_found
    simp only [insert_in_group]
    split
    · simp
    · simp only [List.mem_cons, ih]
      tauto

/-- With the group already found, the loop keeps a grouped list grouped and the run
of `g` at its head followed by no entry of `g`. -/
theorem insert_in_group_found (info : Param_info) (g : String)
    (h_info : info.m_group_name = some g) :
    ∀ (l : List Param_info), Grouped l → Run_then_none g l →
      Grouped (insert_in_group info g true l) ∧
        Run_then_none g (insert_in_group info g true l) := by
  intro l
  induction l with
  | nil =>
    intro _ _
    simp only [insert_in_group]
    refine ⟨⟨trivial, ?_⟩, ?_⟩
    · intro g0 _ y hy
      simp at hy
    · rw [run_then_none_cons_same g info [] h_info]
      intro y hy
      simp at hy
  | cons it rest ih =>
    intro h_grouped h_run
    by_cases h_same : it.m_group_name = some g
    · have e : insert_in_group info g true (it :: rest) =
          it :: insert_in_group info g true rest := by
        simp [insert_in_group, h_same]
      rw [e]
      have h_rest := (run_then_none_cons_same g it rest h_same).mp h_run
      obtain ⟨k1, k2⟩ := ih h_grouped.1 h_rest
      refine ⟨⟨k1, ?_⟩, ?_⟩
      · intro g0 hg0
        rw [h_same] at hg0
        rw [← Option.some.inj hg0]
        exact k2
      · exact (run_then_none_cons_same g it _ h_same).mpr k2
    · have e : insert_in_group info g true (it :: rest) = info :: it :: rest := by
        simp [insert_in_group, h_same]
      rw [e]
      refine ⟨⟨h_grouped, ?_⟩, ?_⟩
      · intro g0 hg0
        rw [h_info] at hg0
        rw [← Option.some.inj hg0]
        exact h_run
      · exact (run_then_none_cons_same g info _ h_info).mpr h_run

/-- Before the group is found, the loop keeps the run structure of every other
group. -/
theorem insert_in_group_other (info : Param_info) (g g0 : String)
    (h_info : info.m_group_name = some g) (h_ne : g0 ≠ g) :
    ∀ (l : List Param_info) (group_found : Bool),
      (group_found = true → ∀ y ∈ l, y.m_group_name ≠ some g0) →
      Run_then_none g0 l → Run_then_none g0 (insert_in_group info g group_found l) := by
  have h_info_ne : info.m_group_name ≠ some g0 := by
    rw [h_info]
    intro e
    exact h_ne (Option.some.inj e).symm
  intro l
  induction l with
  | nil =>
    intro _ _ _
    simp only [insert_in_group]
    apply run_then_none_of_none
    intro y hy
    rw [List.mem_singleton] at hy
    rw [hy]
    exact h_info_ne
  | cons it rest ih =>
    intro group_found h_found h_run
    by_cases h0 : it.m_group_name = some g0
    · -- the head belongs to the other group: the loop passes it
      have h_not_found : group_found = false := by
        cases group_found
        · rfl
        · exact absurd h0 (h_found rfl it (List.mem_cons_self it rest))
      have h_not_same : it.m_group_name ≠ some g := by
        rw [h0]
        intro e
        exact h_ne (Option.some.inj e)
      have e : insert_in_group info g group_found (it :: rest) =
          it :: insert_in_group info g false rest := by
        simp [insert_in_group, h_not_found, h_not_same]
      rw [e]
      rw [run_then_none_cons_same g0 it _ h0]
      exact ih false (by simp) ((run_then_none_cons_same g0 it rest h0).mp h_run)
    · apply run_then_none_of_none
      intro y hy
      rw [mem_insert_in_group] at hy
      rcases hy with e | e
      · rw [e]
        exact h_info_ne
      · exact (run_then_none_cons_other g0 it rest h0).mp h_run y e

/-- The loop keeps a grouped list grouped. -/
theorem insert_in_group_grouped (info : Param_info) (g : String)
    (h_info : info.m_group_name = some g) :
    ∀ (l : List Param_info), Grouped l → Grouped (insert_in_group info g false l) := by
  intro l
  induction l with
  | nil =>
    intro _
    simp only [insert_in_group]
    refine ⟨trivial, ?_⟩
    intro g0 _ y hy
    simp at hy
  | cons it rest ih =>
    intro h_grouped
    by_cases h_same : it.m_group_name = some g
    · have e : insert_in_group info g false (it :: rest) =
          it :: insert_in_group info g true rest := by
        simp [insert_in_group, h_same]
      rw [e]
      obtain ⟨k1, k2⟩ := insert_in_group_found info g h_info rest h_grouped.1
        (h_grouped.2 g h_same)
      refine ⟨k1, ?_⟩
      intro g0 hg0
      rw [h_same] at hg0
      rw [← Option.some.inj hg0]
      exact k2
    · have e : insert_in_group info g false (it :: rest) =
          it :: insert_in_group info g false rest := by
        simp [insert_in_group, h_same]
      rw [e]
      refine ⟨ih h_grouped.1, ?_⟩
      intro g0 hg0
      have h_ne : g0 ≠ g := by
        intro e0
        rw [e0] at hg0
        exact h_same hg0
      exact insert_in_group_other info g g0 h_info h_ne rest false (by simp)
        (h_grouped.2 g0 hg0)

/-- An entry without group at the end keeps the run structure. -/
theorem run_then_none_concat (g0 : String) (z : Param_info)
    (hz : z.m_group_name ≠ some g0) :
    ∀ (l : List Param_info), Run_then_none g0 l → Run_then_none g0 (l ++ [z]) := by
  intro l
  induction l with
  | nil =>
    intro _
    apply run_then_none_of_none
    intro y hy
    simp at hy
    rw [hy]
    exact hz
  | cons it rest ih =>
    intro h_run
    by_cases h0 : it.m_group_name = some g0
    · rw [List.cons_append, run_then_none_cons_same g0 it _ h0]
      exact ih ((run_then_none_cons_same g0 it rest h0).mp h_run)
    · apply run_then_none_of_none
      intro y hy
      rw [List.mem_append, List.mem_singleton] at hy
      rcases hy with e | e
      · exact (run_then_none_cons_other g0 it rest h0).mp h_run y e
      · rw [e]
        exact hz

/-- An entry without group at the end keeps a grouped list grouped. -/
theorem grouped_concat_null (z : Param_info) (hz : z.m_group_name = none) :
    ∀ (l : List Param_info), Grouped l → Grouped (l ++ [z]) := by
  intro l
  induction l with
  | nil =>
    intro _
    refine ⟨trivial, ?_⟩
    intro g0 hg0
    rw [hz] at hg0
    simp at hg0
  | cons it rest ih =>
    intro h_grouped
    refine ⟨ih h_grouped.1, ?_⟩
    intro g0 hg0
    exact run_then_none_concat g0 z (by rw [hz]; simp) rest (h_grouped.2 g0 hg0)

/-- The call keeps a grouped list grouped. -/
theorem add_sorted_by_group_grouped (l : List Param_info) (info : Param_info)
    (h : Grouped l) : Grouped (add_sorted_by_group l info) := by
  unfold add_sorted_by_group
  cases h_info : info.m_group_name with
  | none => exact grouped_concat_null info h_info l h
  | some g => exact insert_in_group_grouped info g h_info l h

/-- Every list built from the empty list is grouped. -/
theorem build_params_grouped (infos : List Param_info) : Grouped (build_params infos) := by
  unfold build_params
  have h : ∀ (l : List Param_info), Grouped l →
      Grouped (infos.foldl add_sorted_by_group l) := by
    induction infos with
    | nil => intro l hl; exact hl
    | cons info rest ih =>
      intro l hl
      exact ih _ (add_sorted_by_group_grouped l info hl)
  exact h [] trivial

/-- Between the head of a run and a later entry of the same group lies only that
group. -/
theorem run_then_none_between (g : String) (y : Param_info) (c : List Param_info)
    (hy : y.m_group_name = some g) :
    ∀ (b : List Param_info), Run_then_none g (b ++ y :: c) →
      ∀ z ∈ b, z.m_group_name = some g := by
  intro b
  induction b with
  | nil => intro _ z hz; simp at hz
  | cons z0 rest ih =>
    intro h_run z hz
    by_cases h0 : z0.m_group_name = some g
    · rw [List.cons_append, run_then_none_cons_same g z0 _ h0] at h_run
      rcases List.mem_cons.mp hz with e | e
      · rw [e]
        exact h0
      · exact ih h_run z e
    · rw [List.cons_append, run_then_none_cons_other g z0 _ h0] at h_run
      exact absurd hy (h_run y (by simp))

/-- A grouped list has contiguous groups. -/
theorem grouped_contiguous : ∀ (l : List Param_info), Grouped l → Groups_contiguous l := by
  intro l h a
  induction a generalizing l with
  | nil =>
    intro b c x y g hl hx hy
    rw [hl, List.nil_append] at h
    exact run_then_none_between g y c hy b (h.2 g hx)
  | cons a0 rest ih =>
    intro b c x y g hl hx hy
    rw [hl, List.cons_append] at h
    exact ih _ h.1 b c x y g rfl hx hy

/-- With the group already found, the loop puts the new entry between the leading
run of its group and what follows. -/
theorem insert_in_group_found_position (info : Param_info) (g : String) :
    ∀ (l : List Param_info), Run_then_none g l →
      ∃ pre post, l = pre ++ post ∧ insert_in_group info g true l = pre ++ info :: post ∧
        (∀ y ∈ pre, y.m_group_name = some g) ∧ (∀ y ∈ post, y.m_group_name ≠ some g) := by
  intro l
  induction l with
  | nil =>
    intro _
    exact ⟨[], [], rfl, rfl, by simp, by simp⟩
  | cons it rest ih =>
    intro h_run
    by_cases h_same : it.m_group_name = some g
    · obtain ⟨pre, post, e1, e2, e3, e4⟩ :=
        ih ((run_then_none_cons_same g it rest h_same).mp h_run)
      refine ⟨it :: pre, post, by rw [e1]; rfl, ?_, ?_, e4⟩
      · simp [insert_in_group, h_same, e2]
      · intro y hy
        rcases List.mem_cons.mp hy with e | e
        · rw [e]
          exact h_same
        · exact e3 y e
    · refine ⟨[], it :: rest, rfl, ?_, by simp, ?_⟩
      · simp [insert_in_group, h_same]
      · exact (run_then_none_cons_other g it rest h_same).mp h_run

/-- On a grouped list the loop puts the new entry directly after the last entry of
its group, or at the end when the group is not present. -/
theorem insert_in_group_position (info : Param_info) (g : String) :
    ∀ (l : List Param_info), Grouped l →
      ∃ pre post, l = pre ++ post ∧ insert_in_group info g false l = pre ++ info :: post ∧
        (∀ y ∈ post, y.m_group_name ≠ some g) ∧
        ((∃ x ∈ l, x.m_group_name = some g) →
          ∃ front last, pre = front ++ [last] ∧ last.m_group_name = some g) ∧
        ((∀ x ∈ l, x.m_group_name ≠ some g) → post = []) := by
  intro l
  induction l with
  | nil =>
    intro _
    refine ⟨[], [], rfl, rfl, by simp, ?_, fun _ => rfl⟩
    rintro ⟨x, hx, _⟩
    simp at hx
  | cons it rest ih =>
    intro h_grouped
    by_cases h_same : it.m_group_name = some g
    · obtain ⟨pre, post, e1, e2, e3, e4⟩ :=
        insert_in_group_found_position info g rest (h_grouped.2 g h_same)
      refine ⟨it :: pre, post, by rw [e1]; rfl, ?_, e4, ?_, ?_⟩
      · simp [insert_in_group, h_same, e2]
      · intro _
        rcases List.eq_nil_or_concat pre with e | ⟨front, last, e⟩
        · exact ⟨[], it, by rw [e]; rfl, h_same⟩
        · rw [List.concat_eq_append] at e
          refine ⟨it :: front, last, by rw [e]; rfl, ?_⟩
          exact e3 last (by rw [e]; simp)
      · intro h_none
        exact absurd h_same (h_none it (List.mem_cons_self it rest))
    · obtain ⟨pre, post, e1, e2, e3, e4, e5⟩ := ih h_grouped.1
      refine ⟨it :: pre, post, by rw [e1]; rfl, ?_, e3, ?_, ?_⟩
      · simp [insert_in_group, h_same, e2]
      · rintro ⟨x, hx, hxg⟩
        rcases List.mem_cons.mp hx with e | e
        · rw [e] at hxg
          exact absurd hxg h_same
        · obtain ⟨front, last, k1, k2⟩ := e4 ⟨x, e, hxg⟩
          exact ⟨it :: front, last, by rw [k1]; rfl, k2⟩
      · intro h_none
        exact e5 (fun x hx => h_none x (List.mem_cons_of_mem it hx))

/-- C24. The member function `add_sorted_by_group` keeps groups together. For every
parameter list built from the empty list by `add_sorted_by_group` calls: entries
with the same non-null group name are contiguous; a further call splits the list
into `pre ++ post` and yields `pre ++ info :: post` (so the old entries keep their
order and the length grows by one), where `post` holds no entry of the group of
`info`, `pre` ends in an entry of that group when the group is present, and `post`
is empty when the group name is null or not yet present. -/
theorem add_sorted_by_group_keeps_groups_together (infos : List Param_info)
    (info : Param_info) :
    Groups_contiguous (build_params infos) ∧
    Groups_contiguous (add_sorted_by_group (build_params infos) info) ∧
    (∃ pre post, build_params infos = pre ++ post ∧
      add_sorted_by_group (build_params infos) info = pre ++ info :: post ∧
      (∀ g, info.m_group_name = some g → ∀ y ∈ post, y.m_group_name ≠ some g) ∧
      (∀ g, info.m_group_name = some g →
        (∃ x ∈ build_params infos, x.m_group_name = some g) →
        ∃ front last, pre = front ++ [last] ∧ last.m_group_name = some g) ∧
      ((info.m_group_name = none ∨
          ∀ x ∈ build_params infos, x.m_group_name ≠ info.m_group_name) → post = [])) ∧
    (add_sorted_by_group (build_params infos) info).length =
      (build_params infos).length + 1 := by
  have h := build_params_grouped infos
  have h_pos : ∃ pre post, build_params infos = pre ++ post ∧
      add_sorted_by_group (build_params infos) info = pre ++ info :: post ∧
      (∀ g, info.m_group_name = some g → ∀ y ∈ post, y.m_group_name ≠ some g) ∧
      (∀ g, info.m_group_name = some g →
        (∃ x ∈ build_params infos, x.m_group_name = some g) →
        ∃ front last, pre = front ++ [last] ∧ last.m_group_name = some g) ∧
      ((info.m_group_name = none ∨
          ∀ x ∈ build_params infos, x.m_group_name ≠ info.m_group_name) → post = []) := by
    unfold add_sorted_by_group
    cases h_info : info.m_group_name with
    | none =>
      refine ⟨build_params infos, [], by simp, rfl, ?_, ?_, fun _ => rfl⟩
      · intro g hg
        simp at hg
      · intro g hg
        simp at hg
    | some g =>
      obtain ⟨pre, post, e1, e2, e3, e4, e5⟩ :=
        insert_in_group_position info g (build_params infos) h
      refine ⟨pre, post, e1, e2, ?_, ?_, ?_⟩
      · intro g0 hg0
        rw [← Option.some.inj hg0]
        exact e3
      · intro g0 hg0
        rw [← Option.some.inj hg0]
        exact e4
      · intro h_or
        rcases h_or with k | k
        · simp at k
        · exact e5 k
  refine ⟨grouped_contiguous _ h, ?_, h_pos, ?_⟩
  · exact grouped_contiguous _ (add_sorted_by_group_grouped _ info h)
  · obtain ⟨pre, post, e1, e2, _⟩ := h_pos
    rw [e2, e1]
    simp only [List.length_append, List.length_cons]
    omega

end DfCuda

namespace Coco

/-- A read never adds to what is left, and takes from it while the end-of-file
indicator is clear. -/
theorem read_char_reads_left (g : Generator) (ch : Char) :
    reads_left (read_char g ch).1 ≤ reads_left g ∧
      (g.fram_eof = false → reads_left (read_char g ch).1 < reads_left g) := by
  unfold read_char reads_left
  cases h : g.fram with
  | nil =>
    cases h_eof : g.fram_eof <;> simp [h]
  | cons c rest =>
    cases h_eof : g.fram_eof <;> simp [h, h_eof]

/-- The inner loop never adds to what is left, and when it ends without having found
the stop string it has read at least once. -/
theorem match_stop_reads_left :
    ∀ (rest : List Char) (i : Nat) (g : Generator) (ch : Char),
      reads_left (match_stop rest i g ch).2.2.1 ≤ reads_left g ∧
        (g.fram_eof = false → (match_stop rest i g ch).1 = false →
          reads_left (match_stop rest i g ch).2.2.1 < reads_left g) := by
  intro rest
  induction rest with
  | nil =>
    intro i g ch
    simp [match_stop]
  | cons c rest ih =>
    intro i g ch
    have h_read := read_char_reads_left g ch
    simp only [match_stop]
    split
    · have h_ih := (ih (i + 1) (read_char g ch).1 (read_char g ch).2).1
      refine ⟨by omega, ?_⟩
      intro h_eof _
      have := h_read.2 h_eof
      omega
    · refine ⟨h_read.1, ?_⟩
      intro h_eof _
      exact h_read.2 h_eof

/-- The loop ends before the fuel does when the fuel exceeds what is left to
read. -/
theorem copy_loop_terminates (stop : Option (List Char)) (generateOutput : Bool) :
    ∀ (fuel : Nat) (g : Generator) (ch : Char), reads_left g < fuel →
      copy_loop stop generateOutput fuel g ch ≠ .out_of_fuel := by
  intro fuel
  induction fuel with
  | zero => intro g ch h; omega
  | succ fuel ih =>
    intro g ch h_fuel
    have h_copy : g.fram_eof = false →
        copy_loop stop generateOutput fuel (copy_char generateOutput g ch).1
          (copy_char generateOutput g ch).2 ≠ .out_of_fuel := by
      intro h_eof
      apply ih
      have h := (read_char_reads_left
        { g with gen := if generateOutput then g.gen ++ [ch] else g.gen } ch).2 h_eof
      unfold copy_char
      have e : reads_left { g with gen := if generateOutput then g.gen ++ [ch] else g.gen } =
          reads_left g := rfl
      omega
    unfold copy_loop
    cases h_eof : g.fram_eof with
    | true =>
      simp only [if_true]
      split <;> simp
    | false =>
      simp only [Bool.false_eq_true, if_false]
      cases stop with
      | none => exact h_copy h_eof
      | some s =>
        cases s with
        | nil =>
          simp only []
          split
          · simp
          · exact h_copy h_eof
        | cons startCh rest =>
          simp only []
          split
          · have h_match := match_stop_reads_left rest 0 g ch
            split
            · simp
            · rename_i i g1 ch1 h_res
              apply ih
              have h_lt := h_match.2 h_eof (by rw [h_res])
              rw [h_res] at h_lt
              have e : reads_left
                  { g1 with
                    gen := if generateOutput then g1.gen ++ (startCh :: rest).take i
                      else g1.gen } = reads_left g1 := rfl
              simp only [] at h_lt
              omega
          · exact h_copy h_eof

/-- The member function `CopyFramePart` always ends: the fuel of the model is never
used up. -/
theorem CopyFramePart_terminates (stop : Option (List Char)) (generateOutput : Bool)
    (g : Generator) : CopyFramePart stop generateOutput g ≠ .out_of_fuel := by
  unfold CopyFramePart
  apply copy_loop_terminates
  have h := (read_char_reads_left g (Char.ofNat 0)).1
  have h2 : reads_left g ≤ g.fram.length + 1 := by
    unfold reads_left
    split <;> omega
  omega

/-- C30 at the failing input: the stop string `-->begin` occurs in the unread frame
text `--->begin`, preceded by `-`, yet `CopyFramePart` with output copies the whole
text, reaches the end of the file and raises the incomplete-frame error; without
output it consumes the whole text and raises the same error. -/
theorem CopyFramePart_misses_marker_after_partial_match :
    "--->begin".data = "-".data ++ "-->begin".data ++ [] ∧
    CopyFramePart (some "-->begin".data) true ⟨"--->begin".data, false, []⟩ =
      .incomplete ⟨[], true, "--->begin".data⟩ ∧
    CopyFramePart (some "-->begin".data) false ⟨"--->begin".data, false, []⟩ =
      .incomplete ⟨[], true, []⟩ := by
  decide

end Coco
